import Mathlib

/-! # Mercury parallel runtime: scheduler core

A shallow embedding of the scheduling code of `runtime/mercury_context.c`
(contexts, the run queue, the engine sleep/wake protocol, the idle loop,
join-and-continue, shutdown and the poll of pending I/O), of the nondet stack
macros of `runtime/stacks.h` and of `MR_arg` and `MR_named_arg` of
`runtime/mercury_deconstruct.c`, followed by theorems about them.

Conventions of the embedding.

* Pointers are natural numbers and `0` is `NULL`.  The contexts and the
  sync-terms live in two heaps (`Runtime.ctxt`, `Runtime.sync_terms`), total
  functions from addresses to records.
* `MR_ENGINE(f)` reads field `f` of the calling engine.  Every function that
  uses `MR_ENGINE` takes the id `me` of the calling engine and reads
  `s.engines me`; `MR_ENGINE(MR_eng_id)` is `me` itself.
* Each C function is one atomic transformation of the `Runtime`.  Code that
  may block (a semaphore wait, the busy-wait of the join) reports it in its
  result instead of waiting.
* Memory fences, thread-scope events and debug output have no counterpart.
-/

namespace Mercury

/-! ## Code addresses -/

/-- The entry labels of the scheduler module (`MR_define_entry`). -/
inductive MR_Entry
  | MR_do_idle
  | MR_do_idle_clean_context
  | MR_do_idle_dirty_context
  | MR_do_sleep
  | MR_do_not_reached
  deriving DecidableEq, Repr

/-- A value of type `MR_Code *`: `NULL`, the address of a scheduler entry, or
the address of a label of compiled code. -/
inductive MR_Code
  | null
  | entry (e : MR_Entry)
  | label (n : Nat)
  deriving DecidableEq, Repr

/-- The address of an entry label, `MR_ENTRY(e)`. -/
def MR_ENTRY (e : MR_Entry) : MR_Code := MR_Code.entry e

/-! ## Data model -/

/-- The two stack size classes, `MR_ContextSize`. -/
inductive MR_ContextSize
  | MR_CONTEXT_SIZE_REGULAR
  | MR_CONTEXT_SIZE_SMALL
  deriving DecidableEq, Repr

/-- The fields of `MR_Context` that the scheduler reads or writes.
`MR_ctxt_saved_regs` stands for the block of registers that `MR_save_context`
stores and `MR_load_context` restores. -/
structure MR_Context where
  MR_ctxt_size : MR_ContextSize
  MR_ctxt_next : Nat
  MR_ctxt_resume : MR_Code
  MR_ctxt_resume_owner_engine : Nat
  MR_ctxt_resume_engine_required : Bool
  MR_ctxt_resume_c_depth : Nat
  MR_ctxt_saved_regs : Nat
  MR_ctxt_detstack_zone : Nat
  MR_ctxt_prev_detstack_zones : Nat
  MR_ctxt_nondetstack_zone : Nat
  MR_ctxt_prev_nondetstack_zones : Nat
  deriving DecidableEq, Repr

/-- The join state of one parallel conjunction, `MR_SyncTerm`. -/
structure MR_SyncTerm where
  MR_st_orig_context : Nat
  MR_st_parent_sp : Nat
  MR_st_count : Nat
  deriving DecidableEq, Repr

/-- A spark, `MR_Spark`. -/
structure MR_Spark where
  MR_spark_sync_term : Nat
  MR_spark_resume : MR_Code
  MR_spark_thread_local_mutables : Nat
  deriving DecidableEq, Repr

/-- The per-engine data reached through `MR_ENGINE(...)` and the virtual
machine registers of the engine.  `MR_regs` stands for the registers that
`MR_save_context` and `MR_load_context` move.  `MR_eng_spark_deque` is the
content of the engine's deque, from the top (oldest spark) to the bottom. -/
structure MercuryEngine where
  MR_eng_this_context : Nat
  MR_eng_c_depth : Nat
  MR_eng_victim_counter : Nat
  MR_r1 : MR_Code
  MR_regs : Nat
  MR_parent_sp : Nat
  MR_thread_local_mutables : Nat
  MR_eng_spark_deque : List MR_Spark
  deriving DecidableEq, Repr

/-- Modelled from the spec: the `MR_ENGINE_ACTION_*` constants are defined in
`mercury_context.h`, which is not among the sources.  The spec lists "a
pending action ∈ {NONE, CONTEXT, WORKSTEAL, SHUTDOWN}". -/
inductive MR_EngineAction
  | MR_ENGINE_ACTION_NONE
  | MR_ENGINE_ACTION_CONTEXT
  | MR_ENGINE_ACTION_WORKSTEAL
  | MR_ENGINE_ACTION_SHUTDOWN
  deriving DecidableEq, Repr

/-- The engine states, bit masks as in the source. -/
def ENGINE_STATE_WORKING : Nat := 0x0001

/-- Engine state `sleeping`. -/
def ENGINE_STATE_SLEEPING : Nat := 0x0002

/-- Engine state `idle`. -/
def ENGINE_STATE_IDLE : Nat := 0x0004

/-- Engine state `woken`. -/
def ENGINE_STATE_WOKEN : Nat := 0x0008

/-- Every state bit. -/
def ENGINE_STATE_ALL : Nat := 0xFFFF

/-- The record `struct engine_sleep_sync_i`.  The two semaphores are their
counts.  `es_action_data` is the one word of `union
MR_engine_wake_action_data`: read as `MR_ewa_context` it is a context
pointer, read as `MR_ewa_worksteal_engine` an engine id. -/
structure engine_sleep_sync where
  es_sleep_semaphore : Nat
  es_wake_semaphore : Nat
  es_state : Nat
  es_action : MR_EngineAction
  es_action_data : Nat
  deriving DecidableEq, Repr

/-- The global state of the runtime together with the per-engine data.
`MR_spark_deques i` is entry `i` of the array of deque pointers: `none` for
`NULL`, `some j` for the address of the deque of engine `j`.
`MR_CONTEXT_SIZE_FOR_SPARK` is a constant of `mercury_context.h`, not among
the sources, kept as a parameter.  `next_context` and `next_zone` are the
addresses the allocator hands out next. -/
structure Runtime where
  MR_num_threads : Nat
  ctxt : Nat → MR_Context
  sync_terms : Nat → MR_SyncTerm
  engines : Nat → MercuryEngine
  engine_sleep_sync_data : Nat → engine_sleep_sync
  MR_runqueue_head : Nat
  MR_runqueue_tail : Nat
  free_context_list : Nat
  free_small_context_list : Nat
  MR_num_idle_engines : Int
  MR_num_outstanding_contexts : Int
  MR_max_outstanding_contexts : Int
  shutdown_semaphore : Nat
  MR_spark_deques : Nat → Option Nat
  MR_CONTEXT_SIZE_FOR_SPARK : MR_ContextSize
  next_context : Nat
  next_zone : Nat

/-- Store `c` at address `p` of the context heap. -/
def Runtime.setCtxt (s : Runtime) (p : Nat) (c : MR_Context) : Runtime :=
  { s with ctxt := Function.update s.ctxt p c }

/-- Store `e` as the data of engine `i`. -/
def Runtime.setEngine (s : Runtime) (i : Nat) (e : MercuryEngine) : Runtime :=
  { s with engines := Function.update s.engines i e }

/-- Store `t` at address `p` of the sync-term heap. -/
def Runtime.setSyncTerm (s : Runtime) (p : Nat) (t : MR_SyncTerm) : Runtime :=
  { s with sync_terms := Function.update s.sync_terms p t }

/-- Store `d` as the sleep synchroniser of engine `i`. -/
def Runtime.setSync (s : Runtime) (i : Nat) (d : engine_sleep_sync) : Runtime :=
  { s with engine_sleep_sync_data := Function.update s.engine_sleep_sync_data i d }

/-! ## Saving and loading contexts -/

/-- Modelled from the spec: `MR_save_context` is a macro of
`mercury_context.h`, not among the sources; the spec says "save all registers
into context". -/
def MR_save_context (s : Runtime) (me : Nat) (c : Nat) : Runtime :=
  s.setCtxt c { s.ctxt c with MR_ctxt_saved_regs := (s.engines me).MR_regs }

/-- Modelled from the spec: `MR_load_context` is a macro of
`mercury_context.h`, not among the sources; it is the converse of
`MR_save_context` ("load the carried context"). -/
def MR_load_context (s : Runtime) (me : Nat) (c : Nat) : Runtime :=
  s.setEngine me { s.engines me with MR_regs := (s.ctxt c).MR_ctxt_saved_regs }

/-! ## The context pool: `MR_destroy_context` -/

/-- The function `MR_destroy_context(c)`: record the calling engine, save the
bookkeeping registers, count one context less and push `c` on the free list
of its size class.  The two `MR_assert`s are debugging checks and are not
modelled. -/
def MR_destroy_context (s : Runtime) (me : Nat) (c : Nat) : Runtime :=
  let s1 := s.setCtxt c { s.ctxt c with MR_ctxt_resume_owner_engine := me }
  let s2 := MR_save_context s1 me c
  let s3 := { s2 with MR_num_outstanding_contexts := s2.MR_num_outstanding_contexts - 1 }
  match (s3.ctxt c).MR_ctxt_size with
  | MR_ContextSize.MR_CONTEXT_SIZE_REGULAR =>
    { s3.setCtxt c { s3.ctxt c with MR_ctxt_next := s3.free_context_list } with
      free_context_list := c }
  | MR_ContextSize.MR_CONTEXT_SIZE_SMALL =>
    { s3.setCtxt c { s3.ctxt c with MR_ctxt_next := s3.free_small_context_list } with
      free_small_context_list := c }

/-- The function `prepare_engine_for_context(context)`: discard the context
the engine still holds, if any, and switch to `context`. -/
def prepare_engine_for_context (s : Runtime) (me : Nat) (context : Nat) : Runtime :=
  let s1 :=
    if (s.engines me).MR_eng_this_context ≠ 0 then
      MR_destroy_context s me (s.engines me).MR_eng_this_context
    else s
  let s2 := s1.setEngine me { s1.engines me with MR_eng_this_context := context }
  MR_load_context s2 me context

/-- The function `save_dirty_context(join_label)`. -/
def save_dirty_context (s : Runtime) (me : Nat) (join_label : MR_Code) : Runtime :=
  let this_context := (s.engines me).MR_eng_this_context
  let s1 := s.setCtxt this_context
    { s.ctxt this_context with MR_ctxt_resume_owner_engine := me }
  let s2 := MR_save_context s1 me this_context
  let s3 := s2.setCtxt this_context
    { s2.ctxt this_context with MR_ctxt_resume := join_label }
  s3.setEngine me { s3.engines me with MR_eng_this_context := 0 }

/-! ## Join and continue -/

/-- The modulus of `MR_Unsigned` arithmetic (a 64-bit machine word). -/
def MR_UNSIGNED_MOD : Nat := 2 ^ 64

/-- Modelled from the spec: `MR_atomic_dec_and_is_zero_uint` is defined in
`mercury_atomic_ops.h`, not among the sources.  The spec says "Atomically
decrement the sync-term count; record whether the decrement produced zero".
The result is the new value of the word and the flag. -/
def MR_atomic_dec_and_is_zero_uint (n : Nat) : Nat × Bool :=
  let n1 := (n + (MR_UNSIGNED_MOD - 1)) % MR_UNSIGNED_MOD
  (n1, decide (n1 = 0))

/-- The busy-wait of `MR_do_join_and_continue`,
`while (orig->MR_ctxt_resume != join_label) MR_ATOMIC_PAUSE;`.
The result is the number of times the body ran, or `none` when the loop is
still spinning after `fuel` rounds.  No other engine runs during an atomic
step, so the condition does not change between rounds. -/
def join_wait_loop (s : Runtime) (orig : Nat) (join_label : MR_Code) : Nat → Option Nat
  | 0 => if (s.ctxt orig).MR_ctxt_resume ≠ join_label then none else some 0
  | fuel + 1 =>
    if (s.ctxt orig).MR_ctxt_resume ≠ join_label then
      (join_wait_loop s orig join_label fuel).map (fun k => k + 1)
    else some 0

/-- The function `MR_do_join_and_continue(jnc_st, join_label)`, run by engine
`me`.  The first component is the code address returned, or `none` when the
caller is still in the busy-wait after `fuel` rounds; the second component
is the state reached (at the return, or while spinning). -/
def MR_do_join_and_continue (fuel : Nat) (s : Runtime) (me : Nat) (jnc_st : Nat)
    (join_label : MR_Code) : Option MR_Code × Runtime :=
  let this_context := (s.engines me).MR_eng_this_context
  let dec := MR_atomic_dec_and_is_zero_uint (s.sync_terms jnc_st).MR_st_count
  let s1 := s.setSyncTerm jnc_st { s.sync_terms jnc_st with MR_st_count := dec.1 }
  let jnc_last := dec.2
  if this_context = (s1.sync_terms jnc_st).MR_st_orig_context then
    if jnc_last then
      (some join_label, s1)
    else
      (some (MR_ENTRY MR_Entry.MR_do_idle_dirty_context),
        s1.setEngine me { s1.engines me with MR_r1 := join_label })
  else
    if jnc_last then
      match join_wait_loop s1 (s1.sync_terms jnc_st).MR_st_orig_context join_label fuel with
      | none => (none, s1)
      | some _ =>
        (some join_label,
          prepare_engine_for_context s1 me (s1.sync_terms jnc_st).MR_st_orig_context)
    else
      (some (MR_ENTRY MR_Entry.MR_do_idle_clean_context), s1)

/-- A sequence of calls of `MR_do_join_and_continue` on the sync-term
`jnc_st`.  Each element of the list is one call: the state in which it is
made and the calling engine.  Between two calls everything may have changed
except the count of the sync-term, which is the one the previous call left.
The result lists what each call returns. -/
def join_calls (fuel : Nat) (jnc_st : Nat) (join_label : MR_Code) :
    Nat → List (Runtime × Nat) → List (Option MR_Code)
  | _, [] => []
  | count, (s, me) :: rest =>
    let s0 := s.setSyncTerm jnc_st { s.sync_terms jnc_st with MR_st_count := count }
    let r := MR_do_join_and_continue fuel s0 me jnc_st join_label
    r.1 :: join_calls fuel jnc_st join_label (r.2.sync_terms jnc_st).MR_st_count rest

/-! ## Semaphores -/

/-- Modelled from the spec: `MR_SEM_WAIT` is a macro of `mercury_thread.h`
over POSIX `sem_wait`, not among the sources.  A wait on a positive count
lowers it by one; a wait on a zero count blocks (`none`). -/
def MR_SEM_WAIT (sem : Nat) : Option Nat :=
  if sem = 0 then none else some (sem - 1)

/-- Modelled from the spec: `MR_SEM_POST` is a macro of `mercury_thread.h`
over POSIX `sem_post`, not among the sources.  A post raises the count by
one. -/
def MR_SEM_POST (sem : Nat) : Nat := sem + 1

/-! ## Initialisation -/

/-- The memory of a context before anything is stored in it (all zero). -/
def zero_context : MR_Context :=
  { MR_ctxt_size := MR_ContextSize.MR_CONTEXT_SIZE_REGULAR
    MR_ctxt_next := 0
    MR_ctxt_resume := MR_Code.null
    MR_ctxt_resume_owner_engine := 0
    MR_ctxt_resume_engine_required := false
    MR_ctxt_resume_c_depth := 0
    MR_ctxt_saved_regs := 0
    MR_ctxt_detstack_zone := 0
    MR_ctxt_prev_detstack_zones := 0
    MR_ctxt_nondetstack_zone := 0
    MR_ctxt_prev_nondetstack_zones := 0 }

/-- The data of an engine that holds no context. -/
def zero_engine : MercuryEngine :=
  { MR_eng_this_context := 0
    MR_eng_c_depth := 0
    MR_eng_victim_counter := 0
    MR_r1 := MR_Code.null
    MR_regs := 0
    MR_parent_sp := 0
    MR_thread_local_mutables := 0
    MR_eng_spark_deque := [] }

/-- The state set up by `MR_init_context_stuff` and the static initialisers of
the file: empty run queue and free lists, counters zero, the shutdown
semaphore at 0, and for every engine the sleep semaphore at 0, the wake
semaphore at 1, state WORKING and action NONE.  `num_threads` is the
configured `MR_num_threads`; when it is 0 it is taken from `nprocs`, the
result of `sysconf(_SC_NPROCESSORS_ONLN)`, or set to 1 when that is below 1.
`max_contexts` is the configured `MR_max_outstanding_contexts`.  Every entry
of `MR_spark_deques` is `NULL`; nothing has been allocated yet. -/
def MR_init_context_stuff (num_threads : Nat) (nprocs : Int) (max_contexts : Int) : Runtime :=
  { MR_num_threads :=
      if num_threads = 0 then (if nprocs < 1 then 1 else nprocs.toNat) else num_threads
    ctxt := fun _ => zero_context
    sync_terms := fun _ =>
      { MR_st_orig_context := 0, MR_st_parent_sp := 0, MR_st_count := 0 }
    engines := fun _ => zero_engine
    engine_sleep_sync_data := fun _ =>
      { es_sleep_semaphore := 0
        es_wake_semaphore := 1
        es_state := ENGINE_STATE_WORKING
        es_action := MR_EngineAction.MR_ENGINE_ACTION_NONE
        es_action_data := 0 }
    MR_runqueue_head := 0
    MR_runqueue_tail := 0
    free_context_list := 0
    free_small_context_list := 0
    MR_num_idle_engines := 0
    MR_num_outstanding_contexts := 0
    MR_max_outstanding_contexts := max_contexts
    shutdown_semaphore := 0
    MR_spark_deques := fun _ => none
    MR_CONTEXT_SIZE_FOR_SPARK := MR_ContextSize.MR_CONTEXT_SIZE_SMALL
    next_context := 1
    next_zone := 1 }

/-! ## The engine sleep/wake protocol -/

/-- The function `try_wake_engine(engine_id, action, action_data, states)`.
`action_data` is `none` for a null pointer and `some d` for a pointer to the
word `d`.  The result is `none` when the caller blocks on the wake semaphore
of the engine. -/
def try_wake_engine (s : Runtime) (engine_id : Nat) (action : MR_EngineAction)
    (action_data : Option Nat) (states : Nat) : Option (Bool × Runtime) :=
  let esync := s.engine_sleep_sync_data engine_id
  match MR_SEM_WAIT esync.es_wake_semaphore with
  | none => none
  | some w =>
    let e1 := { esync with es_wake_semaphore := w }
    if e1.es_state &&& states ≠ 0 then
      let e2 := { e1 with es_action := action }
      let e3 :=
        match action_data with
        | some d => { e2 with es_action_data := d }
        | none => e2
      let e4 := { e3 with es_state := ENGINE_STATE_WOKEN }
      let e5 := { e4 with es_sleep_semaphore := MR_SEM_POST e4.es_sleep_semaphore }
      let e6 := { e5 with es_wake_semaphore := MR_SEM_POST e5.es_wake_semaphore }
      some (true, s.setSync engine_id e6)
    else
      let e6 := { e1 with es_wake_semaphore := MR_SEM_POST e1.es_wake_semaphore }
      some (false, s.setSync engine_id e6)

/-- The loop of `MR_try_wake_an_engine` from iteration `i = MR_num_threads - k`
on.  The result is the value returned, the word behind `target_eng`, and the
state; `none` when a call of `try_wake_engine` blocks. -/
def MR_try_wake_an_engine_loop (me preferred_engine : Nat) (action : MR_EngineAction)
    (action_data : Option Nat) (target_eng : Option Nat) :
    Nat → Runtime → Option (Bool × Option Nat × Runtime)
  | 0, s => some (false, target_eng, s)
  | k + 1, s =>
    let i := s.MR_num_threads - (k + 1)
    let current_engine := (i + preferred_engine) % s.MR_num_threads
    if current_engine = me then
      MR_try_wake_an_engine_loop me preferred_engine action action_data target_eng k s
    else
      let state := (s.engine_sleep_sync_data current_engine).es_state
      if state = ENGINE_STATE_SLEEPING then
        match try_wake_engine s current_engine action action_data ENGINE_STATE_SLEEPING with
        | none => none
        | some (true, s1) =>
          some (true, target_eng.map (fun _ => current_engine), s1)
        | some (false, s1) =>
          MR_try_wake_an_engine_loop me preferred_engine action action_data target_eng k s1
      else
        MR_try_wake_an_engine_loop me preferred_engine action action_data target_eng k s

/-- The function `MR_try_wake_an_engine(preferred_engine, action, action_data,
target_eng)`, called by engine `me`.  `target_eng` is `none` for a null
pointer and `some v` for a pointer to a variable that holds `v`. -/
def MR_try_wake_an_engine (s : Runtime) (me preferred_engine : Nat)
    (action : MR_EngineAction) (action_data : Option Nat) (target_eng : Option Nat) :
    Option (Bool × Option Nat × Runtime) :=
  MR_try_wake_an_engine_loop me preferred_engine action action_data target_eng
    s.MR_num_threads s

/-- The tail of `MR_schedule_context`: append `ctxt` to the run queue. -/
def runqueue_append (s : Runtime) (ctxt : Nat) : Runtime :=
  let s1 := s.setCtxt ctxt { s.ctxt ctxt with MR_ctxt_next := 0 }
  if s1.MR_runqueue_tail ≠ 0 then
    let s2 := s1.setCtxt s1.MR_runqueue_tail
      { s1.ctxt s1.MR_runqueue_tail with MR_ctxt_next := ctxt }
    { s2 with MR_runqueue_tail := ctxt }
  else
    { s1 with MR_runqueue_head := ctxt, MR_runqueue_tail := ctxt }

/-- The function `MR_schedule_context(ctxt)`, called by engine `me`; `none`
when a call of `try_wake_engine` blocks. -/
def MR_schedule_context (s : Runtime) (me : Nat) (ctxt : Nat) : Option Runtime :=
  let engine_id := (s.ctxt ctxt).MR_ctxt_resume_owner_engine
  if (s.ctxt ctxt).MR_ctxt_resume_engine_required = true then
    match try_wake_engine s engine_id MR_EngineAction.MR_ENGINE_ACTION_CONTEXT (some ctxt)
        (ENGINE_STATE_IDLE ||| ENGINE_STATE_SLEEPING) with
    | none => none
    | some (true, s1) => some s1
    | some (false, s1) => some (runqueue_append s1 ctxt)
  else
    if s.MR_num_idle_engines > 0 then
      match MR_try_wake_an_engine s me engine_id MR_EngineAction.MR_ENGINE_ACTION_CONTEXT
          (some ctxt) none with
      | none => none
      | some (true, _, s1) => some s1
      | some (false, _, s1) => some (runqueue_append s1 ctxt)
    else
      some (runqueue_append s ctxt)

/-- One iteration `i` of the first loop of `MR_shutdown_all_engines`, run by
engine `me`: `try_wake_engine(i, MR_ENGINE_ACTION_SHUTDOWN, NULL,
ENGINE_STATE_ALL)` unless `i` is the caller. -/
def MR_shutdown_all_engines_wake (s : Runtime) (me i : Nat) : Option Runtime :=
  if i = me then some s
  else
    (try_wake_engine s i MR_EngineAction.MR_ENGINE_ACTION_SHUTDOWN none
      ENGINE_STATE_ALL).map (fun r => r.2)

/-- The function `advertise_engine_state_idle()`, run by engine `me`. -/
def advertise_engine_state_idle (s : Runtime) (me : Nat) : Runtime :=
  let s1 := s.setSync me
    { s.engine_sleep_sync_data me with es_state := ENGINE_STATE_IDLE }
  { s1 with MR_num_idle_engines := s1.MR_num_idle_engines + 1 }

/-- The function `advertise_engine_state_working()`, run by engine `me`. -/
def advertise_engine_state_working (s : Runtime) (me : Nat) : Runtime :=
  let s1 := { s with MR_num_idle_engines := s.MR_num_idle_engines - 1 }
  s1.setSync me { s1.engine_sleep_sync_data me with es_state := ENGINE_STATE_WORKING }

/-- The head of the loop of `MR_do_sleep`, run by engine `me`:
`es_state = ENGINE_STATE_SLEEPING`. -/
def MR_do_sleep_set_sleeping (s : Runtime) (me : Nat) : Runtime :=
  s.setSync me { s.engine_sleep_sync_data me with es_state := ENGINE_STATE_SLEEPING }

/-- The wait of `MR_do_sleep`, run by engine `me`: the wait on its own sleep
semaphore, and, when that returns 0, the read of the action the engine is to
do.  `none` when the engine stays blocked. -/
def MR_do_sleep_wait (s : Runtime) (me : Nat) : Option (MR_EngineAction × Runtime) :=
  match MR_SEM_WAIT (s.engine_sleep_sync_data me).es_sleep_semaphore with
  | none => none
  | some v =>
    let s1 := s.setSync me { s.engine_sleep_sync_data me with es_sleep_semaphore := v }
    some ((s1.engine_sleep_sync_data me).es_action, s1)

/-- The steps of the signalling protocol: the three wakers, each one atomic
step, and the transitions an engine makes on its own synchroniser. -/
inductive SignalStep
  | schedule_context (me ctxt : Nat)
  | try_wake_an_engine (me preferred_engine : Nat) (action : MR_EngineAction)
      (action_data : Option Nat)
  | shutdown_wake (me i : Nat)
  | advertise_idle (e : Nat)
  | advertise_working (e : Nat)
  | set_sleeping (e : Nat)
  | sleep_wait (e : Nat)
  deriving DecidableEq, Repr

/-- One step of the protocol.  A step whose thread is blocked on a semaphore
leaves the state as it is. -/
def SignalStep.apply (s : Runtime) : SignalStep → Runtime
  | SignalStep.schedule_context me ctxt => (MR_schedule_context s me ctxt).getD s
  | SignalStep.try_wake_an_engine me p a d =>
    ((MR_try_wake_an_engine s me p a d none).map (fun r => r.2.2)).getD s
  | SignalStep.shutdown_wake me i => (MR_shutdown_all_engines_wake s me i).getD s
  | SignalStep.advertise_idle e => advertise_engine_state_idle s e
  | SignalStep.advertise_working e => advertise_engine_state_working s e
  | SignalStep.set_sleeping e => MR_do_sleep_set_sleeping s e
  | SignalStep.sleep_wait e => ((MR_do_sleep_wait s e).map (fun r => r.2)).getD s

/-- A run: the steps of the list, one after the other. -/
def signal_run (s : Runtime) (steps : List SignalStep) : Runtime :=
  steps.foldl SignalStep.apply s

/-- The engine that a step belongs to when the step is a transition of an
engine on its own synchroniser. -/
def SignalStep.own_engine : SignalStep → Option Nat
  | SignalStep.advertise_idle e => some e
  | SignalStep.advertise_working e => some e
  | SignalStep.set_sleeping e => some e
  | SignalStep.sleep_wait e => some e
  | _ => none

/-- A step of `MR_shutdown_all_engines`. -/
def SignalStep.is_shutdown : SignalStep → Bool
  | SignalStep.shutdown_wake _ _ => true
  | _ => false

/-! ## The run queue: `MR_find_ready_context` -/

/-- The `while (cur != NULL)` loop of `MR_find_ready_context` for the engine
`engine_id` at C depth `depth`, on the context heap `h`.  The arguments after
`h` are the loop variables `cur`, `prev`, `preferred_context` and
`preferred_context_prev`.  The result is the heap (the loop clears the
`MR_ctxt_resume_engine_required` flag of the context it breaks on) and the
final `preferred_context` and `preferred_context_prev`; `none` when the loop
has not ended after `fuel` nodes. -/
def MR_find_ready_context_loop (engine_id depth : Nat) :
    Nat → (Nat → MR_Context) → Nat → Nat → Nat → Nat →
      Option ((Nat → MR_Context) × Nat × Nat)
  | 0, h, cur, _, preferred_context, preferred_context_prev =>
    if cur = 0 then some (h, preferred_context, preferred_context_prev) else none
  | fuel + 1, h, cur, prev, preferred_context, preferred_context_prev =>
    if cur = 0 then some (h, preferred_context, preferred_context_prev)
    else if (h cur).MR_ctxt_resume_engine_required = true then
      if (h cur).MR_ctxt_resume_owner_engine = engine_id ∧
          (h cur).MR_ctxt_resume_c_depth = depth then
        some (Function.update h cur
          { h cur with MR_ctxt_resume_engine_required := false }, cur, prev)
      else
        MR_find_ready_context_loop engine_id depth fuel h (h cur).MR_ctxt_next cur
          preferred_context preferred_context_prev
    else if (h cur).MR_ctxt_resume_owner_engine = engine_id then
      MR_find_ready_context_loop engine_id depth fuel h (h cur).MR_ctxt_next cur cur prev
    else if preferred_context = 0 then
      MR_find_ready_context_loop engine_id depth fuel h (h cur).MR_ctxt_next cur cur prev
    else
      MR_find_ready_context_loop engine_id depth fuel h (h cur).MR_ctxt_next cur
        preferred_context preferred_context_prev

/-- The function `MR_find_ready_context()`, run by engine `me`: the scan,
then the splice of the chosen context out of the run queue.  The result is
the context returned (`0` for `NULL`) and the state; `none` when the scan has
not ended after `fuel` nodes (a run queue that is not a finite chain). -/
def MR_find_ready_context (fuel : Nat) (s : Runtime) (me : Nat) : Option (Nat × Runtime) :=
  let engine_id := me
  let depth := (s.engines me).MR_eng_c_depth
  match MR_find_ready_context_loop engine_id depth fuel s.ctxt s.MR_runqueue_head 0 0 0 with
  | none => none
  | some (h, preferred_context, preferred_context_prev) =>
    let s1 := { s with ctxt := h }
    if preferred_context ≠ 0 then
      let s2 :=
        if preferred_context_prev ≠ 0 then
          s1.setCtxt preferred_context_prev
            { s1.ctxt preferred_context_prev with
              MR_ctxt_next := (s1.ctxt preferred_context).MR_ctxt_next }
        else
          { s1 with MR_runqueue_head := (s1.ctxt preferred_context).MR_ctxt_next }
      let s3 :=
        if s2.MR_runqueue_tail = preferred_context then
          { s2 with MR_runqueue_tail := preferred_context_prev }
        else s2
      some (preferred_context, s3)
    else
      some (preferred_context, s1)

/-- The run queue is the chain `q`: starting from pointer `p`, the heap `h`
links the addresses of `q` in this order through `MR_ctxt_next`, none of them
is null, and the last one ends the chain with `NULL`. -/
def is_chain (h : Nat → MR_Context) : Nat → List Nat → Prop
  | p, [] => p = 0
  | p, a :: q => p = a ∧ a ≠ 0 ∧ is_chain h (h a).MR_ctxt_next q

/-- The chain property can be computed. -/
instance is_chain_decidable (h : Nat → MR_Context) :
    (p : Nat) → (q : List Nat) → Decidable (is_chain h p q)
  | p, [] => inferInstanceAs (Decidable (p = 0))
  | p, a :: q =>
    have := is_chain_decidable h (h a).MR_ctxt_next q
    inferInstanceAs (Decidable (p = a ∧ a ≠ 0 ∧ is_chain h (h a).MR_ctxt_next q))

/-- The context at `a` must run on engine `e` at C depth `d`: its
hard-affinity flag is set, its owner engine is `e` and its depth is `d`. -/
def hard_match (h : Nat → MR_Context) (e d : Nat) (a : Nat) : Bool :=
  (h a).MR_ctxt_resume_engine_required &&
    decide ((h a).MR_ctxt_resume_owner_engine = e) &&
    decide ((h a).MR_ctxt_resume_c_depth = d)

/-- The context at `a` has no hard affinity and prefers engine `e`. -/
def soft_match (h : Nat → MR_Context) (e : Nat) (a : Nat) : Bool :=
  !(h a).MR_ctxt_resume_engine_required &&
    decide ((h a).MR_ctxt_resume_owner_engine = e)

/-- The context at `a` has no hard affinity. -/
def no_affinity (h : Nat → MR_Context) (a : Nat) : Bool :=
  !(h a).MR_ctxt_resume_engine_required

/-! ## Sparks, context creation and the idle loop -/

/-- The outcome of scheduler code that can abort the process
(`MR_fatal_error`) or contains a loop (`out_of_fuel`: the loop has not ended
within the given number of rounds). -/
inductive Outcome (α : Type)
  | ok (a : α)
  | fatal_error (msg : String)
  | out_of_fuel

/-- Modelled from the spec: `MR_wsdeque_pop_bottom` is defined in
`mercury_wsdeque.h`, not among the sources.  The spec says "`pop_bottom() →
spark | empty` — owner only": the owner takes the spark at the bottom, the
one pushed last. -/
def MR_wsdeque_pop_bottom (dq : List MR_Spark) : Option (MR_Spark × List MR_Spark) :=
  match dq.getLast? with
  | none => none
  | some spark => some (spark, dq.dropLast)

/-- Modelled from the spec: `MR_wsdeque_steal_top` is defined in
`mercury_wsdeque.h`, not among the sources.  The spec says "`steal_top() →
spark | empty | abort`", a thief takes the spark at the top, the oldest one;
without a concurrent thief there is no abort. -/
def MR_wsdeque_steal_top (dq : List MR_Spark) : Option (MR_Spark × List MR_Spark) :=
  match dq with
  | [] => none
  | spark :: rest => some (spark, rest)

/-- Modelled from the spec: `MR_GC_NEW` is a macro of `mercury_memory.h`, not
among the sources; "allocation failure is fatal", so the call returns a new
address.  In the grade of the parallel runtime the memory comes from the
conservative collector, which hands out cleared memory: the context at the
new address is all zero. -/
def MR_GC_NEW (s : Runtime) : Nat × Runtime :=
  (s.next_context,
    { s with
      next_context := s.next_context + 1
      ctxt := Function.update s.ctxt s.next_context zero_context })

/-- Modelled from the spec: `MR_create_or_reuse_zone` is defined in
`mercury_memory_zones.c`, not among the sources; it returns a zone, never
`NULL`.  The zone is the same whatever name it is asked for; sizes are not
modelled. -/
def MR_create_or_reuse_zone (s : Runtime) (_name : String) : Nat × Runtime :=
  (s.next_zone, { s with next_zone := s.next_zone + 1 })

/-- The function `MR_init_context_maybe_generator(c, id, gen)` in the grade
of the parallel runtime (thread safe, low-level code, conservative collector,
no trail, no minimal model).  The name `id` and the sizes of the stacks are
not modelled; the registers of a new computation are the word 0.  `gen` is
`0` for a null generator. -/
def MR_init_context_maybe_generator (s : Runtime) (c : Nat) (gen : Nat) : Outcome Runtime :=
  let s1 := s.setCtxt c
    { s.ctxt c with
      MR_ctxt_next := 0
      MR_ctxt_resume := MR_Code.null
      MR_ctxt_resume_owner_engine := 0
      MR_ctxt_resume_engine_required := false
      MR_ctxt_resume_c_depth := 0 }
  let detstack_name :=
    match (s1.ctxt c).MR_ctxt_size with
    | MR_ContextSize.MR_CONTEXT_SIZE_REGULAR => "detstack"
    | MR_ContextSize.MR_CONTEXT_SIZE_SMALL => "small_detstack"
  let nondetstack_name :=
    match (s1.ctxt c).MR_ctxt_size with
    | MR_ContextSize.MR_CONTEXT_SIZE_REGULAR => "nondetstack"
    | MR_ContextSize.MR_CONTEXT_SIZE_SMALL => "small_nondetstack"
  -- the det stack
  let det : Option Runtime :=
    if (s1.ctxt c).MR_ctxt_detstack_zone = 0 then
      let z := MR_create_or_reuse_zone s1 (if gen ≠ 0 then "gen_detstack" else detstack_name)
      let s2 := z.2.setCtxt c { z.2.ctxt c with MR_ctxt_detstack_zone := z.1 }
      if (s2.ctxt c).MR_ctxt_prev_detstack_zones ≠ 0 then none else some s2
    else some s1
  match det with
  | none => Outcome.fatal_error "MR_init_context_maybe_generator: prev det stack"
  | some s3 =>
    let s4 := s3.setCtxt c { s3.ctxt c with MR_ctxt_prev_detstack_zones := 0 }
    -- the nondet stack
    let nondet : Option Runtime :=
      if (s4.ctxt c).MR_ctxt_nondetstack_zone = 0 then
        let z := MR_create_or_reuse_zone s4
          (if gen ≠ 0 then "gen_nondetstack" else nondetstack_name)
        let s5 := z.2.setCtxt c { z.2.ctxt c with MR_ctxt_nondetstack_zone := z.1 }
        if (s5.ctxt c).MR_ctxt_prev_nondetstack_zones ≠ 0 then none else some s5
      else some s4
    match nondet with
    | none => Outcome.fatal_error "MR_init_context_maybe_generator: prev nondet stack"
    | some s6 =>
      Outcome.ok (s6.setCtxt c
        { s6.ctxt c with MR_ctxt_prev_nondetstack_zones := 0, MR_ctxt_saved_regs := 0 })

/-- The function `MR_create_context(id, ctxt_size, gen)`.  The result is the
address of the context and the state. -/
def MR_create_context (s : Runtime) (ctxt_size : MR_ContextSize) (gen : Nat) :
    Outcome (Nat × Runtime) :=
  let s1 := { s with MR_num_outstanding_contexts := s.MR_num_outstanding_contexts + 1 }
  let r2 : Nat × Runtime :=
    if ctxt_size = MR_ContextSize.MR_CONTEXT_SIZE_SMALL ∧ s1.free_small_context_list ≠ 0 then
      (s1.free_small_context_list,
        { s1 with free_small_context_list :=
            (s1.ctxt s1.free_small_context_list).MR_ctxt_next })
    else (0, s1)
  let r3 : Nat × Runtime :=
    if r2.1 = 0 ∧ r2.2.free_context_list ≠ 0 then
      (r2.2.free_context_list,
        { r2.2 with free_context_list := (r2.2.ctxt r2.2.free_context_list).MR_ctxt_next })
    else r2
  let r4 : Nat × Runtime :=
    if r3.1 = 0 then
      let a := MR_GC_NEW r3.2
      (a.1, a.2.setCtxt a.1
        { a.2.ctxt a.1 with
          MR_ctxt_size := ctxt_size
          MR_ctxt_detstack_zone := 0
          MR_ctxt_nondetstack_zone := 0 })
    else r3
  match MR_init_context_maybe_generator r4.2 r4.1 gen with
  | Outcome.ok s5 => Outcome.ok (r4.1, s5)
  | Outcome.fatal_error msg => Outcome.fatal_error msg
  | Outcome.out_of_fuel => Outcome.out_of_fuel

/-- The function `prepare_engine_for_spark(spark, join_label)`, run by engine
`me`.  The three `MR_assert`s at its end are debugging checks and are not
modelled. -/
def prepare_engine_for_spark (s : Runtime) (me : Nat) (spark : MR_Spark)
    (join_label : MR_Code) : Outcome Runtime :=
  let this_context := (s.engines me).MR_eng_this_context
  let r1 : Nat × Runtime :=
    if this_context ≠ 0 ∧ join_label ≠ MR_Code.null ∧
        (s.sync_terms spark.MR_spark_sync_term).MR_st_orig_context ≠ this_context then
      (0, save_dirty_context s me join_label)
    else (this_context, s)
  let r2 : Outcome Runtime :=
    if r1.1 = 0 then
      match MR_create_context r1.2 r1.2.MR_CONTEXT_SIZE_FOR_SPARK 0 with
      | Outcome.ok (c, s2) =>
        let s3 := s2.setEngine me { s2.engines me with MR_eng_this_context := c }
        Outcome.ok (MR_load_context s3 me (s3.engines me).MR_eng_this_context)
      | Outcome.fatal_error msg => Outcome.fatal_error msg
      | Outcome.out_of_fuel => Outcome.out_of_fuel
    else Outcome.ok r1.2
  match r2 with
  | Outcome.ok s4 =>
    Outcome.ok (s4.setEngine me
      { s4.engines me with
        MR_parent_sp := (s4.sync_terms spark.MR_spark_sync_term).MR_st_parent_sp
        MR_thread_local_mutables := spark.MR_spark_thread_local_mutables })
  | Outcome.fatal_error msg => Outcome.fatal_error msg
  | Outcome.out_of_fuel => Outcome.out_of_fuel

/-- The function `do_local_spark(join_label)`, run by engine `me`.  The
result is the code address returned (`null` when the deque of the engine is
empty) and the state. -/
def do_local_spark (s : Runtime) (me : Nat) (join_label : MR_Code) :
    Outcome (MR_Code × Runtime) :=
  match MR_wsdeque_pop_bottom (s.engines me).MR_eng_spark_deque with
  | none => Outcome.ok (MR_Code.null, s)
  | some (spark, rest) =>
    let s1 := s.setEngine me { s.engines me with MR_eng_spark_deque := rest }
    match prepare_engine_for_spark s1 me spark join_label with
    | Outcome.ok s2 => Outcome.ok (spark.MR_spark_resume, s2)
    | Outcome.fatal_error msg => Outcome.fatal_error msg
    | Outcome.out_of_fuel => Outcome.out_of_fuel

/-- The `for` loop of `MR_attempt_steal_spark` from iteration
`i = MR_num_threads - k` on, with `offset` the victim counter read before the
loop.  The result is the final value of `i`, the spark stolen if any, and the
state. -/
def MR_attempt_steal_spark_loop (offset : Nat) :
    Nat → Runtime → Nat × Option MR_Spark × Runtime
  | 0, s => (s.MR_num_threads, none, s)
  | k + 1, s =>
    let i := s.MR_num_threads - (k + 1)
    match s.MR_spark_deques ((i + offset) % s.MR_num_threads) with
    | none => MR_attempt_steal_spark_loop offset k s
    | some victim =>
      match MR_wsdeque_steal_top (s.engines victim).MR_eng_spark_deque with
      | some (spark, rest) =>
        (i, some spark,
          s.setEngine victim { s.engines victim with MR_eng_spark_deque := rest })
      | none => MR_attempt_steal_spark_loop offset k s

/-- The function `MR_attempt_steal_spark(spark)`, run by engine `me`.  The
result is the spark stolen (`none` when the function returns false) and the
state. -/
def MR_attempt_steal_spark (s : Runtime) (me : Nat) : Option MR_Spark × Runtime :=
  let offset := (s.engines me).MR_eng_victim_counter
  let r := MR_attempt_steal_spark_loop offset s.MR_num_threads s
  (r.2.1, r.2.2.setEngine me
    { r.2.2.engines me with MR_eng_victim_counter := r.1 % r.2.2.MR_num_threads })

/-- The function `do_work_steal(join_label)`, run by engine `me`. -/
def do_work_steal (s : Runtime) (me : Nat) (join_label : MR_Code) :
    Outcome (MR_Code × Runtime) :=
  if ¬ ((s.engines me).MR_eng_this_context = 0 ∧
      s.MR_max_outstanding_contexts ≤ s.MR_num_outstanding_contexts) then
    match MR_attempt_steal_spark s me with
    | (some spark, s1) =>
      match prepare_engine_for_spark s1 me spark join_label with
      | Outcome.ok s2 => Outcome.ok (spark.MR_spark_resume, s2)
      | Outcome.fatal_error msg => Outcome.fatal_error msg
      | Outcome.out_of_fuel => Outcome.out_of_fuel
    | (none, s1) => Outcome.ok (MR_Code.null, s1)
  else Outcome.ok (MR_Code.null, s)

/-- The function `do_get_context()`, run by engine `me`; `fuel` bounds the
scan of the run queue. -/
def do_get_context (fuel : Nat) (s : Runtime) (me : Nat) : Outcome (MR_Code × Runtime) :=
  match MR_find_ready_context fuel s me with
  | none => Outcome.out_of_fuel
  | some (ready_context, s1) =>
    if ready_context ≠ 0 then
      let s2 := prepare_engine_for_context s1 me ready_context
      let resume_point := (s2.ctxt ready_context).MR_ctxt_resume
      Outcome.ok (resume_point,
        s2.setCtxt ready_context { s2.ctxt ready_context with MR_ctxt_resume := MR_Code.null })
    else Outcome.ok (MR_Code.null, s1)

/-- The macro `MR_MAYBE_TRAMPOLINE_AND_ACTION(call, action)` followed by the
rest of the body: when the call returns a non-null code address, do the
action and jump there; otherwise go on with `rest`. -/
def MR_MAYBE_TRAMPOLINE_AND_ACTION (call : Outcome (MR_Code × Runtime))
    (action : Runtime → Runtime) (rest : Runtime → Outcome (MR_Code × Runtime)) :
    Outcome (MR_Code × Runtime) :=
  match call with
  | Outcome.ok (tramp, s) =>
    if tramp ≠ MR_Code.null then Outcome.ok (tramp, action s) else rest s
  | Outcome.fatal_error msg => Outcome.fatal_error msg
  | Outcome.out_of_fuel => Outcome.out_of_fuel

/-- The macro `MR_MAYBE_TRAMPOLINE(call)`: no action before the jump. -/
def MR_MAYBE_TRAMPOLINE (call : Outcome (MR_Code × Runtime))
    (rest : Runtime → Outcome (MR_Code × Runtime)) : Outcome (MR_Code × Runtime) :=
  MR_MAYBE_TRAMPOLINE_AND_ACTION call (fun s => s) rest

/-- The entry `MR_do_idle`, run by engine `me`, in a thread-safe grade.  The
result is the code address the engine jumps to and the state. -/
def MR_do_idle (fuel : Nat) (s : Runtime) (me : Nat) : Outcome (MR_Code × Runtime) :=
  MR_MAYBE_TRAMPOLINE (do_local_spark s me MR_Code.null) fun s1 =>
  let s2 := advertise_engine_state_idle s1 me
  MR_MAYBE_TRAMPOLINE_AND_ACTION (do_get_context fuel s2 me)
    (fun t => advertise_engine_state_working t me) fun s3 =>
  MR_MAYBE_TRAMPOLINE_AND_ACTION (do_work_steal s3 me MR_Code.null)
    (fun t => advertise_engine_state_working t me) fun s4 =>
  Outcome.ok (MR_ENTRY MR_Entry.MR_do_sleep, s4)

/-- The entry `MR_do_idle_clean_context`, run by engine `me`. -/
def MR_do_idle_clean_context (fuel : Nat) (s : Runtime) (me : Nat) :
    Outcome (MR_Code × Runtime) :=
  MR_MAYBE_TRAMPOLINE (do_local_spark s me MR_Code.null) fun s1 =>
  let s2 := advertise_engine_state_idle s1 me
  MR_MAYBE_TRAMPOLINE_AND_ACTION (do_work_steal s2 me MR_Code.null)
    (fun t => advertise_engine_state_working t me) fun s3 =>
  MR_MAYBE_TRAMPOLINE_AND_ACTION (do_get_context fuel s3 me)
    (fun t => advertise_engine_state_working t me) fun s4 =>
  Outcome.ok (MR_ENTRY MR_Entry.MR_do_sleep, s4)

/-- The entry `MR_do_idle_dirty_context`, run by engine `me`; the join label
is read from `MR_r1`. -/
def MR_do_idle_dirty_context (fuel : Nat) (s : Runtime) (me : Nat) :
    Outcome (MR_Code × Runtime) :=
  let join_label := (s.engines me).MR_r1
  MR_MAYBE_TRAMPOLINE (do_local_spark s me join_label) fun s1 =>
  let s2 := advertise_engine_state_idle s1 me
  MR_MAYBE_TRAMPOLINE_AND_ACTION (do_work_steal s2 me join_label)
    (fun t => advertise_engine_state_working t me) fun s3 =>
  let s4 := save_dirty_context s3 me join_label
  let s5 := s4.setEngine me { s4.engines me with MR_eng_this_context := 0 }
  MR_MAYBE_TRAMPOLINE_AND_ACTION (do_get_context fuel s5 me)
    (fun t => advertise_engine_state_working t me) fun s6 =>
  Outcome.ok (MR_ENTRY MR_Entry.MR_do_sleep, s6)

/-! ## Scheduling and waking: the order of the engines, sequences of calls -/

/-- The engines in the order in which the loop of `MR_try_wake_an_engine`
examines them: `preferred_engine`, `preferred_engine + 1`, ... modulo
`MR_num_threads`. -/
def wake_order (s : Runtime) (preferred_engine : Nat) : List Nat :=
  (List.range s.MR_num_threads).map (fun i => (i + preferred_engine) % s.MR_num_threads)

/-- The first engine in that order, other than the caller `me`, whose state is
exactly SLEEPING. -/
def first_sleeping (s : Runtime) (me preferred_engine : Nat) : Option Nat :=
  (wake_order s preferred_engine).find? (fun j =>
    decide (j ≠ me) &&
      decide ((s.engine_sleep_sync_data j).es_state = ENGINE_STATE_SLEEPING))

/-- The run queue of the state is the list `q`: `MR_runqueue_head` starts the
chain `q` and `MR_runqueue_tail` is its last node, both null when `q` is
empty. -/
def is_runqueue (s : Runtime) (q : List Nat) : Prop :=
  is_chain s.ctxt s.MR_runqueue_head q ∧ s.MR_runqueue_tail = (q.getLast?).getD 0

/-- The run-queue property can be computed. -/
instance is_runqueue_decidable (s : Runtime) (q : List Nat) : Decidable (is_runqueue s q) :=
  inferInstanceAs (Decidable (is_chain s.ctxt s.MR_runqueue_head q ∧
    s.MR_runqueue_tail = (q.getLast?).getD 0))

/-- The contexts of the list scheduled one after the other by engine `me`, one
call of `MR_schedule_context` each; `none` when a call blocks. -/
def schedule_contexts (me : Nat) : Runtime → List Nat → Option Runtime
  | s, [] => some s
  | s, c :: cs =>
    match MR_schedule_context s me c with
    | none => none
    | some s1 => schedule_contexts me s1 cs

/-- The contexts returned by `k` successive calls of `MR_find_ready_context`
by engine `me`, and the state after the last; `none` when a scan does not
end within `fuel` nodes. -/
def dequeue_contexts (fuel me : Nat) : Nat → Runtime → Option (List Nat × Runtime)
  | 0, s => some ([], s)
  | k + 1, s =>
    match MR_find_ready_context fuel s me with
    | none => none
    | some (r, s1) =>
      match dequeue_contexts fuel me k s1 with
      | none => none
      | some (rs, s2) => some (r :: rs, s2)

/-- The state after engine `j` has been signalled, in the words of the spec:
"Store `action` and `payload`.  Publish `state = WOKEN`.  Post the engine's
sleep semaphore."  The payload is stored only when the pointer to it is not
null; nothing else changes. -/
def signalled (s : Runtime) (j : Nat) (action : MR_EngineAction) (action_data : Option Nat) :
    Runtime :=
  s.setSync j
    { es_sleep_semaphore := (s.engine_sleep_sync_data j).es_sleep_semaphore + 1
      es_wake_semaphore := (s.engine_sleep_sync_data j).es_wake_semaphore
      es_state := ENGINE_STATE_WOKEN
      es_action := action
      es_action_data := action_data.getD (s.engine_sleep_sync_data j).es_action_data }

/-! ## The sleep loop: `MR_do_sleep` -/

/-- Where a run of `MR_do_sleep` by an engine ends: a jump to a code address
(`MR_GOTO`), the exit of the thread (`pthread_exit`), or the engine blocked
on its sleep semaphore.  `again` is the end of one round of the loop (the
`break` of the switch): the loop goes round once more. -/
inductive SleepResult
  | jump (tramp : MR_Code) (s : Runtime)
  | thread_exit (s : Runtime)
  | blocked (s : Runtime)
  | again (s : Runtime)

/-- The state in which a run of `MR_do_sleep` ends. -/
def SleepResult.state : SleepResult → Runtime
  | SleepResult.jump _ s => s
  | SleepResult.thread_exit s => s
  | SleepResult.blocked s => s
  | SleepResult.again s => s

/-- Modelled from the spec: `MR_destroy_thread` is defined in
`mercury_thread.c`, not among the sources; the spec says "tear down
engine-local state", which touches nothing of the state modelled here. -/
def MR_destroy_thread (s : Runtime) (_eng : Nat) : Runtime := s

/-- The macro `MR_MAYBE_TRAMPOLINE(call)` inside `MR_do_sleep`: jump when the
call returns a non-null code address, otherwise go on with `rest`. -/
def MR_MAYBE_TRAMPOLINE_sleep (call : Outcome (MR_Code × Runtime))
    (rest : Runtime → Outcome SleepResult) : Outcome SleepResult :=
  match call with
  | Outcome.ok (tramp, s) =>
    if tramp ≠ MR_Code.null then Outcome.ok (SleepResult.jump tramp s) else rest s
  | Outcome.fatal_error msg => Outcome.fatal_error msg
  | Outcome.out_of_fuel => Outcome.out_of_fuel

/-- The `switch (action)` of `MR_do_sleep`, run by engine `me` after its wait
on the sleep semaphore has returned 0.  The `assert` of the SHUTDOWN case
aborts the process when it fails. -/
def MR_do_sleep_action (fuel : Nat) (s : Runtime) (me : Nat) (action : MR_EngineAction) :
    Outcome SleepResult :=
  let engine_id := me
  match action with
  | MR_EngineAction.MR_ENGINE_ACTION_SHUTDOWN =>
    if engine_id = 0 then Outcome.fatal_error "assert(engine_id != 0)"
    else
      let s1 := { s with MR_num_idle_engines := s.MR_num_idle_engines - 1 }
      let s2 := MR_destroy_thread s1 me
      let s3 := { s2 with shutdown_semaphore := MR_SEM_POST s2.shutdown_semaphore }
      Outcome.ok (SleepResult.thread_exit s3)
  | MR_EngineAction.MR_ENGINE_ACTION_WORKSTEAL =>
    let s1 := s.setEngine me
      { s.engines me with
        MR_eng_victim_counter := (s.engine_sleep_sync_data engine_id).es_action_data }
    MR_MAYBE_TRAMPOLINE_sleep (do_work_steal s1 me MR_Code.null) fun s2 =>
    MR_MAYBE_TRAMPOLINE_sleep (do_get_context fuel s2 me) fun s3 =>
    Outcome.ok (SleepResult.again s3)
  | MR_EngineAction.MR_ENGINE_ACTION_CONTEXT =>
    let context := (s.engine_sleep_sync_data engine_id).es_action_data
    let s1 := prepare_engine_for_context s me context
    let resume_point := (s1.ctxt context).MR_ctxt_resume
    let s2 := s1.setCtxt context { s1.ctxt context with MR_ctxt_resume := MR_Code.null }
    Outcome.ok (SleepResult.jump resume_point s2)
  | MR_EngineAction.MR_ENGINE_ACTION_NONE =>
    MR_MAYBE_TRAMPOLINE_sleep (do_get_context fuel s me) fun s1 =>
    MR_MAYBE_TRAMPOLINE_sleep (do_work_steal s1 me MR_Code.null) fun s2 =>
    Outcome.ok (SleepResult.again s2)

/-- The loop of `MR_do_sleep` from the wait on the sleep semaphore on, run by
engine `me`: this is where an engine that was blocked goes on once it has
been signalled.  `rounds` bounds the number of further rounds of the loop.
The error return of the wait (`EINTR`, or an abort on any other error) is
not modelled: a wait either returns 0 or blocks. -/
def MR_do_sleep_from_wait (fuel me : Nat) : Nat → Runtime → Outcome SleepResult
  | rounds, s =>
    match MR_do_sleep_wait s me with
    | none => Outcome.ok (SleepResult.blocked s)
    | some (action, s1) =>
      match MR_do_sleep_action fuel s1 me action with
      | Outcome.ok (SleepResult.again s2) =>
        match rounds with
        | 0 => Outcome.out_of_fuel
        | r + 1 => MR_do_sleep_from_wait fuel me r (MR_do_sleep_set_sleeping s2 me)
      | other => other

/-- The entry `MR_do_sleep`, run by engine `me`: set the state to SLEEPING and
wait. -/
def MR_do_sleep (rounds fuel : Nat) (s : Runtime) (me : Nat) : Outcome SleepResult :=
  MR_do_sleep_from_wait fuel me rounds (MR_do_sleep_set_sleeping s me)

/-! ## The context pool: which context a request gets -/

/-- The context that a request for the size class `size` is served with, in
the words of the spec: a SMALL request takes the head of the small free list
when that list is not empty, otherwise the head of the regular free list when
that is not empty, otherwise a newly allocated context; a REGULAR request
takes the head of the regular free list when it is not empty and otherwise
allocates. -/
def chosen_context (s : Runtime) (size : MR_ContextSize) : Nat :=
  match size with
  | MR_ContextSize.MR_CONTEXT_SIZE_SMALL =>
    if s.free_small_context_list ≠ 0 then s.free_small_context_list
    else if s.free_context_list ≠ 0 then s.free_context_list
    else s.next_context
  | MR_ContextSize.MR_CONTEXT_SIZE_REGULAR =>
    if s.free_context_list ≠ 0 then s.free_context_list else s.next_context

/-- The request for the size class `size` is served from a free list. -/
def served_from_free_list (s : Runtime) (size : MR_ContextSize) : Prop :=
  (size = MR_ContextSize.MR_CONTEXT_SIZE_SMALL ∧ s.free_small_context_list ≠ 0) ∨
    s.free_context_list ≠ 0

/-- Whether a request is served from a free list can be computed. -/
instance served_from_free_list_decidable (s : Runtime) (size : MR_ContextSize) :
    Decidable (served_from_free_list s size) :=
  inferInstanceAs (Decidable ((size = MR_ContextSize.MR_CONTEXT_SIZE_SMALL ∧
    s.free_small_context_list ≠ 0) ∨ s.free_context_list ≠ 0))

/-- The context at `c` passes the two checks of
`MR_init_context_maybe_generator`: a stack whose zone pointer is null has no
chain of previous zones. -/
def init_checks_pass (s : Runtime) (c : Nat) : Prop :=
  ((s.ctxt c).MR_ctxt_detstack_zone = 0 → (s.ctxt c).MR_ctxt_prev_detstack_zones = 0) ∧
  ((s.ctxt c).MR_ctxt_nondetstack_zone = 0 → (s.ctxt c).MR_ctxt_prev_nondetstack_zones = 0)

/-- The checks can be computed. -/
instance init_checks_pass_decidable (s : Runtime) (c : Nat) :
    Decidable (init_checks_pass s c) :=
  inferInstanceAs (Decidable
    (((s.ctxt c).MR_ctxt_detstack_zone = 0 → (s.ctxt c).MR_ctxt_prev_detstack_zones = 0) ∧
     ((s.ctxt c).MR_ctxt_nondetstack_zone = 0 →
        (s.ctxt c).MR_ctxt_prev_nondetstack_zones = 0)))

/-- The free lists are sorted by size class as far as a request looks: the
head of the small free list is a SMALL context and the head of the regular
free list a REGULAR one. -/
def free_list_heads_sized (s : Runtime) : Prop :=
  (s.free_small_context_list ≠ 0 →
    (s.ctxt s.free_small_context_list).MR_ctxt_size = MR_ContextSize.MR_CONTEXT_SIZE_SMALL) ∧
  (s.free_context_list ≠ 0 →
    (s.ctxt s.free_context_list).MR_ctxt_size = MR_ContextSize.MR_CONTEXT_SIZE_REGULAR)

/-- The size condition on the heads can be computed. -/
instance free_list_heads_sized_decidable (s : Runtime) : Decidable (free_list_heads_sized s) :=
  inferInstanceAs (Decidable
    ((s.free_small_context_list ≠ 0 →
      (s.ctxt s.free_small_context_list).MR_ctxt_size
        = MR_ContextSize.MR_CONTEXT_SIZE_SMALL) ∧
     (s.free_context_list ≠ 0 →
      (s.ctxt s.free_context_list).MR_ctxt_size = MR_ContextSize.MR_CONTEXT_SIZE_REGULAR)))

/-! ## Nondet stack frames (`stacks.h`) -/

/-- The machine state that the nondet stack macros of `stacks.h` use: the
registers `maxfr`, `curfr` and `succip` and the memory.  Addresses count
words and are integers; a word holds a stack address or a code address, an
integer as well. -/
structure NondetStack where
  mem : Int → Int
  maxfr : Int
  curfr : Int
  succip : Int

/-- Store the word `w` at address `a`, an assignment to `fr[k]`. -/
def NondetStack.store (st : NondetStack) (a : Int) (w : Int) : NondetStack :=
  { st with mem := Function.update st.mem a w }

/-- Slot offset `REDOIP`, `(-0)`. -/
def REDOIP : Int := -0

/-- Slot offset `PREVFR`, `(-1)`. -/
def PREVFR : Int := -1

/-- Slot offset `SUCCIP`, `(-2)`. -/
def SUCCIP : Int := -2

/-- Slot offset `SUCCFR`, `(-3)`. -/
def SUCCFR : Int := -3

/-- Slot offset `PREDNM`, `(-4)`, present when `SPEED` is not defined. -/
def PREDNM : Int := -4

/-- The constant `NONDET_FIXED_SIZE`: 4 words when `SPEED` is defined, 5
words otherwise. -/
def NONDET_FIXED_SIZE (speed : Bool) : Int := if speed then 4 else 5

/-- The macro `bt_redoip(fr)`, read as a value. -/
def bt_redoip (st : NondetStack) (fr : Int) : Int := st.mem (fr + REDOIP)

/-- The macro `bt_prevfr(fr)`, read as a value. -/
def bt_prevfr (st : NondetStack) (fr : Int) : Int := st.mem (fr + PREVFR)

/-- The macro `bt_succip(fr)`, read as a value. -/
def bt_succip (st : NondetStack) (fr : Int) : Int := st.mem (fr + SUCCIP)

/-- The macro `bt_succfr(fr)`, read as a value. -/
def bt_succfr (st : NondetStack) (fr : Int) : Int := st.mem (fr + SUCCFR)

/-- The macro `curredoip`. -/
def curredoip (st : NondetStack) : Int := bt_redoip st st.curfr

/-- The macro `curprevfr`. -/
def curprevfr (st : NondetStack) : Int := bt_prevfr st st.curfr

/-- The macro `cursuccip`. -/
def cursuccip (st : NondetStack) : Int := bt_succip st st.curfr

/-- The macro `cursuccfr`. -/
def cursuccfr (st : NondetStack) : Int := bt_succfr st st.curfr

/-- The macro `mkframe_save_prednm(prednm)`: `curprednm = prednm` when
`SPEED` is not defined, nothing otherwise. -/
def mkframe_save_prednm (speed : Bool) (st : NondetStack) (prednm : Int) : NondetStack :=
  if speed then st else st.store (st.curfr + PREDNM) prednm

/-- The macro `mkframe(prednm, n, redoip)`.  `debugmkframe` and
`nondstack_overflow_check` are defined outside `stacks.h`, a trace and a
bounds check, and are not modelled. -/
def mkframe (speed : Bool) (st : NondetStack) (prednm : Int) (n : Nat) (redoip : Int) :
    NondetStack :=
  let prevfr := st.maxfr
  let succfr := st.curfr
  let st1 := { st with maxfr := st.maxfr + (NONDET_FIXED_SIZE speed + n) }
  let st2 := { st1 with curfr := st1.maxfr }
  let st3 := st2.store (st2.curfr + REDOIP) redoip
  let st4 := st3.store (st3.curfr + PREVFR) prevfr
  let st5 := st4.store (st4.curfr + SUCCIP) st4.succip
  let st6 := st5.store (st5.curfr + SUCCFR) succfr
  mkframe_save_prednm speed st6 prednm

/-- The macro `succeed_discard()`.  The result is the state and the code
address of the `GOTO`.  `debugsucceeddiscard` is a trace and is not
modelled. -/
def succeed_discard (st : NondetStack) : NondetStack × Int :=
  let childfr := st.curfr
  let st1 := { st with maxfr := curprevfr st }
  let st2 := { st1 with curfr := cursuccfr st1 }
  (st2, bt_succip st2 childfr)

/-! ## Deconstructing terms (`mercury_deconstruct.c`) -/

/-- The fields of `MR_Expand_Chosen_Arg_Only_Info` that `MR_arg` and
`MR_named_arg` read.  The type is declared in `mercury_deconstruct.h`, not
among the sources. -/
structure MR_Expand_Chosen_Arg_Only_Info where
  non_canonical_type : Bool
  chosen_index_exists : Bool
  chosen_value_ptr : Nat
  chosen_type_info : Nat
  deriving DecidableEq, Repr

/-- The values of `MR_non_canon_handling` that the `switch` of `MR_arg`
names; `other` is any value that reaches the `default` label. -/
inductive MR_non_canon_handling
  | MR_ALLOW_NONCANONICAL
  | MR_FAIL_ON_NONCANONICAL
  | MR_ABORT_ON_NONCANONICAL
  | other (v : Nat)
  deriving DecidableEq, Repr

/-- The function `MR_arg(type_info, term_ptr, arg_index, arg_type_info_ptr,
arg_ptr, noncanon_handling, msg)`.  `MR_expand_chosen_arg_only` comes from
`mercury_ml_expand_body.h`, not among the sources, and is a parameter: the
record it fills for the term and the index.  `arg_type_info` and `arg` are
the words behind `arg_type_info_ptr` and `arg_ptr` at entry; the result is
the value returned and the two words afterwards. -/
def MR_arg (MR_expand_chosen_arg_only : Nat → Nat → Int → MR_Expand_Chosen_Arg_Only_Info)
    (type_info term_ptr : Nat) (arg_index : Int) (arg_type_info arg : Nat)
    (noncanon_handling : MR_non_canon_handling) (msg : String) :
    Outcome (Bool × Nat × Nat) :=
  let expand_info := MR_expand_chosen_arg_only type_info term_ptr arg_index
  -- the `switch`: `none` when control leaves it through a `break`
  let left : Option (Outcome (Bool × Nat × Nat)) :=
    if expand_info.non_canonical_type = true then
      match noncanon_handling with
      | MR_non_canon_handling.MR_ALLOW_NONCANONICAL => none
      | MR_non_canon_handling.MR_FAIL_ON_NONCANONICAL =>
        some (Outcome.ok (false, arg_type_info, arg))
      | MR_non_canon_handling.MR_ABORT_ON_NONCANONICAL => some (Outcome.fatal_error msg)
      | MR_non_canon_handling.other _ =>
        some (Outcome.fatal_error "MR_arg: bad noncanon_handling")
    else none
  match left with
  | some r => r
  | none =>
    -- check range
    if expand_info.chosen_index_exists = true then
      Outcome.ok (true, expand_info.chosen_type_info, expand_info.chosen_value_ptr)
    else Outcome.ok (false, arg_type_info, arg)

/-- The function `MR_named_arg(type_info, term_ptr, arg_name,
arg_type_info_ptr, arg_ptr, noncanon_handling, msg)`, with
`MR_expand_named_arg_only`, from the same header, as a parameter. -/
def MR_named_arg
    (MR_expand_named_arg_only : Nat → Nat → String → MR_Expand_Chosen_Arg_Only_Info)
    (type_info term_ptr : Nat) (arg_name : String) (arg_type_info arg : Nat)
    (noncanon_handling : MR_non_canon_handling) (msg : String) :
    Outcome (Bool × Nat × Nat) :=
  let expand_info := MR_expand_named_arg_only type_info term_ptr arg_name
  let left : Option (Outcome (Bool × Nat × Nat)) :=
    if expand_info.non_canonical_type = true then
      match noncanon_handling with
      | MR_non_canon_handling.MR_ALLOW_NONCANONICAL => none
      | MR_non_canon_handling.MR_FAIL_ON_NONCANONICAL =>
        some (Outcome.ok (false, arg_type_info, arg))
      | MR_non_canon_handling.MR_ABORT_ON_NONCANONICAL => some (Outcome.fatal_error msg)
      | MR_non_canon_handling.other _ =>
        some (Outcome.fatal_error "MR_named_arg: bad noncanon_handling")
    else none
  match left with
  | some r => r
  | none =>
    if expand_info.chosen_index_exists = true then
      Outcome.ok (true, expand_info.chosen_type_info, expand_info.chosen_value_ptr)
    else Outcome.ok (false, arg_type_info, arg)

/-! ## Pending I/O: `MR_check_pending_contexts` -/

/-- Modelled from the spec: the waiting modes `MR_PENDING_READ`,
`MR_PENDING_WRITE` and `MR_PENDING_EXEC` are defined in `mercury_context.h`,
not among the sources; the spec lists "mode∈{READ,WRITE,EXCEPT}".  The source
tests them with `&`, so they are three different bits. -/
def MR_PENDING_READ : Nat := 0x01

/-- Modelled from the spec: the bit of the mode WRITE, see `MR_PENDING_READ`. -/
def MR_PENDING_WRITE : Nat := 0x02

/-- Modelled from the spec: the bit of the mode EXCEPT, see `MR_PENDING_READ`. -/
def MR_PENDING_EXEC : Nat := 0x04

/-- The fields of `MR_PendingContext` that `MR_check_pending_contexts` reads;
the `next` pointers are the order of the list the entries are kept in. -/
structure MR_PendingContext where
  context : Nat
  fd : Int
  waiting_mode : Nat
  deriving DecidableEq, Repr

/-- The local variables that the first loop of `MR_check_pending_contexts`
updates: `max_id` and the three sets `rd_set0`, `wr_set0`, `ex_set0`, each
the list of the descriptors added with `FD_SET`, the last one first. -/
structure PendingScan where
  max_id : Int
  rd_set0 : List Int
  wr_set0 : List Int
  ex_set0 : List Int
  deriving DecidableEq, Repr

/-- The body of the first `for` loop of `MR_check_pending_contexts` for one
entry. -/
def MR_check_pending_contexts_body (v : PendingScan) (pctxt : MR_PendingContext) :
    PendingScan :=
  let v1 :=
    if pctxt.waiting_mode &&& MR_PENDING_READ ≠ 0 then
      let w := if v.max_id > pctxt.fd then { v with max_id := pctxt.fd } else v
      { w with rd_set0 := pctxt.fd :: w.rd_set0 }
    else v
  let v2 :=
    if pctxt.waiting_mode &&& MR_PENDING_WRITE ≠ 0 then
      let w := if v1.max_id > pctxt.fd then { v1 with max_id := pctxt.fd } else v1
      { w with wr_set0 := pctxt.fd :: w.wr_set0 }
    else v1
  if pctxt.waiting_mode &&& MR_PENDING_EXEC ≠ 0 then
    let w := if v2.max_id > pctxt.fd then { v2 with max_id := pctxt.fd } else v2
    { w with ex_set0 := pctxt.fd :: w.ex_set0 }
  else v2

/-- How far `MR_check_pending_contexts` gets before it handles the answer of
`select`: it returns 0 at once, or it calls `select` with a descriptor bound
and the three sets. -/
inductive PendingPoll
  | returns_zero
  | calls_select (nfds : Int) (rd_set wr_set ex_set : List Int) (block : Bool)
  deriving DecidableEq, Repr

/-- The function `MR_check_pending_contexts(block)` where pending I/O is
available (`MR_CAN_DO_PENDING_IO`), up to its first call of `select`;
`MR_pending_contexts` is the list of the pending entries.  What the function
does with the answer of `select` is not modelled. -/
def MR_check_pending_contexts (MR_pending_contexts : List MR_PendingContext) (block : Bool) :
    Outcome PendingPoll :=
  if MR_pending_contexts = [] then Outcome.ok PendingPoll.returns_zero
  else
    let v0 : PendingScan := { max_id := -1, rd_set0 := [], wr_set0 := [], ex_set0 := [] }
    let v := MR_pending_contexts.foldl MR_check_pending_contexts_body v0
    let max_id := v.max_id + 1
    if max_id = 0 then Outcome.fatal_error "no fd's set!"
    else Outcome.ok (PendingPoll.calls_select max_id v.rd_set0 v.wr_set0 v.ex_set0 block)

/-! ## Shutdown: `MR_shutdown_all_engines` -/

/-- The first loop of `MR_shutdown_all_engines`, run by engine `me`, from
iteration `i = MR_num_threads - k` on; `none` when a call of
`try_wake_engine` blocks. -/
def MR_shutdown_all_engines_wake_loop (me : Nat) : Nat → Runtime → Option Runtime
  | 0, s => some s
  | k + 1, s =>
    match MR_shutdown_all_engines_wake s me (s.MR_num_threads - (k + 1)) with
    | none => none
    | some s1 => MR_shutdown_all_engines_wake_loop me k s1

/-- Where a run of `MR_shutdown_all_engines` ends: the function has returned,
or the caller is blocked in a wait on the shutdown semaphore, with `waits`
of the waits of the second loop still to return (the one it is blocked in
included). -/
inductive ShutdownResult
  | returned (s : Runtime)
  | blocked (waits : Nat) (s : Runtime)

/-- The state in which a run of `MR_shutdown_all_engines` ends. -/
def ShutdownResult.state : ShutdownResult → Runtime
  | ShutdownResult.returned s => s
  | ShutdownResult.blocked _ s => s

/-- The second loop of `MR_shutdown_all_engines`: `k` more waits on the
shutdown semaphore.  This is also where a caller that was blocked with `k`
waits to go continues once the semaphore has been posted. -/
def MR_shutdown_all_engines_wait_loop : Nat → Runtime → ShutdownResult
  | 0, s => ShutdownResult.returned s
  | k + 1, s =>
    match MR_SEM_WAIT s.shutdown_semaphore with
    | none => ShutdownResult.blocked (k + 1) s
    | some v => MR_shutdown_all_engines_wait_loop k { s with shutdown_semaphore := v }

/-- The function `MR_shutdown_all_engines()`, run by engine `me`, up to its
return or to the first wait on the shutdown semaphore that does not return
at once; `none` when a call of `try_wake_engine` blocks. -/
def MR_shutdown_all_engines (s : Runtime) (me : Nat) : Option ShutdownResult :=
  match MR_shutdown_all_engines_wake_loop me s.MR_num_threads s with
  | none => none
  | some s1 => some (MR_shutdown_all_engines_wait_loop (s1.MR_num_threads - 1) s1)

/-- The state after a shutdown has been issued by engine `me`, in the words
of the spec: "Primordial issues shutdown: wakes each with action=SHUTDOWN";
every engine except the caller is signalled, and nothing else changes. -/
def shutdown_issued (s : Runtime) (me : Nat) : Runtime :=
  { s with engine_sleep_sync_data := fun j =>
      if j < s.MR_num_threads ∧ j ≠ me then
        (signalled s j MR_EngineAction.MR_ENGINE_ACTION_SHUTDOWN none).engine_sleep_sync_data j
      else s.engine_sleep_sync_data j }

/-! ## The engine protocol: what the spec says about states and probes -/

/-- The part of the state that the sleep/wake protocol lives in: the
synchronisers, the count of idle engines, the number of engines and the
shutdown semaphore. -/
def Runtime.protocol (s : Runtime) : (Nat → engine_sleep_sync) × Int × Nat × Nat :=
  (s.engine_sleep_sync_data, s.MR_num_idle_engines, s.MR_num_threads, s.shutdown_semaphore)

/-- The state word is one of the four states of the spec: "a state ∈
{WORKING, IDLE, SLEEPING, WOKEN}". -/
def valid_engine_state (st : Nat) : Prop :=
  st = ENGINE_STATE_WORKING ∨ st = ENGINE_STATE_IDLE ∨ st = ENGINE_STATE_SLEEPING ∨
    st = ENGINE_STATE_WOKEN

/-- Whether a state word is one of the four can be computed. -/
instance valid_engine_state_decidable (st : Nat) : Decidable (valid_engine_state st) :=
  inferInstanceAs (Decidable (st = ENGINE_STATE_WORKING ∨ st = ENGINE_STATE_IDLE ∨
    st = ENGINE_STATE_SLEEPING ∨ st = ENGINE_STATE_WOKEN))

/-- The edges of the diagram of section 4.D of the spec: WORKING to IDLE, IDLE
to SLEEPING, SLEEPING to WOKEN, WOKEN to WORKING. -/
def diagram_edge (a b : Nat) : Prop :=
  (a = ENGINE_STATE_WORKING ∧ b = ENGINE_STATE_IDLE) ∨
  (a = ENGINE_STATE_IDLE ∧ b = ENGINE_STATE_SLEEPING) ∨
  (a = ENGINE_STATE_SLEEPING ∧ b = ENGINE_STATE_WOKEN) ∨
  (a = ENGINE_STATE_WOKEN ∧ b = ENGINE_STATE_WORKING)

/-- Whether a pair of states is an edge of the diagram can be computed. -/
instance diagram_edge_decidable (a b : Nat) : Decidable (diagram_edge a b) :=
  inferInstanceAs (Decidable ((a = ENGINE_STATE_WORKING ∧ b = ENGINE_STATE_IDLE) ∨
    (a = ENGINE_STATE_IDLE ∧ b = ENGINE_STATE_SLEEPING) ∨
    (a = ENGINE_STATE_SLEEPING ∧ b = ENGINE_STATE_WOKEN) ∨
    (a = ENGINE_STATE_WOKEN ∧ b = ENGINE_STATE_WORKING)))

/-- The number of engines whose state is IDLE or SLEEPING, the sum that the
spec compares the idle counter with. -/
def idle_or_sleeping_engines (s : Runtime) : Nat :=
  ((List.range s.MR_num_threads).filter (fun e =>
    decide ((s.engine_sleep_sync_data e).es_state = ENGINE_STATE_IDLE ∨
      (s.engine_sleep_sync_data e).es_state = ENGINE_STATE_SLEEPING))).length

/-- A step of an idle path, as the table of section 4.E of the spec names
them. -/
inductive IdleProbe
  | local_spark (join_label : MR_Code)
  | advertise_idle
  | get_context
  | work_steal (join_label : MR_Code)
  | save_dirty_context (join_label : MR_Code)
  deriving DecidableEq, Repr

/-- One step of an idle path, run by engine `me`.  The two steps that are
not probes yield no work. -/
def run_idle_probe (fuel : Nat) (s : Runtime) (me : Nat) :
    IdleProbe → Outcome (MR_Code × Runtime)
  | IdleProbe.local_spark join_label => do_local_spark s me join_label
  | IdleProbe.advertise_idle => Outcome.ok (MR_Code.null, advertise_engine_state_idle s me)
  | IdleProbe.get_context => do_get_context fuel s me
  | IdleProbe.work_steal join_label => do_work_steal s me join_label
  | IdleProbe.save_dirty_context join_label =>
    Outcome.ok (MR_Code.null, save_dirty_context s me join_label)

/-- An idle path in the words of the spec: "Each path is a sequence of
probes; the first that yields work is taken, transitioning state through
IDLE → WORKING as appropriate", and when none yields work the engine goes to
sleep.  `advertised` tells whether IDLE has been advertised already.  The
result names the probe that yielded work, `none` when the engine goes to
sleep, the code address the engine jumps to, and the state. -/
def idle_path (fuel me : Nat) :
    List IdleProbe → Bool → Runtime → Outcome (Option IdleProbe × MR_Code × Runtime)
  | [], _, s => Outcome.ok (none, MR_ENTRY MR_Entry.MR_do_sleep, s)
  | p :: ps, advertised, s =>
    match run_idle_probe fuel s me p with
    | Outcome.ok (tramp, s1) =>
      if tramp ≠ MR_Code.null then
        Outcome.ok (some p, tramp,
          if advertised then advertise_engine_state_working s1 me else s1)
      else idle_path fuel me ps (advertised || decide (p = IdleProbe.advertise_idle)) s1
    | Outcome.fatal_error msg => Outcome.fatal_error msg
    | Outcome.out_of_fuel => Outcome.out_of_fuel

/-- Where the engine jumps and in which state, the choice of the probe
forgotten. -/
def idle_path_jump (r : Outcome (Option IdleProbe × MR_Code × Runtime)) :
    Outcome (MR_Code × Runtime) :=
  match r with
  | Outcome.ok (_, tramp, s) => Outcome.ok (tramp, s)
  | Outcome.fatal_error msg => Outcome.fatal_error msg
  | Outcome.out_of_fuel => Outcome.out_of_fuel

/-- The path of the entry `MR_do_idle` in the table of the spec: "initial:
local spark → advertise IDLE → get context → work-steal → sleep". -/
def initial_path : List IdleProbe :=
  [IdleProbe.local_spark MR_Code.null, IdleProbe.advertise_idle, IdleProbe.get_context,
    IdleProbe.work_steal MR_Code.null]

/-- The path of the entry `MR_do_idle_clean_context`: "clean: local spark →
advertise IDLE → work-steal → get context → sleep". -/
def clean_path : List IdleProbe :=
  [IdleProbe.local_spark MR_Code.null, IdleProbe.advertise_idle,
    IdleProbe.work_steal MR_Code.null, IdleProbe.get_context]

/-- The path of the entry `MR_do_idle_dirty_context`: "dirty: local
spark(join) → advertise IDLE → work-steal(join) → save-dirty-context(join) →
get context → sleep". -/
def dirty_path (join_label : MR_Code) : List IdleProbe :=
  [IdleProbe.local_spark join_label, IdleProbe.advertise_idle,
    IdleProbe.work_steal join_label, IdleProbe.save_dirty_context join_label,
    IdleProbe.get_context]

/-- Entry `j` of `MR_spark_deques` is set and the deque it points to holds a
spark. -/
def deque_yields (s : Runtime) (j : Nat) : Bool :=
  match s.MR_spark_deques j with
  | some victim => !(s.engines victim).MR_eng_spark_deque.isEmpty
  | none => false

/-- A probe of entry `j` of `MR_spark_deques`, in the words of the spec:
"attempt steal"; a thief takes the spark at the top of the deque.  The result
is the spark, if any, and the state. -/
def steal_from (s : Runtime) (j : Nat) : Option MR_Spark × Runtime :=
  match s.MR_spark_deques j with
  | some victim =>
    match MR_wsdeque_steal_top (s.engines victim).MR_eng_spark_deque with
    | some (spark, rest) =>
      (some spark, s.setEngine victim { s.engines victim with MR_eng_spark_deque := rest })
    | none => (none, s)
  | none => (none, s)

/-! ## When an idle entry is sure to return -/

/-- The state is in order for engine `me` to enter an idle entry: the run
queue is a finite chain of at most `fuel` contexts, each with a resume point,
and the context the engine holds is not in it; no context has a chain of
previous zones without a zone; and every spark in a deque has a resume
point. -/
def idle_ready (fuel : Nat) (s : Runtime) (me : Nat) : Prop :=
  (∃ q, is_chain s.ctxt s.MR_runqueue_head q ∧ q.length ≤ fuel ∧
    (∀ a ∈ q, (s.ctxt a).MR_ctxt_resume ≠ MR_Code.null) ∧
    (s.engines me).MR_eng_this_context ∉ q) ∧
  (∀ c, init_checks_pass s c) ∧
  (∀ e, ∀ spark ∈ (s.engines e).MR_eng_spark_deque, spark.MR_spark_resume ≠ MR_Code.null)

/-! ## Concrete states used to instantiate the theorems -/

/-- Scenario S1 before either conjunct has finished: two engines with their
deques registered and empty, the sync-term at address 7 with count 2 and
originating context 1; engine 0 runs context 1 and engine 1 runs context 2,
which was created for the spark it stole. -/
def s1_start : Runtime :=
  { (((MR_init_context_stuff 2 2 8).setSyncTerm 7
      { MR_st_orig_context := 1, MR_st_parent_sp := 0, MR_st_count := 2 }).setEngine 0
      { zero_engine with MR_eng_this_context := 1 }).setEngine 1
      { zero_engine with MR_eng_this_context := 2 } with
    MR_spark_deques := fun i => if i < 2 then some i else none
    MR_num_outstanding_contexts := 2
    next_context := 3 }

/-- Scenario S1 after engine 0 has run `MR_do_join_and_continue` and then
`save_dirty_context` with the join label `label 3`. -/
def s1_saved : Runtime :=
  save_dirty_context (MR_do_join_and_continue 0 s1_start 0 7 (MR_Code.label 3)).2 0
    (MR_Code.label 3)

/-- A run queue of two contexts, at addresses 1 and 2 in this order, neither
with hard affinity and both preferring engine 0. -/
def rq_two_preferring : Runtime :=
  { ((MR_init_context_stuff 2 2 8).setCtxt 1
        { zero_context with MR_ctxt_next := 2 }).setCtxt 2 zero_context with
    MR_runqueue_head := 1
    MR_runqueue_tail := 2 }

/-- A run queue of two contexts: at address 1 a context with hard affinity for
engine 5, at address 2 a context without hard affinity that prefers engine
3. -/
def rq_hard_head : Runtime :=
  { ((MR_init_context_stuff 2 2 8).setCtxt 1
        { zero_context with
          MR_ctxt_next := 2
          MR_ctxt_resume_owner_engine := 5
          MR_ctxt_resume_engine_required := true }).setCtxt 2
        { zero_context with MR_ctxt_resume_owner_engine := 3 } with
    MR_runqueue_head := 1
    MR_runqueue_tail := 2 }

/-- A run queue of three contexts seen by engine 0 at C depth 2: at address 1
a context that prefers engine 0, at address 2 a context that prefers engine
3, at address 3 a context with hard affinity for engine 0 at depth 2. -/
def rq_hard_last : Runtime :=
  { ((((MR_init_context_stuff 2 2 8).setCtxt 1
        { zero_context with MR_ctxt_next := 2 }).setCtxt 2
        { zero_context with MR_ctxt_next := 3, MR_ctxt_resume_owner_engine := 3 }).setCtxt 3
        { zero_context with
          MR_ctxt_resume_engine_required := true
          MR_ctxt_resume_c_depth := 2 }).setEngine 0
        { zero_engine with MR_eng_c_depth := 2 } with
    MR_runqueue_head := 1
    MR_runqueue_tail := 3 }

/-- A run of the signalling protocol in a two-engine runtime: engine 1 finds
no work, advertises itself idle and goes to sleep; engine 0 schedules context
5, which is handed to engine 1. -/
def woken_run : List SignalStep :=
  [SignalStep.advertise_idle 1, SignalStep.set_sleeping 1, SignalStep.schedule_context 0 5]

/-- Two contexts, at addresses 5 and 6, with hard affinity for engine 1 at
depth 0, in a two-engine runtime in its initial state. -/
def two_hard_contexts : Runtime :=
  ((MR_init_context_stuff 2 2 8).setCtxt 5
      { zero_context with
        MR_ctxt_resume_owner_engine := 1
        MR_ctxt_resume_engine_required := true }).setCtxt 6
      { zero_context with
        MR_ctxt_resume_owner_engine := 1
        MR_ctxt_resume_engine_required := true }

/-- A run without any shutdown: engine 1 advertises itself idle and is handed
context 5 while it is still probing; a probe finds work, so it advertises
itself working and later idle again; then it is handed context 6. -/
def idle_wake_run : List SignalStep :=
  [SignalStep.advertise_idle 1, SignalStep.schedule_context 0 5,
   SignalStep.advertise_working 1, SignalStep.advertise_idle 1,
   SignalStep.schedule_context 0 6]

/-- Scenario S2: four engines; engine 1 is sleeping, engine 2 is idle, engines
0 and 3 are working; the context at address 5 has no hard affinity and
prefers engine 2. -/
def s2_state : Runtime :=
  (signal_run (MR_init_context_stuff 4 4 8)
      [SignalStep.advertise_idle 1, SignalStep.set_sleeping 1,
       SignalStep.advertise_idle 2]).setCtxt 5
    { zero_context with MR_ctxt_resume_owner_engine := 2 }

/-- Scenario S3 with the owner asleep at another depth: two engines in their
initial state, both at C depth 0 and holding no context; the context at
address 5 has hard affinity for engine 1 at C depth 2 and resume point
`label 9`. -/
def s3_start : Runtime :=
  (MR_init_context_stuff 2 2 8).setCtxt 5
    { zero_context with
      MR_ctxt_resume := MR_Code.label 9
      MR_ctxt_resume_owner_engine := 1
      MR_ctxt_resume_engine_required := true
      MR_ctxt_resume_c_depth := 2 }

/-- A pool with both free lists in use: the regular free list holds the
contexts at addresses 4 and 3, in this order, the small free list the SMALL
context at address 6; all three have their two stack zones and no previous
zones.  The next allocation returns address 7. -/
def pool_both : Runtime :=
  { (((MR_init_context_stuff 2 2 8).setCtxt 3
        { zero_context with MR_ctxt_detstack_zone := 5, MR_ctxt_nondetstack_zone := 6 }).setCtxt 4
        { zero_context with
          MR_ctxt_next := 3
          MR_ctxt_detstack_zone := 7
          MR_ctxt_nondetstack_zone := 8 }).setCtxt 6
        { zero_context with
          MR_ctxt_size := MR_ContextSize.MR_CONTEXT_SIZE_SMALL
          MR_ctxt_detstack_zone := 9
          MR_ctxt_nondetstack_zone := 10 } with
    free_context_list := 4
    free_small_context_list := 6
    next_context := 7
    next_zone := 11 }

/-- A pool whose small free list is empty and whose regular free list holds
the REGULAR context at address 4, with its two stack zones and no previous
zones. -/
def pool_regular_only : Runtime :=
  { (MR_init_context_stuff 2 2 8).setCtxt 4
      { zero_context with MR_ctxt_detstack_zone := 7, MR_ctxt_nondetstack_zone := 8 } with
    free_context_list := 4
    next_context := 5
    next_zone := 9 }

/-- A pool whose regular free list holds the context at address 4, which has
its two stack zones and a chain of previous det-stack zones that is not null
(the zone at address 9). -/
def pool_dirty : Runtime :=
  { (MR_init_context_stuff 2 2 8).setCtxt 4
      { zero_context with
        MR_ctxt_detstack_zone := 7
        MR_ctxt_prev_detstack_zones := 9
        MR_ctxt_nondetstack_zone := 8 } with
    free_context_list := 4
    next_context := 5
    next_zone := 10 }

/-- A pool whose regular free list holds the context at address 4, which has
no det-stack zone and a chain of previous det-stack zones that is not null. -/
def pool_dirty_no_zone : Runtime :=
  { (MR_init_context_stuff 2 2 8).setCtxt 4
      { zero_context with
        MR_ctxt_prev_detstack_zones := 9
        MR_ctxt_nondetstack_zone := 8 } with
    free_context_list := 4
    next_context := 5
    next_zone := 10 }

/-- What the expansion reports for a term of a type with user-defined
equality whose selected argument exists, at address 7 with type-info 8. -/
def expand_noncanonical_exists : MR_Expand_Chosen_Arg_Only_Info :=
  { non_canonical_type := true
    chosen_index_exists := true
    chosen_value_ptr := 7
    chosen_type_info := 8 }

/-- What the expansion reports for a term of a canonical type whose selected
argument exists, at address 7 with type-info 8. -/
def expand_canonical_exists : MR_Expand_Chosen_Arg_Only_Info :=
  { non_canonical_type := false
    chosen_index_exists := true
    chosen_value_ptr := 7
    chosen_type_info := 8 }

/-- A pending-I/O list of one entry: context 5 waits to read descriptor 3. -/
def pending_read_3 : List MR_PendingContext :=
  [{ context := 5, fd := 3, waiting_mode := MR_PENDING_READ }]

/-- A pending-I/O list of two entries: context 5 waits to read descriptor 3
and context 6 waits to write descriptor 9. -/
def pending_read_3_write_9 : List MR_PendingContext :=
  [{ context := 5, fd := 3, waiting_mode := MR_PENDING_READ },
   { context := 6, fd := 9, waiting_mode := MR_PENDING_WRITE }]

/-- Two engines with their deques registered.  Engine 0 runs context 1, has
an empty deque and its victim counter at 1; the deque of engine 1 holds one
spark, of the sync-term at address 7, with resume point `label 4`. -/
def steal_state : Runtime :=
  { ((MR_init_context_stuff 2 2 8).setEngine 0
      { zero_engine with MR_eng_this_context := 1, MR_eng_victim_counter := 1 }).setEngine 1
      { zero_engine with
        MR_eng_this_context := 2
        MR_eng_spark_deque :=
          [{ MR_spark_sync_term := 7, MR_spark_resume := MR_Code.label 4,
             MR_spark_thread_local_mutables := 0 }] } with
    MR_spark_deques := fun i => if i < 2 then some i else none
    MR_num_outstanding_contexts := 2
    next_context := 3 }

/-- The same two engines when engine 0 holds no context and the number of
outstanding contexts has reached the limit of 2. -/
def steal_state_capped : Runtime :=
  { steal_state.setEngine 0 { zero_engine with MR_eng_victim_counter := 1 } with
    MR_max_outstanding_contexts := 2 }

/-- Two engines with their deques registered, both WORKING.  Engine 0 holds
no context and its deque is empty; the deque of engine 1 holds one spark, of
the sync-term at address 7, with resume point `label 4`.  The run queue holds
the context at address 5, without hard affinity, preferring engine 0, with
resume point `label 9`. -/
def idle_both : Runtime :=
  { (((MR_init_context_stuff 2 2 8).setCtxt 5
        { zero_context with MR_ctxt_resume := MR_Code.label 9 }).setEngine 1
      { zero_engine with
        MR_eng_this_context := 2
        MR_eng_spark_deque :=
          [{ MR_spark_sync_term := 7, MR_spark_resume := MR_Code.label 4,
             MR_spark_thread_local_mutables := 0 }] }).setSyncTerm 7
      { MR_st_orig_context := 2, MR_st_parent_sp := 3, MR_st_count := 2 } with
    MR_spark_deques := fun i => if i < 2 then some i else none
    MR_runqueue_head := 5
    MR_runqueue_tail := 5
    MR_num_outstanding_contexts := 2
    next_context := 10 }

/-- Three engines: engine 0 is WORKING, engines 1 and 2 have gone idle and
are asleep, so the idle count is 2; the shutdown semaphore is at 0. -/
def shutdown_start : Runtime :=
  { ((MR_init_context_stuff 3 3 8).setSync 1
      { es_sleep_semaphore := 0, es_wake_semaphore := 1, es_state := ENGINE_STATE_SLEEPING
        es_action := MR_EngineAction.MR_ENGINE_ACTION_NONE, es_action_data := 0 }).setSync 2
      { es_sleep_semaphore := 0, es_wake_semaphore := 1, es_state := ENGINE_STATE_SLEEPING
        es_action := MR_EngineAction.MR_ENGINE_ACTION_NONE, es_action_data := 0 } with
    MR_num_idle_engines := 2 }

/-- Two engines in the initial state, both WORKING and holding no context;
the context at address 5 has no hard affinity, prefers engine 1 and has the
resume point `label 9`. -/
def idle_count_start : Runtime :=
  (MR_init_context_stuff 2 2 8).setCtxt 5
    { zero_context with
      MR_ctxt_resume := MR_Code.label 9
      MR_ctxt_resume_owner_engine := 1 }

/-- The state after the code that runs on engine `e` in the context `c` has
pushed a spark on the deque of that engine: the spark of the sync-term at
address 7, of two conjuncts, with resume point `label 4`. -/
def spark_pushed (s : Runtime) (e c : Nat) : Runtime :=
  (s.setSyncTerm 7 { MR_st_orig_context := c, MR_st_parent_sp := 3, MR_st_count := 2 }).setEngine e
    { s.engines e with
      MR_eng_spark_deque :=
        [{ MR_spark_sync_term := 7, MR_spark_resume := MR_Code.label 4,
           MR_spark_thread_local_mutables := 0 }] }

/-! ## Basic facts about the state updates -/

@[simp] theorem setCtxt_ctxt_same (s : Runtime) (p : Nat) (c : MR_Context) :
    (s.setCtxt p c).ctxt p = c := by
  simp [Runtime.setCtxt]

theorem setCtxt_ctxt_other (s : Runtime) (p q : Nat) (c : MR_Context) (h : q ≠ p) :
    (s.setCtxt p c).ctxt q = s.ctxt q := by
  simp [Runtime.setCtxt, Function.update_noteq h]

@[simp] theorem setCtxt_sync_terms (s : Runtime) (p : Nat) (c : MR_Context) :
    (s.setCtxt p c).sync_terms = s.sync_terms := rfl

@[simp] theorem setEngine_engines_same (s : Runtime) (i : Nat) (e : MercuryEngine) :
    (s.setEngine i e).engines i = e := by
  simp [Runtime.setEngine]

theorem setEngine_engines_other (s : Runtime) (i j : Nat) (e : MercuryEngine) (h : j ≠ i) :
    (s.setEngine i e).engines j = s.engines j := by
  simp [Runtime.setEngine, Function.update_noteq h]

@[simp] theorem setEngine_ctxt (s : Runtime) (i : Nat) (e : MercuryEngine) :
    (s.setEngine i e).ctxt = s.ctxt := rfl

@[simp] theorem setEngine_sync_terms (s : Runtime) (i : Nat) (e : MercuryEngine) :
    (s.setEngine i e).sync_terms = s.sync_terms := rfl

@[simp] theorem setSyncTerm_same (s : Runtime) (p : Nat) (t : MR_SyncTerm) :
    (s.setSyncTerm p t).sync_terms p = t := by
  simp [Runtime.setSyncTerm]

@[simp] theorem setSyncTerm_ctxt (s : Runtime) (p : Nat) (t : MR_SyncTerm) :
    (s.setSyncTerm p t).ctxt = s.ctxt := rfl

@[simp] theorem setSyncTerm_engines (s : Runtime) (p : Nat) (t : MR_SyncTerm) :
    (s.setSyncTerm p t).engines = s.engines := rfl

@[simp] theorem MR_save_context_sync_terms (s : Runtime) (me c : Nat) :
    (MR_save_context s me c).sync_terms = s.sync_terms := rfl

@[simp] theorem MR_load_context_sync_terms (s : Runtime) (me c : Nat) :
    (MR_load_context s me c).sync_terms = s.sync_terms := rfl

@[simp] theorem MR_destroy_context_sync_terms (s : Runtime) (me c : Nat) :
    (MR_destroy_context s me c).sync_terms = s.sync_terms := by
  unfold MR_destroy_context
  simp only
  split <;> rfl

@[simp] theorem prepare_engine_for_context_sync_terms (s : Runtime) (me c : Nat) :
    (prepare_engine_for_context s me c).sync_terms = s.sync_terms := by
  unfold prepare_engine_for_context
  simp only [MR_load_context_sync_terms, setEngine_sync_terms]
  split <;> simp

/-! ## Join and continue: the decrement and the choice of continuation -/

theorem dec_and_is_zero_of_pos (n : Nat) (h0 : 0 < n) (hM : n < MR_UNSIGNED_MOD) :
    MR_atomic_dec_and_is_zero_uint n = (n - 1, decide (n = 1)) := by
  unfold MR_atomic_dec_and_is_zero_uint
  have h1 : (n + (MR_UNSIGNED_MOD - 1)) % MR_UNSIGNED_MOD = n - 1 := by
    have e : n + (MR_UNSIGNED_MOD - 1) = (n - 1) + MR_UNSIGNED_MOD := by omega
    rw [e, Nat.add_mod_right, Nat.mod_eq_of_lt (by omega)]
  have h2 : decide (n - 1 = 0) = decide (n = 1) := by
    simp only [decide_eq_decide]
    omega
  simp only [h1, h2]

theorem join_wait_loop_ready (s : Runtime) (orig : Nat) (join_label : MR_Code) (fuel : Nat)
    (h : (s.ctxt orig).MR_ctxt_resume = join_label) :
    join_wait_loop s orig join_label fuel = some 0 := by
  cases fuel <;> simp [join_wait_loop, h]

theorem join_wait_loop_spins (s : Runtime) (orig : Nat) (join_label : MR_Code) (fuel : Nat)
    (h : (s.ctxt orig).MR_ctxt_resume ≠ join_label) :
    join_wait_loop s orig join_label fuel = none := by
  induction fuel with
  | zero => simp [join_wait_loop, h]
  | succ n ih => simp [join_wait_loop, h, ih]

/-- The call unfolded for a count in the range of a live sync-term. -/
theorem join_and_continue_eq (fuel : Nat) (s : Runtime) (me jnc_st : Nat)
    (join_label : MR_Code)
    (h0 : 0 < (s.sync_terms jnc_st).MR_st_count)
    (hM : (s.sync_terms jnc_st).MR_st_count < MR_UNSIGNED_MOD) :
    MR_do_join_and_continue fuel s me jnc_st join_label =
      (let s1 := s.setSyncTerm jnc_st
          { s.sync_terms jnc_st with MR_st_count := (s.sync_terms jnc_st).MR_st_count - 1 }
       let orig := (s.sync_terms jnc_st).MR_st_orig_context
       if (s.engines me).MR_eng_this_context = orig then
         if (s.sync_terms jnc_st).MR_st_count = 1 then (some join_label, s1)
         else (some (MR_ENTRY MR_Entry.MR_do_idle_dirty_context),
                s1.setEngine me { s1.engines me with MR_r1 := join_label })
       else
         if (s.sync_terms jnc_st).MR_st_count = 1 then
           if (s.ctxt orig).MR_ctxt_resume = join_label then
             (some join_label, prepare_engine_for_context s1 me orig)
           else (none, s1)
         else (some (MR_ENTRY MR_Entry.MR_do_idle_clean_context), s1)) := by
  unfold MR_do_join_and_continue
  simp only [dec_and_is_zero_of_pos _ h0 hM, setSyncTerm_same, setSyncTerm_engines,
    decide_eq_true_eq]
  by_cases hown : (s.engines me).MR_eng_this_context = (s.sync_terms jnc_st).MR_st_orig_context
  · simp only [hown, if_true]
  · simp only [hown, if_false]
    by_cases hlast : (s.sync_terms jnc_st).MR_st_count = 1
    · simp only [hlast, if_true]
      by_cases hpub : (s.ctxt (s.sync_terms jnc_st).MR_st_orig_context).MR_ctxt_resume
          = join_label
      · rw [join_wait_loop_ready _ _ _ _ (by simpa using hpub)]
        simp [hpub]
      · rw [join_wait_loop_spins _ _ _ _ (by simpa using hpub)]
        simp [hpub]
    · simp only [hlast, if_false]

/-- C2: `MR_do_join_and_continue` lowers the count of the sync-term by exactly
one and picks its result from `last` (the lowered count is zero) and `own`
(the engine's current context is the originating context): own and last give
the join label; own and not last give the dirty idle entry with the join
label in `r1`; not own and last give the join label, once the originator has
published it as its resume point (until then the caller stays in its wait
loop); not own and not last give the clean idle entry. -/
theorem join_and_continue_decrement_and_choice (fuel : Nat) (s : Runtime)
    (me jnc_st : Nat) (join_label : MR_Code)
    (h0 : 0 < (s.sync_terms jnc_st).MR_st_count)
    (hM : (s.sync_terms jnc_st).MR_st_count < MR_UNSIGNED_MOD) :
    let r := MR_do_join_and_continue fuel s me jnc_st join_label
    let orig := (s.sync_terms jnc_st).MR_st_orig_context
    let own := (s.engines me).MR_eng_this_context = orig
    let last := (r.2.sync_terms jnc_st).MR_st_count = 0
    (r.2.sync_terms jnc_st).MR_st_count + 1 = (s.sync_terms jnc_st).MR_st_count ∧
    (own → last → r.1 = some join_label) ∧
    (own → ¬ last → r.1 = some (MR_ENTRY MR_Entry.MR_do_idle_dirty_context) ∧
      (r.2.engines me).MR_r1 = join_label) ∧
    (¬ own → last → (s.ctxt orig).MR_ctxt_resume = join_label → r.1 = some join_label) ∧
    (¬ own → last → (s.ctxt orig).MR_ctxt_resume ≠ join_label → r.1 = none) ∧
    (¬ own → ¬ last → r.1 = some (MR_ENTRY MR_Entry.MR_do_idle_clean_context)) := by
  intro r orig own last
  have hr : r = MR_do_join_and_continue fuel s me jnc_st join_label := rfl
  rw [join_and_continue_eq fuel s me jnc_st join_label h0 hM] at hr
  simp only at hr
  by_cases hown : (s.engines me).MR_eng_this_context = (s.sync_terms jnc_st).MR_st_orig_context
  · by_cases hlast : (s.sync_terms jnc_st).MR_st_count = 1
    · simp only [hown, hlast, if_true] at hr
      have hown2 : own := hown
      have hl : last := by simp [last, hr]
      refine ⟨by simp [hr, hlast], fun _ _ => by simp [hr], fun _ h => absurd hl h,
        fun h => absurd hown2 h, fun h => absurd hown2 h, fun h => absurd hown2 h⟩
    · simp only [hown, hlast, if_true, if_false] at hr
      have hown2 : own := hown
      have hl : ¬ last := by
        simp only [last, hr, setEngine_sync_terms, setSyncTerm_same]
        omega
      refine ⟨?_, fun _ h => absurd h hl, fun _ _ => by simp [hr],
        fun h => absurd hown2 h, fun h => absurd hown2 h, fun h => absurd hown2 h⟩
      simp only [hr, setEngine_sync_terms, setSyncTerm_same]
      omega
  · have hown2 : ¬ own := hown
    by_cases hlast : (s.sync_terms jnc_st).MR_st_count = 1
    · by_cases hpub : (s.ctxt (s.sync_terms jnc_st).MR_st_orig_context).MR_ctxt_resume
          = join_label
      · simp only [hown, hlast, hpub, if_true, if_false] at hr
        refine ⟨by simp [hr, hlast], fun h => absurd h hown2, fun h => absurd h hown2,
          fun _ _ _ => by simp [hr], fun _ _ h => absurd hpub h, fun _ h => ?_⟩
        exact absurd (by simp [last, hr]) h
      · simp only [hown, hlast, hpub, if_true, if_false] at hr
        refine ⟨by simp [hr, hlast], fun h => absurd h hown2, fun h => absurd h hown2,
          fun _ _ h => absurd h hpub, fun _ _ _ => by simp [hr], fun _ h => ?_⟩
        exact absurd (by simp [last, hr]) h
    · simp only [hown, hlast, if_false] at hr
      have hl : ¬ last := by
        simp only [last, hr, setSyncTerm_same]
        omega
      refine ⟨?_, fun h => absurd h hown2, fun h => absurd h hown2,
        fun _ h => absurd h hl, fun _ h => absurd h hl, fun _ _ => by simp [hr]⟩
      simp only [hr, setSyncTerm_same]
      omega

/-- What one call of a sequence returns, by the count it finds: a call that
finds a count above one returns an idle entry and leaves the count one lower;
the call that finds the count one returns the join label or is still in its
wait loop. -/
theorem join_calls_spec (fuel jnc_st : Nat) (join_label : MR_Code) :
    ∀ (calls : List (Runtime × Nat)) (count : Nat),
      calls.length = count → count < MR_UNSIGNED_MOD →
      (join_calls fuel jnc_st join_label count calls).length = count ∧
      (∀ i, i + 1 < count →
        (join_calls fuel jnc_st join_label count calls)[i]? =
            some (some (MR_ENTRY MR_Entry.MR_do_idle_dirty_context)) ∨
        (join_calls fuel jnc_st join_label count calls)[i]? =
            some (some (MR_ENTRY MR_Entry.MR_do_idle_clean_context))) ∧
      (1 ≤ count →
        ((join_calls fuel jnc_st join_label count calls)[count - 1]? = some (some join_label) ∨
         (join_calls fuel jnc_st join_label count calls)[count - 1]? = some none) ∧
        ((∀ s me, calls.getLast? = some (s, me) →
            (s.engines me).MR_eng_this_context = (s.sync_terms jnc_st).MR_st_orig_context ∨
            (s.ctxt (s.sync_terms jnc_st).MR_st_orig_context).MR_ctxt_resume = join_label) →
          (join_calls fuel jnc_st join_label count calls)[count - 1]? =
            some (some join_label))) := by
  intro calls
  induction calls with
  | nil =>
    intro count hlen _
    simp only [List.length_nil] at hlen
    subst hlen
    simp [join_calls]
  | cons call rest ih =>
    intro count hlen hM
    obtain ⟨s, me⟩ := call
    simp only [List.length_cons] at hlen
    have h0 : 0 < count := by omega
    have heq := join_and_continue_eq fuel
      (s.setSyncTerm jnc_st { s.sync_terms jnc_st with MR_st_count := count }) me jnc_st
      join_label (by simpa using h0) (by simpa using hM)
    simp only [setSyncTerm_same, setSyncTerm_engines, setSyncTerm_ctxt] at heq
    by_cases hone : count = 1
    · -- the last call of the sequence
      have hrest : rest = [] := by
        apply List.eq_nil_of_length_eq_zero
        omega
      subst hrest
      subst hone
      simp only [join_calls, heq]
      refine ⟨by simp, fun i hi => absurd hi (by omega), fun _ => ?_⟩
      by_cases hown : (s.engines me).MR_eng_this_context
          = (s.sync_terms jnc_st).MR_st_orig_context
      · simp [hown]
      · by_cases hpub : (s.ctxt (s.sync_terms jnc_st).MR_st_orig_context).MR_ctxt_resume
            = join_label
        · simp [hown, hpub]
        · simp [hown, hpub]
    · -- an earlier call: the count stays positive
      have hlen2 : rest.length = count - 1 := by omega
      have hM2 : count - 1 < MR_UNSIGNED_MOD := by omega
      obtain ⟨ihlen, ihidle, ihlast⟩ := ih (count - 1) hlen2 hM2
      have hcnt : ((MR_do_join_and_continue fuel
          (s.setSyncTerm jnc_st { s.sync_terms jnc_st with MR_st_count := count }) me jnc_st
          join_label).2.sync_terms jnc_st).MR_st_count = count - 1 := by
        rw [heq]
        by_cases hown : (s.engines me).MR_eng_this_context
            = (s.sync_terms jnc_st).MR_st_orig_context
        · simp [hown, hone]
        · simp [hown, hone]
      have hres : (MR_do_join_and_continue fuel
          (s.setSyncTerm jnc_st { s.sync_terms jnc_st with MR_st_count := count }) me jnc_st
          join_label).1 = some (MR_ENTRY MR_Entry.MR_do_idle_dirty_context) ∨
          (MR_do_join_and_continue fuel
          (s.setSyncTerm jnc_st { s.sync_terms jnc_st with MR_st_count := count }) me jnc_st
          join_label).1 = some (MR_ENTRY MR_Entry.MR_do_idle_clean_context) := by
        rw [heq]
        by_cases hown : (s.engines me).MR_eng_this_context
            = (s.sync_terms jnc_st).MR_st_orig_context
        · simp [hown, hone]
        · simp [hown, hone]
      have hunf : join_calls fuel jnc_st join_label count ((s, me) :: rest) =
          (MR_do_join_and_continue fuel
            (s.setSyncTerm jnc_st { s.sync_terms jnc_st with MR_st_count := count }) me jnc_st
            join_label).1 :: join_calls fuel jnc_st join_label (count - 1) rest := by
        simp only [join_calls, hcnt]
      rw [hunf]
      have hne : rest ≠ [] := by
        intro h
        rw [h] at hlen2
        simp only [List.length_nil] at hlen2
        omega
      have hget : ∀ (x : Option MR_Code) (l : List (Option MR_Code)),
          (x :: l)[count - 1]? = l[count - 1 - 1]? := by
        intro x l
        obtain ⟨k, hk⟩ : ∃ k, count - 1 = k + 1 := ⟨count - 2, by omega⟩
        rw [hk]
        simp
      refine ⟨by simp only [List.length_cons, ihlen]; omega, ?_, fun _ => ?_⟩
      · intro i hi
        cases i with
        | zero => simpa using hres
        | succ j =>
          simp only [List.getElem?_cons_succ]
          exact ihidle j (by omega)
      · rw [hget]
        obtain ⟨ih1, ih2⟩ := ihlast (by omega)
        refine ⟨ih1, fun hready => ih2 (fun s2 me2 hl => hready s2 me2 ?_)⟩
        obtain ⟨y, ys, hys⟩ := List.exists_cons_of_ne_nil hne
        rw [hys] at hl ⊢
        rw [List.getLast?_cons_cons]
        exact hl

/-- C1: for a sync-term whose count starts at `N ≥ 1`, in every sequence of `N`
calls of `MR_do_join_and_continue` on it (whatever the calling engines and
whatever else changed between the calls), each of the first `N - 1` calls
returns an idle entry and not the join label, a call that returns the join
label can only be the `N`-th, and the `N`-th call, whose decrement produces
zero, returns the join label (when it is made from a foreign context, as soon
as the originator has published the join label as its resume point). -/
theorem join_label_given_exactly_once (fuel jnc_st : Nat) (join_label : MR_Code) (N : Nat)
    (calls : List (Runtime × Nat)) (hN : 1 ≤ N) (hM : N < MR_UNSIGNED_MOD)
    (hlen : calls.length = N)
    (hdirty : join_label ≠ MR_ENTRY MR_Entry.MR_do_idle_dirty_context)
    (hclean : join_label ≠ MR_ENTRY MR_Entry.MR_do_idle_clean_context) :
    (join_calls fuel jnc_st join_label N calls).length = N ∧
    (∀ i, i + 1 < N → ∃ r,
      (join_calls fuel jnc_st join_label N calls)[i]? = some (some r) ∧ r ≠ join_label) ∧
    (∀ i, (join_calls fuel jnc_st join_label N calls)[i]? = some (some join_label) →
      i + 1 = N) ∧
    ((∀ s me, calls.getLast? = some (s, me) →
        (s.engines me).MR_eng_this_context = (s.sync_terms jnc_st).MR_st_orig_context ∨
        (s.ctxt (s.sync_terms jnc_st).MR_st_orig_context).MR_ctxt_resume = join_label) →
      (join_calls fuel jnc_st join_label N calls)[N - 1]? = some (some join_label)) := by
  obtain ⟨hl, hidle, hlast⟩ := join_calls_spec fuel jnc_st join_label calls N hlen hM
  have hfirst : ∀ i, i + 1 < N → ∃ r,
      (join_calls fuel jnc_st join_label N calls)[i]? = some (some r) ∧ r ≠ join_label := by
    intro i hi
    rcases hidle i hi with h | h
    · exact ⟨_, h, fun e => hdirty e.symm⟩
    · exact ⟨_, h, fun e => hclean e.symm⟩
  refine ⟨hl, hfirst, ?_, fun hready => (hlast hN).2 hready⟩
  intro i hi
  by_contra hne
  have hlt : i < N := by
    by_contra hge
    rw [List.getElem?_eq_none (by omega)] at hi
    exact Option.noConfusion hi
  obtain ⟨r, hr, hrne⟩ := hfirst i (by omega)
  rw [hr] at hi
  exact hrne (Option.some.inj (Option.some.inj hi))

/-- An instance: the two calls of scenario S1, engine 0 from the originating
context first, then engine 1 after the originator has saved itself. -/
theorem join_label_given_exactly_once_witness :
    (join_calls 0 7 (MR_Code.label 3) 2 [(s1_start, 0), (s1_saved, 1)]).length = 2 ∧
    (join_calls 0 7 (MR_Code.label 3) 2 [(s1_start, 0), (s1_saved, 1)])[1]? =
      some (some (MR_Code.label 3)) :=
  have h := join_label_given_exactly_once 0 7 (MR_Code.label 3) 2
    [(s1_start, 0), (s1_saved, 1)] (by decide) (by decide) rfl (by decide) (by decide)
  ⟨h.1, h.2.2.2 (by
    intro s me hs
    cases hs
    decide)⟩

/-- An instance: the first call of scenario S1 lowers the count from 2 to 1. -/
theorem join_and_continue_decrement_and_choice_witness :
    ((MR_do_join_and_continue 0 s1_start 0 7 (MR_Code.label 3)).2.sync_terms 7).MR_st_count
      + 1 = 2 :=
  (join_and_continue_decrement_and_choice 0 s1_start 0 7 (MR_Code.label 3)
    (by decide) (by decide)).1

/-! ## Chains of contexts -/

theorem is_chain_congr (h h' : Nat → MR_Context) :
    ∀ (q : List Nat) (p : Nat),
      (∀ a ∈ q, (h' a).MR_ctxt_next = (h a).MR_ctxt_next) →
      (is_chain h p q ↔ is_chain h' p q) := by
  intro q
  induction q with
  | nil => intro p _; simp [is_chain]
  | cons a q ih =>
    intro p hq
    simp only [is_chain]
    rw [hq a (List.mem_cons_self a q)]
    rw [ih (h a).MR_ctxt_next (fun b hb => hq b (List.mem_cons_of_mem a hb))]

theorem is_chain_unique (h : Nat → MR_Context) :
    ∀ (q1 q2 : List Nat) (p : Nat), is_chain h p q1 → is_chain h p q2 → q1 = q2 := by
  intro q1
  induction q1 with
  | nil =>
    intro q2 p h1 h2
    cases q2 with
    | nil => rfl
    | cons b q2 =>
      simp only [is_chain] at h1 h2
      exact absurd (h2.1.symm.trans h1) h2.2.1
  | cons a q1 ih =>
    intro q2 p h1 h2
    cases q2 with
    | nil =>
      simp only [is_chain] at h1 h2
      exact absurd (h1.1.symm.trans h2) h1.2.1
    | cons b q2 =>
      simp only [is_chain] at h1 h2
      have hab : a = b := h1.1.symm.trans h2.1
      subst hab
      rw [ih q2 _ h1.2.2 h2.2.2]

theorem is_chain_suffix (h : Nat → MR_Context) :
    ∀ (l1 l2 : List Nat) (p : Nat), is_chain h p (l1 ++ l2) → ∃ p2, is_chain h p2 l2 := by
  intro l1
  induction l1 with
  | nil => intro l2 p hc; exact ⟨p, hc⟩
  | cons a l1 ih =>
    intro l2 p hc
    simp only [List.cons_append, is_chain] at hc
    exact ih l2 _ hc.2.2

theorem is_chain_ne_zero (h : Nat → MR_Context) :
    ∀ (q : List Nat) (p : Nat), is_chain h p q → ∀ a ∈ q, a ≠ 0 := by
  intro q
  induction q with
  | nil => intro p _ a ha; simp at ha
  | cons b q ih =>
    intro p hc a ha
    simp only [is_chain] at hc
    rcases List.mem_cons.mp ha with rfl | hmem
    · exact hc.2.1
    · exact ih _ hc.2.2 a hmem

/-- A chain that ends in `NULL` visits no context twice. -/
theorem is_chain_nodup (h : Nat → MR_Context) :
    ∀ (q : List Nat) (p : Nat), is_chain h p q → q.Nodup := by
  intro q
  induction q with
  | nil => intro p _; exact List.nodup_nil
  | cons a q ih =>
    intro p hc
    have hc' := hc
    simp only [is_chain] at hc
    refine List.nodup_cons.mpr ⟨?_, ih _ hc.2.2⟩
    intro hmem
    obtain ⟨m1, m2, hq⟩ := List.append_of_mem hmem
    rw [hq] at hc
    obtain ⟨p2, hp2⟩ := is_chain_suffix h m1 (a :: m2) _ hc.2.2
    have hp2' := hp2
    simp only [is_chain] at hp2
    have e := is_chain_unique h m2 (m1 ++ a :: m2) _ hp2.2.2 hc.2.2
    have hlen := congrArg List.length e
    simp only [List.length_append, List.length_cons] at hlen
    omega

theorem getLast?_getD_cons (a prev : Nat) (l : List Nat) :
    ((a :: l).getLast?).getD prev = (l.getLast?).getD a := by
  cases l with
  | nil => simp
  | cons b l =>
    rw [List.getLast?_cons_cons]
    cases hl : (b :: l).getLast? with
    | none => simp at hl
    | some v => rfl

/-- Unlinking the node after `p`: when `p` is followed by `r` in a chain, the
store `p->MR_ctxt_next = r->MR_ctxt_next` gives the chain without `r`. -/
theorem is_chain_unlink (h : Nat → MR_Context) (p r : Nat) (l2 : List Nat) :
    ∀ (l1 : List Nat) (head : Nat),
      is_chain h head (l1 ++ p :: r :: l2) →
      is_chain (Function.update h p { h p with MR_ctxt_next := (h r).MR_ctxt_next })
        head (l1 ++ p :: l2) := by
  intro l1
  induction l1 with
  | nil =>
    intro head hc
    have hnd := is_chain_nodup h _ _ hc
    simp only [List.nil_append, is_chain] at hc ⊢
    obtain ⟨hhead, hp0, hpr, hr0, hrest⟩ := hc
    refine ⟨hhead, hp0, ?_⟩
    simp only [Function.update_same]
    have hpl2 : p ∉ l2 := by
      simp only [List.nil_append, List.nodup_cons, List.mem_cons, not_or] at hnd
      exact hnd.1.2
    refine (is_chain_congr h _ l2 _ (fun a ha => ?_)).mp hrest
    have hne : a ≠ p := fun e => hpl2 (e ▸ ha)
    rw [Function.update_noteq hne]
  | cons x l1 ih =>
    intro head hc
    have hnd := is_chain_nodup h _ _ hc
    simp only [List.cons_append, is_chain] at hc ⊢
    obtain ⟨hhead, hx0, hrest⟩ := hc
    have hxp : x ≠ p := by
      simp only [List.cons_append, List.nodup_cons, List.mem_append, List.mem_cons,
        not_or] at hnd
      exact hnd.1.2.1
    refine ⟨hhead, hx0, ?_⟩
    rw [Function.update_noteq hxp]
    exact ih _ hrest

/-- The splice of `MR_find_ready_context` on a chain: with `rp` the node
before `r` (null when `r` is the head), the stores of the splice leave the
chain without `r`. -/
theorem is_chain_splice (h : Nat → MR_Context) (r : Nat) (l1 l2 : List Nat) (head : Nat)
    (hc : is_chain h head (l1 ++ r :: l2)) :
    is_chain
      (if (l1.getLast?).getD 0 ≠ 0 then
        Function.update h ((l1.getLast?).getD 0)
          { h ((l1.getLast?).getD 0) with MR_ctxt_next := (h r).MR_ctxt_next }
       else h)
      (if (l1.getLast?).getD 0 ≠ 0 then head else (h r).MR_ctxt_next)
      (l1 ++ l2) := by
  rcases List.eq_nil_or_concat l1 with hnil | ⟨l0, p, hl1⟩
  · subst hnil
    simp only [List.getLast?_nil, Option.getD_none, ne_eq, not_true_eq_false, if_false,
      List.nil_append] at hc ⊢
    simp only [is_chain] at hc
    exact hc.2.2
  · subst hl1
    have hp0 : p ≠ 0 :=
      is_chain_ne_zero h _ _ hc p (by simp)
    have hlast : ((l0.concat p).getLast?).getD 0 = p := by simp
    rw [hlast]
    simp only [ne_eq, hp0, not_false_eq_true, if_true]
    have hc2 : is_chain h head (l0 ++ p :: r :: l2) := by
      simpa [List.concat_eq_append, List.append_assoc] using hc
    have := is_chain_unlink h p r l2 l0 head hc2
    simpa [List.concat_eq_append, List.append_assoc] using this

/-! ## The scan of `MR_find_ready_context` -/

theorem hard_match_false_of_not_required (h : Nat → MR_Context) (e d a : Nat)
    (hr : (h a).MR_ctxt_resume_engine_required = false) : hard_match h e d a = false := by
  simp [hard_match, hr]

/-- The scan breaks on the first context that must run on this engine at
this depth: it returns that context and the node before it, and clears the
hard-affinity flag of the context. -/
theorem find_loop_hard (e d : Nat) (h : Nat → MR_Context) (a : Nat) (post : List Nat)
    (ha : hard_match h e d a = true) :
    ∀ (pre : List Nat) (fuel cur prev pc pcp : Nat),
      is_chain h cur (pre ++ a :: post) → (pre ++ a :: post).length ≤ fuel →
      (∀ x ∈ pre, hard_match h e d x = false) →
      MR_find_ready_context_loop e d fuel h cur prev pc pcp =
        some (Function.update h a { h a with MR_ctxt_resume_engine_required := false },
          a, (pre.getLast?).getD prev) := by
  intro pre
  induction pre with
  | nil =>
    intro fuel cur prev pc pcp hc hf _
    simp only [List.nil_append, is_chain] at hc
    obtain ⟨hcur, ha0, _⟩ := hc
    subst hcur
    simp only [List.nil_append, List.length_cons] at hf
    obtain ⟨f, rfl⟩ : ∃ f, fuel = f + 1 := ⟨fuel - 1, by omega⟩
    simp only [hard_match, Bool.and_eq_true, decide_eq_true_eq] at ha
    simp [MR_find_ready_context_loop, ha0, ha.1.1, ha.1.2, ha.2]
  | cons x pre ih =>
    intro fuel cur prev pc pcp hc hf hpre
    simp only [List.cons_append, is_chain] at hc
    obtain ⟨hcur, hx0, hrest⟩ := hc
    subst hcur
    simp only [List.cons_append, List.length_cons] at hf
    obtain ⟨f, rfl⟩ : ∃ f, fuel = f + 1 := ⟨fuel - 1, by omega⟩
    have hxf : hard_match h e d cur = false := hpre cur (List.mem_cons_self _ _)
    have hpre' : ∀ y ∈ pre, hard_match h e d y = false :=
      fun y hy => hpre y (List.mem_cons_of_mem _ hy)
    have hlen : (pre ++ a :: post).length ≤ f := by omega
    rw [getLast?_getD_cons]
    by_cases hreq : (h cur).MR_ctxt_resume_engine_required = true
    · have hnm : ¬ ((h cur).MR_ctxt_resume_owner_engine = e ∧
          (h cur).MR_ctxt_resume_c_depth = d) := by
        intro hm
        simp [hard_match, hreq, hm.1, hm.2] at hxf
      simp only [MR_find_ready_context_loop, hx0, if_false, hreq, if_true, hnm]
      exact ih f _ cur pc pcp hrest hlen hpre'
    · by_cases hown : (h cur).MR_ctxt_resume_owner_engine = e
      · simp only [MR_find_ready_context_loop, hx0, if_false, hreq, hown, if_true]
        exact ih f _ cur cur prev hrest hlen hpre'
      · by_cases hpc : pc = 0
        · simp only [MR_find_ready_context_loop, hx0, if_false, hreq, hown, hpc, if_true]
          exact ih f _ cur cur prev hrest hlen hpre'
        · simp only [MR_find_ready_context_loop, hx0, if_false, hreq, hown, hpc]
          exact ih f _ cur pc pcp hrest hlen hpre'

/-- The scan of a queue without a context that must run on this engine at
this depth leaves the heap as it is and ends in one of three ways: it keeps
the candidate it started with; or it returns the last context without hard
affinity that prefers this engine; or, having started without a candidate and
met no context that prefers this engine, it returns the first context without
hard affinity.  In the last two cases it also returns the node before the
context. -/
theorem find_loop_no_hard (e d : Nat) (h : Nat → MR_Context) :
    ∀ (q : List Nat) (fuel cur prev pc pcp : Nat),
      is_chain h cur q → q.length ≤ fuel →
      (∀ x ∈ q, hard_match h e d x = false) →
      ∃ r rp, MR_find_ready_context_loop e d fuel h cur prev pc pcp = some (h, r, rp) ∧
        ((r = pc ∧ rp = pcp ∧ (∀ x ∈ q, soft_match h e x = false) ∧
            (pc = 0 → ∀ x ∈ q, no_affinity h x = false)) ∨
         (∃ l1 l2, q = l1 ++ r :: l2 ∧ rp = (l1.getLast?).getD prev ∧
            soft_match h e r = true ∧ ∀ x ∈ l2, soft_match h e x = false) ∨
         (∃ l1 l2, q = l1 ++ r :: l2 ∧ rp = (l1.getLast?).getD prev ∧ pc = 0 ∧
            no_affinity h r = true ∧ (∀ x ∈ q, soft_match h e x = false) ∧
            ∀ x ∈ l1, no_affinity h x = false)) := by
  intro q
  induction q with
  | nil =>
    intro fuel cur prev pc pcp hc _ _
    simp only [is_chain] at hc
    subst hc
    refine ⟨pc, pcp, ?_, Or.inl ⟨rfl, rfl, by simp, by simp⟩⟩
    cases fuel <;> simp [MR_find_ready_context_loop]
  | cons a q ih =>
    intro fuel cur prev pc pcp hc hf hq
    simp only [is_chain] at hc
    obtain ⟨hcur, ha0, hrest⟩ := hc
    subst hcur
    simp only [List.length_cons] at hf
    obtain ⟨f, rfl⟩ : ∃ f, fuel = f + 1 := ⟨fuel - 1, by omega⟩
    have hlen : q.length ≤ f := by omega
    have haf : hard_match h e d cur = false := hq cur (List.mem_cons_self _ _)
    have hq' : ∀ y ∈ q, hard_match h e d y = false :=
      fun y hy => hq y (List.mem_cons_of_mem _ hy)
    by_cases hreq : (h cur).MR_ctxt_resume_engine_required = true
    · -- a context with hard affinity for another engine or depth: skipped
      have hnm : ¬ ((h cur).MR_ctxt_resume_owner_engine = e ∧
          (h cur).MR_ctxt_resume_c_depth = d) := by
        intro hm
        simp [hard_match, hreq, hm.1, hm.2] at haf
      have hsoft : soft_match h e cur = false := by simp [soft_match, hreq]
      have hnoaff : no_affinity h cur = false := by simp [no_affinity, hreq]
      obtain ⟨r, rp, hloop, hres⟩ := ih f _ cur pc pcp hrest hlen hq'
      refine ⟨r, rp, ?_, ?_⟩
      · simp only [MR_find_ready_context_loop, ha0, if_false, hreq, if_true, hnm]
        exact hloop
      · rcases hres with ⟨h1, h2, h3, h4⟩ | ⟨l1, l2, h1, h2, h3, h4⟩ |
          ⟨l1, l2, h1, h2, h3, h4, h5, h6⟩
        · refine Or.inl ⟨h1, h2, ?_, fun hp => ?_⟩
          · intro x hx
            rcases List.mem_cons.mp hx with rfl | hx
            · exact hsoft
            · exact h3 x hx
          · intro x hx
            rcases List.mem_cons.mp hx with rfl | hx
            · exact hnoaff
            · exact h4 hp x hx
        · refine Or.inr (Or.inl ⟨cur :: l1, l2, by simp [h1], ?_, h3, h4⟩)
          rw [getLast?_getD_cons]
          exact h2
        · refine Or.inr (Or.inr ⟨cur :: l1, l2, by simp [h1], ?_, h3, h4, ?_, ?_⟩)
          · rw [getLast?_getD_cons]
            exact h2
          · intro x hx
            rcases List.mem_cons.mp hx with rfl | hx
            · exact hsoft
            · exact h5 x hx
          · intro x hx
            rcases List.mem_cons.mp hx with rfl | hx
            · exact hnoaff
            · exact h6 x hx
    · have hreqf : (h cur).MR_ctxt_resume_engine_required = false := by
        simpa using hreq
      have hnoaff : no_affinity h cur = true := by simp [no_affinity, hreqf]
      by_cases hown : (h cur).MR_ctxt_resume_owner_engine = e
      · -- a context that prefers this engine: the new candidate
        have hsoft : soft_match h e cur = true := by simp [soft_match, hreqf, hown]
        obtain ⟨r, rp, hloop, hres⟩ := ih f _ cur cur prev hrest hlen hq'
        refine ⟨r, rp, ?_, ?_⟩
        · simp only [MR_find_ready_context_loop, ha0, if_false, hreq, hown, if_true]
          exact hloop
        · rcases hres with ⟨h1, h2, h3, _⟩ | ⟨l1, l2, h1, h2, h3, h4⟩ |
            ⟨l1, l2, _, _, h3, _⟩
          · refine Or.inr (Or.inl ⟨[], q, by simp [h1], by simp [h2], ?_, h3⟩)
            rw [h1]
            exact hsoft
          · refine Or.inr (Or.inl ⟨cur :: l1, l2, by simp [h1], ?_, h3, h4⟩)
            rw [getLast?_getD_cons]
            exact h2
          · exact absurd h3 ha0
      · have hsoft : soft_match h e cur = false := by simp [soft_match, hown]
        by_cases hpc : pc = 0
        · -- no candidate yet: this context will do
          obtain ⟨r, rp, hloop, hres⟩ := ih f _ cur cur prev hrest hlen hq'
          refine ⟨r, rp, ?_, ?_⟩
          · simp only [MR_find_ready_context_loop, ha0, if_false, hreq, hown, hpc, if_true]
            exact hloop
          · rcases hres with ⟨h1, h2, h3, _⟩ | ⟨l1, l2, h1, h2, h3, h4⟩ |
              ⟨l1, l2, _, _, h3, _⟩
            · refine Or.inr (Or.inr ⟨[], q, by simp [h1], by simp [h2], hpc, ?_, ?_,
                by simp⟩)
              · rw [h1]
                exact hnoaff
              · intro x hx
                rcases List.mem_cons.mp hx with rfl | hx
                · exact hsoft
                · exact h3 x hx
            · refine Or.inr (Or.inl ⟨cur :: l1, l2, by simp [h1], ?_, h3, h4⟩)
              rw [getLast?_getD_cons]
              exact h2
            · exact absurd h3 ha0
        · -- a candidate is kept
          obtain ⟨r, rp, hloop, hres⟩ := ih f _ cur pc pcp hrest hlen hq'
          refine ⟨r, rp, ?_, ?_⟩
          · simp only [MR_find_ready_context_loop, ha0, if_false, hreq, hown, hpc]
            exact hloop
          · rcases hres with ⟨h1, h2, h3, _⟩ | ⟨l1, l2, h1, h2, h3, h4⟩ |
              ⟨l1, l2, _, _, h3, _⟩
            · refine Or.inl ⟨h1, h2, ?_, fun hp => absurd hp hpc⟩
              intro x hx
              rcases List.mem_cons.mp hx with rfl | hx
              · exact hsoft
              · exact h3 x hx
            · refine Or.inr (Or.inl ⟨cur :: l1, l2, by simp [h1], ?_, h3, h4⟩)
              rw [getLast?_getD_cons]
              exact h2
            · exact absurd h3 hpc

/-- The tail pointer after the splice: when `t` is the last node of the
queue, the store `if (tail == r) tail = prev` leaves the last node of the
queue without `r` (null when nothing remains). -/
theorem tail_after_splice (l1 l2 : List Nat) (r t : Nat)
    (hnd : (l1 ++ r :: l2).Nodup) (ht : t = ((l1 ++ r :: l2).getLast?).getD 0) :
    (if t = r then (l1.getLast?).getD 0 else t) = ((l1 ++ l2).getLast?).getD 0 := by
  cases l2 with
  | nil =>
    have : t = r := by
      rw [ht]
      simp
    simp [this]
  | cons b l2 =>
    have hlast : (l1 ++ r :: b :: l2).getLast? = (b :: l2).getLast? := by
      rw [List.getLast?_append, List.getLast?_cons_cons]
      cases hb : (b :: l2).getLast? with
      | none => simp at hb
      | some z => rfl
    have hlast2 : (l1 ++ b :: l2).getLast? = (b :: l2).getLast? := by
      rw [List.getLast?_append]
      cases hb : (b :: l2).getLast? with
      | none => simp at hb
      | some z => rfl
    cases hb : (b :: l2).getLast? with
    | none => simp at hb
    | some z =>
      have hz : z ∈ b :: l2 := List.mem_of_getLast?_eq_some hb
      have hzr : z ≠ r := by
        intro e
        subst e
        have h2 := (List.nodup_append.mp hnd).2.1
        exact (List.nodup_cons.mp h2).1 hz
      have htz : t = z := by
        rw [ht, hlast, hb]
        rfl
      rw [hlast2, hb, htz]
      simp [hzr]

/-! ## `MR_find_ready_context`: the context returned and the queue left -/

/-- When the scan ends on the context `r` of the queue, the call returns `r`
and leaves the queue without it; the heap differs from the one the scan left
only in the link of the node before `r`. -/
theorem find_ready_context_of_loop (fuel : Nat) (s : Runtime) (me : Nat)
    (h1 : Nat → MR_Context) (r : Nat) (l1 l2 : List Nat)
    (hloop : MR_find_ready_context_loop me (s.engines me).MR_eng_c_depth fuel s.ctxt
      s.MR_runqueue_head 0 0 0 = some (h1, r, (l1.getLast?).getD 0))
    (hc : is_chain h1 s.MR_runqueue_head (l1 ++ r :: l2)) :
    ∃ s', MR_find_ready_context fuel s me = some (r, s') ∧
      is_chain s'.ctxt s'.MR_runqueue_head (l1 ++ l2) ∧
      (∀ a, ∃ n, s'.ctxt a = { h1 a with MR_ctxt_next := n }) ∧
      s'.engines = s.engines ∧
      s'.engine_sleep_sync_data = s.engine_sleep_sync_data ∧
      s'.MR_runqueue_tail =
        (if s.MR_runqueue_tail = r then (l1.getLast?).getD 0 else s.MR_runqueue_tail) := by
  have hr0 : r ≠ 0 := is_chain_ne_zero h1 _ _ hc r (by simp)
  have hsp := is_chain_splice h1 r l1 l2 _ hc
  unfold MR_find_ready_context
  simp only [hloop, ne_eq, hr0, not_false_eq_true, if_true]
  by_cases hrp : (l1.getLast?).getD 0 = 0
  · simp only [hrp, ne_eq, not_true_eq_false, if_false] at hsp ⊢
    refine ⟨_, rfl, ?_, ?_, ?_, ?_, ?_⟩
    · split <;> exact hsp
    · intro a
      refine ⟨(h1 a).MR_ctxt_next, ?_⟩
      split <;> rfl
    · split <;> rfl
    · split <;> rfl
    · by_cases ht : s.MR_runqueue_tail = r
      · simp [ht]
      · simp [ht]
  · simp only [ne_eq, hrp, not_false_eq_true, if_true] at hsp ⊢
    refine ⟨_, rfl, ?_, ?_, ?_, ?_, ?_⟩
    · split <;> exact hsp
    · intro a
      by_cases hap : a = (l1.getLast?).getD 0
      · refine ⟨(h1 r).MR_ctxt_next, ?_⟩
        subst hap
        split <;> simp [Runtime.setCtxt]
      · refine ⟨(h1 a).MR_ctxt_next, ?_⟩
        split <;> simp [Runtime.setCtxt, Function.update_noteq hap]
    · split <;> rfl
    · split <;> rfl
    · by_cases ht : s.MR_runqueue_tail = r
      · simp [ht, Runtime.setCtxt]
      · simp [ht, Runtime.setCtxt]

/-- The context that `MR_find_ready_context` picks from the queue `q`, as a
function of the queue: the first context that must run on this engine at this
depth; failing that the last context without hard affinity that prefers this
engine; failing that the first context without hard affinity; `NULL` when
there is none.  The call returns it, on every finite queue, and leaves the
queue without it. -/
theorem find_ready_context_spec (fuel : Nat) (s : Runtime) (me : Nat) (q : List Nat)
    (hq : is_chain s.ctxt s.MR_runqueue_head q) (hf : q.length ≤ fuel) :
    ∃ r s', MR_find_ready_context fuel s me = some (r, s') ∧
      is_chain s'.ctxt s'.MR_runqueue_head (q.erase r) ∧
      (r = 0 → s' = s) ∧
      (∀ a, a ≠ r → ∃ n, s'.ctxt a = { s.ctxt a with MR_ctxt_next := n }) ∧
      (∃ n, s'.ctxt r = { s.ctxt r with
          MR_ctxt_next := n, MR_ctxt_resume_engine_required := false } ∨
        s'.ctxt r = { s.ctxt r with MR_ctxt_next := n }) ∧
      s'.engines = s.engines ∧
      s'.engine_sleep_sync_data = s.engine_sleep_sync_data ∧
      (q.find? (hard_match s.ctxt me (s.engines me).MR_eng_c_depth) = some r ∨
       (q.find? (hard_match s.ctxt me (s.engines me).MR_eng_c_depth) = none ∧
          (q.filter (soft_match s.ctxt me)).getLast? = some r) ∨
       (q.find? (hard_match s.ctxt me (s.engines me).MR_eng_c_depth) = none ∧
          q.filter (soft_match s.ctxt me) = [] ∧
          r = (q.find? (no_affinity s.ctxt)).getD 0)) ∧
      (s.MR_runqueue_tail = (q.getLast?).getD 0 →
        s'.MR_runqueue_tail = ((q.erase r).getLast?).getD 0) := by
  have hnd := is_chain_nodup _ _ _ hq
  cases hfind : q.find? (hard_match s.ctxt me (s.engines me).MR_eng_c_depth) with
  | some a =>
    obtain ⟨ha, pre, post, hdec, hpre⟩ := List.find?_eq_some.mp hfind
    have hpre' : ∀ x ∈ pre, hard_match s.ctxt me (s.engines me).MR_eng_c_depth x = false := by
      intro x hx
      simpa using hpre x hx
    subst hdec
    have hloop := find_loop_hard me (s.engines me).MR_eng_c_depth s.ctxt a post ha pre fuel
      s.MR_runqueue_head 0 0 0 hq hf hpre'
    have hc1 : is_chain
        (Function.update s.ctxt a { s.ctxt a with MR_ctxt_resume_engine_required := false })
        s.MR_runqueue_head (pre ++ a :: post) := by
      refine (is_chain_congr s.ctxt _ _ _ (fun b _ => ?_)).mp hq
      by_cases hba : b = a
      · subst hba
        simp
      · rw [Function.update_noteq hba]
    obtain ⟨s', hs', hch, hheap, heng, hsync, htl⟩ :=
      find_ready_context_of_loop fuel s me _ a pre post hloop hc1
    have hapre : a ∉ pre := by
      intro hmem
      have := List.nodup_append.mp hnd
      exact this.2.2 hmem (List.mem_cons_self _ _)
    have herase : (pre ++ a :: post).erase a = pre ++ post := by
      rw [List.erase_append_right _ hapre, List.erase_cons_head]
    have ha0 : a ≠ 0 := is_chain_ne_zero _ _ _ hq a (by simp)
    refine ⟨a, s', hs', by rw [herase]; exact hch, fun h0 => absurd h0 ha0, ?_, ?_, heng,
      hsync, Or.inl rfl, fun ht => by rw [htl, herase]; exact tail_after_splice _ _ _ _ hnd ht⟩
    · intro b hb
      obtain ⟨n, hn⟩ := hheap b
      exact ⟨n, by rw [hn, Function.update_noteq hb]⟩
    · obtain ⟨n, hn⟩ := hheap a
      exact ⟨n, Or.inl (by rw [hn, Function.update_same])⟩
  | none =>
    have hnone : ∀ x ∈ q, hard_match s.ctxt me (s.engines me).MR_eng_c_depth x = false := by
      intro x hx
      have := List.find?_eq_none.mp hfind x hx
      simpa using this
    obtain ⟨r, rp, hloop, hres⟩ := find_loop_no_hard me (s.engines me).MR_eng_c_depth s.ctxt
      q fuel s.MR_runqueue_head 0 0 0 hq hf hnone
    rcases hres with ⟨h1, _, h3, h4⟩ | ⟨l1, l2, h1, h2, h3, h4⟩ |
      ⟨l1, l2, h1, h2, _, h4, h5, h6⟩
    · -- nothing suitable in the queue
      have h0q : (0 : Nat) ∉ q := fun hm => is_chain_ne_zero _ _ _ hq 0 hm rfl
      subst h1
      refine ⟨0, s, ?_, ?_, fun _ => rfl, fun a _ => ⟨(s.ctxt a).MR_ctxt_next, rfl⟩,
        ⟨(s.ctxt 0).MR_ctxt_next, Or.inr rfl⟩, rfl, rfl, Or.inr (Or.inr ⟨rfl, ?_, ?_⟩),
        fun ht => by rw [List.erase_of_not_mem h0q]; exact ht⟩
      · unfold MR_find_ready_context
        simp only [hloop, ne_eq, not_true_eq_false, if_false]
      · rw [List.erase_of_not_mem h0q]
        exact hq
      · exact List.filter_eq_nil_iff.mpr (fun x hx => by simp [h3 x hx])
      · have : q.find? (no_affinity s.ctxt) = none :=
          List.find?_eq_none.mpr (fun x hx => by simp [h4 rfl x hx])
        simp [this]
    · -- the last context that prefers this engine
      subst h1
      rw [h2] at hloop
      obtain ⟨s', hs', hch, hheap, heng, hsync, htl⟩ :=
        find_ready_context_of_loop fuel s me _ r l1 l2 hloop hq
      have hrl1 : r ∉ l1 := by
        intro hmem
        have := List.nodup_append.mp hnd
        exact this.2.2 hmem (List.mem_cons_self _ _)
      have herase : (l1 ++ r :: l2).erase r = l1 ++ l2 := by
        rw [List.erase_append_right _ hrl1, List.erase_cons_head]
      have hr0 : r ≠ 0 := is_chain_ne_zero _ _ _ hq r (by simp)
      refine ⟨r, s', hs', by rw [herase]; exact hch, fun h0 => absurd h0 hr0,
        fun b _ => hheap b, ?_, heng, hsync, Or.inr (Or.inl ⟨rfl, ?_⟩),
        fun ht => by rw [htl, herase]; exact tail_after_splice _ _ _ _ hnd ht⟩
      · obtain ⟨n, hn⟩ := hheap r
        exact ⟨n, Or.inr hn⟩
      · have hl2 : l2.filter (soft_match s.ctxt me) = [] :=
          List.filter_eq_nil_iff.mpr (fun x hx => by simp [h4 x hx])
        simp [List.filter_append, List.filter_cons, h3, hl2]
    · -- the first context without hard affinity
      subst h1
      rw [h2] at hloop
      obtain ⟨s', hs', hch, hheap, heng, hsync, htl⟩ :=
        find_ready_context_of_loop fuel s me _ r l1 l2 hloop hq
      have hrl1 : r ∉ l1 := by
        intro hmem
        have := List.nodup_append.mp hnd
        exact this.2.2 hmem (List.mem_cons_self _ _)
      have herase : (l1 ++ r :: l2).erase r = l1 ++ l2 := by
        rw [List.erase_append_right _ hrl1, List.erase_cons_head]
      have hr0 : r ≠ 0 := is_chain_ne_zero _ _ _ hq r (by simp)
      refine ⟨r, s', hs', by rw [herase]; exact hch, fun h0 => absurd h0 hr0,
        fun b _ => hheap b, ?_, heng, hsync, Or.inr (Or.inr ⟨rfl, ?_, ?_⟩),
        fun ht => by rw [htl, herase]; exact tail_after_splice _ _ _ _ hnd ht⟩
      · obtain ⟨n, hn⟩ := hheap r
        exact ⟨n, Or.inr hn⟩
      · exact List.filter_eq_nil_iff.mpr (fun x hx => by simp [h5 x hx])
      · have : (l1 ++ r :: l2).find? (no_affinity s.ctxt) = some r :=
          List.find?_eq_some.mpr ⟨h4, l1, l2, rfl, fun x hx => by simp [h6 x hx]⟩
        simp [this]

/-- C7: if the run queue holds a context with the hard-affinity flag set,
owner engine `me` and the C depth of `me`, then `MR_find_ready_context`
returns the first such context in queue order, whatever stands before it. -/
theorem find_ready_context_hard_affinity_first (fuel : Nat) (s : Runtime) (me : Nat)
    (q : List Nat) (a : Nat)
    (hq : is_chain s.ctxt s.MR_runqueue_head q) (hf : q.length ≤ fuel)
    (ha : q.find? (hard_match s.ctxt me (s.engines me).MR_eng_c_depth) = some a) :
    ∃ s', MR_find_ready_context fuel s me = some (a, s') := by
  obtain ⟨r, s', hs', _, _, _, _, _, _, hpick, _⟩ := find_ready_context_spec fuel s me q hq hf
  rcases hpick with h | ⟨h, _⟩ | ⟨h, _⟩
  · rw [ha] at h
    exact ⟨s', by rw [hs', Option.some.inj h]⟩
  · rw [ha] at h
    exact Option.noConfusion h
  · rw [ha] at h
    exact Option.noConfusion h

/-- An instance: engine 0 at depth 2 takes the context at address 3, the last of
three, because it is the only one that must run there. -/
theorem find_ready_context_hard_affinity_first_witness :
    ∃ s', MR_find_ready_context 3 rq_hard_last 0 = some (3, s') :=
  find_ready_context_hard_affinity_first 3 rq_hard_last 0 [1, 2, 3] 3 (by decide) (by decide)
    (by decide)

/-- C8, the claim as stated fails: in a queue of two contexts without hard
affinity that both prefer engine 0, context 1 at the head and context 2
behind it, `MR_find_ready_context` run by engine 0 returns context 2, not the
first one. -/
theorem find_ready_context_preferred_first_counterexample :
    is_chain rq_two_preferring.ctxt rq_two_preferring.MR_runqueue_head [1, 2] ∧
    [1, 2].find? (hard_match rq_two_preferring.ctxt 0
      (rq_two_preferring.engines 0).MR_eng_c_depth) = none ∧
    [1, 2].find? (soft_match rq_two_preferring.ctxt 0) = some 1 ∧
    (MR_find_ready_context 2 rq_two_preferring 0).map Prod.fst = some 2 := by
  decide

/-- C8 as amended: if no context in the queue is a hard-affinity match for
the engine and its depth and some context without hard affinity prefers the
engine, then `MR_find_ready_context` returns the last such context in queue
order (the youngest, nearest the tail). -/
theorem find_ready_context_preferred_last (fuel : Nat) (s : Runtime) (me : Nat)
    (q : List Nat) (a : Nat)
    (hq : is_chain s.ctxt s.MR_runqueue_head q) (hf : q.length ≤ fuel)
    (hhard : ∀ x ∈ q, hard_match s.ctxt me (s.engines me).MR_eng_c_depth x = false)
    (ha : (q.filter (soft_match s.ctxt me)).getLast? = some a) :
    ∃ s', MR_find_ready_context fuel s me = some (a, s') := by
  obtain ⟨r, s', hs', _, _, _, _, _, _, hpick, _⟩ := find_ready_context_spec fuel s me q hq hf
  rcases hpick with h | ⟨_, h⟩ | ⟨_, h, _⟩
  · have hr := (List.find?_eq_some.mp h).1
    have hmem : r ∈ q := List.mem_of_find?_eq_some h
    rw [hhard r hmem] at hr
    exact Bool.noConfusion hr
  · rw [ha] at h
    exact ⟨s', by rw [hs', Option.some.inj h]⟩
  · rw [h] at ha
    simp at ha

/-- An instance: of two contexts that prefer engine 0 the one behind is
returned. -/
theorem find_ready_context_preferred_last_witness :
    ∃ s', MR_find_ready_context 2 rq_two_preferring 0 = some (2, s') :=
  find_ready_context_preferred_last 2 rq_two_preferring 0 [1, 2] 2 (by decide) (by decide)
    (by decide) (by decide)

/-- C9, the claim as stated fails: the queue holds context 1, with hard
affinity for engine 5, and behind it context 2, without hard affinity and
preferring engine 3.  No context is a hard-affinity match for engine 0 and
none prefers engine 0, yet `MR_find_ready_context` run by engine 0 returns
context 2 and not the head of the queue. -/
theorem find_ready_context_head_counterexample :
    is_chain rq_hard_head.ctxt rq_hard_head.MR_runqueue_head [1, 2] ∧
    (∀ x ∈ [1, 2], hard_match rq_hard_head.ctxt 0
      (rq_hard_head.engines 0).MR_eng_c_depth x = false) ∧
    (∀ x ∈ [1, 2], (rq_hard_head.ctxt x).MR_ctxt_resume_owner_engine ≠ 0) ∧
    rq_hard_head.MR_runqueue_head = 1 ∧
    (MR_find_ready_context 2 rq_hard_head 0).map Prod.fst = some 2 := by
  decide

/-- C9 as amended: if no context in the queue is a hard-affinity match for
the engine and its depth and no context without hard affinity prefers the
engine, then `MR_find_ready_context` returns the first context of the queue
that has no hard affinity, which is the head when the head has none, and
`NULL` when every queued context has hard affinity. -/
theorem find_ready_context_first_without_affinity (fuel : Nat) (s : Runtime) (me : Nat)
    (q : List Nat)
    (hq : is_chain s.ctxt s.MR_runqueue_head q) (hf : q.length ≤ fuel)
    (hhard : ∀ x ∈ q, hard_match s.ctxt me (s.engines me).MR_eng_c_depth x = false)
    (hsoft : ∀ x ∈ q, soft_match s.ctxt me x = false) :
    (∃ s', MR_find_ready_context fuel s me =
      some ((q.find? (no_affinity s.ctxt)).getD 0, s')) ∧
    (no_affinity s.ctxt s.MR_runqueue_head = true → q ≠ [] →
      ∃ s', MR_find_ready_context fuel s me = some (s.MR_runqueue_head, s')) := by
  obtain ⟨r, s', hs', _, _, _, _, _, _, hpick, _⟩ := find_ready_context_spec fuel s me q hq hf
  have hr : r = (q.find? (no_affinity s.ctxt)).getD 0 := by
    rcases hpick with h | ⟨_, h⟩ | ⟨_, _, h⟩
    · have hr := (List.find?_eq_some.mp h).1
      have hmem : r ∈ q := List.mem_of_find?_eq_some h
      rw [hhard r hmem] at hr
      exact Bool.noConfusion hr
    · have hmem : r ∈ q.filter (soft_match s.ctxt me) := List.mem_of_getLast?_eq_some h
      have := List.mem_filter.mp hmem
      rw [hsoft r this.1] at this
      exact Bool.noConfusion this.2
    · exact h
  refine ⟨⟨s', by rw [hs', hr]⟩, fun hhead hne => ⟨s', ?_⟩⟩
  cases q with
  | nil => exact absurd rfl hne
  | cons b q =>
    simp only [is_chain] at hq
    have hb : no_affinity s.ctxt b = true := by
      rw [← hq.1]
      exact hhead
    rw [hs', hr, hq.1]
    simp [List.find?_cons, hb]

/-- An instance: the head has hard affinity for engine 5, so engine 0 gets the
context behind it. -/
theorem find_ready_context_first_without_affinity_witness :
    ∃ s', MR_find_ready_context 2 rq_hard_head 0 = some (2, s') :=
  (find_ready_context_first_without_affinity 2 rq_hard_head 0 [1, 2] (by decide) (by decide)
    (by decide) (by decide)).1

/-- C10: `MR_find_ready_context` never returns a context whose hard-affinity
flag was set at the call unless its owner engine is the calling engine and
its recorded depth is the engine's C depth.  A context with hard affinity for
another engine, or for this engine at another depth, is not the one returned;
it is still in the queue afterwards, which is the queue before without the
returned context, and keeps its flag, owner and depth.  When every queued
context is of that kind the call returns `NULL` and changes nothing. -/
theorem find_ready_context_respects_hard_affinity (fuel : Nat) (s : Runtime) (me : Nat)
    (q : List Nat)
    (hq : is_chain s.ctxt s.MR_runqueue_head q) (hf : q.length ≤ fuel) :
    ∃ r s', MR_find_ready_context fuel s me = some (r, s') ∧
      (r ≠ 0 → r ∈ q ∧
        ((s.ctxt r).MR_ctxt_resume_engine_required = true →
          (s.ctxt r).MR_ctxt_resume_owner_engine = me ∧
          (s.ctxt r).MR_ctxt_resume_c_depth = (s.engines me).MR_eng_c_depth)) ∧
      is_chain s'.ctxt s'.MR_runqueue_head (q.erase r) ∧
      (∀ a ∈ q, (s.ctxt a).MR_ctxt_resume_engine_required = true →
        hard_match s.ctxt me (s.engines me).MR_eng_c_depth a = false →
        a ≠ r ∧ a ∈ q.erase r ∧
        (s'.ctxt a).MR_ctxt_resume_engine_required = true ∧
        (s'.ctxt a).MR_ctxt_resume_owner_engine = (s.ctxt a).MR_ctxt_resume_owner_engine ∧
        (s'.ctxt a).MR_ctxt_resume_c_depth = (s.ctxt a).MR_ctxt_resume_c_depth) ∧
      ((∀ a ∈ q, (s.ctxt a).MR_ctxt_resume_engine_required = true ∧
          hard_match s.ctxt me (s.engines me).MR_eng_c_depth a = false) →
        r = 0 ∧ s' = s) := by
  obtain ⟨r, s', hs', hch, hzero, hother, _, _, _, hpick, _⟩ :=
    find_ready_context_spec fuel s me q hq hf
  -- the returned context, when there is one, is in the queue and is either a
  -- hard-affinity match or a context without hard affinity
  have hkind : r ≠ 0 → r ∈ q ∧
      (hard_match s.ctxt me (s.engines me).MR_eng_c_depth r = true ∨
       (s.ctxt r).MR_ctxt_resume_engine_required = false) := by
    intro hr0
    rcases hpick with h | ⟨_, h⟩ | ⟨_, _, h⟩
    · exact ⟨List.mem_of_find?_eq_some h, Or.inl (List.find?_eq_some.mp h).1⟩
    · have hmem := List.mem_filter.mp (List.mem_of_getLast?_eq_some h)
      refine ⟨hmem.1, Or.inr ?_⟩
      have := hmem.2
      simp only [soft_match, Bool.and_eq_true, Bool.not_eq_true', decide_eq_true_eq] at this
      exact this.1
    · cases hfind : q.find? (no_affinity s.ctxt) with
      | none =>
        rw [hfind] at h
        exact absurd h hr0
      | some b =>
        rw [hfind] at h
        simp only [Option.getD_some] at h
        subst h
        refine ⟨List.mem_of_find?_eq_some hfind, Or.inr ?_⟩
        have := (List.find?_eq_some.mp hfind).1
        simpa [no_affinity] using this
  refine ⟨r, s', hs', ?_, hch, ?_, ?_⟩
  · intro hr0
    obtain ⟨hmem, hk⟩ := hkind hr0
    refine ⟨hmem, fun hreq => ?_⟩
    rcases hk with hk | hk
    · simp only [hard_match, Bool.and_eq_true, decide_eq_true_eq] at hk
      exact ⟨hk.1.2, hk.2⟩
    · rw [hk] at hreq
      exact Bool.noConfusion hreq
  · intro a ha hreq hnm
    have ha0 : a ≠ 0 := is_chain_ne_zero _ _ _ hq a ha
    have har : a ≠ r := by
      intro e
      subst e
      rcases (hkind ha0).2 with hk | hk
      · rw [hnm] at hk
        exact Bool.noConfusion hk
      · rw [hk] at hreq
        exact Bool.noConfusion hreq
    obtain ⟨n, hn⟩ := hother a har
    refine ⟨har, (List.mem_erase_of_ne har).mpr ha, ?_, ?_, ?_⟩
    · rw [hn]
      exact hreq
    · rw [hn]
    · rw [hn]
  · intro hall
    have hr0 : r = 0 := by
      by_contra hr0
      obtain ⟨hmem, hk⟩ := hkind hr0
      rcases hk with hk | hk
      · rw [(hall r hmem).2] at hk
        exact Bool.noConfusion hk
      · rw [(hall r hmem).1] at hk
        exact Bool.noConfusion hk
    exact ⟨hr0, hzero hr0⟩

/-- An instance: the queue whose head has hard affinity for engine 5, scanned
by engine 0. -/
theorem find_ready_context_respects_hard_affinity_witness :
    ∃ r s', MR_find_ready_context 2 rq_hard_head 0 = some (r, s') ∧
      is_chain s'.ctxt s'.MR_runqueue_head ([1, 2].erase r) := by
  obtain ⟨r, s', h1, _, h3, _⟩ :=
    find_ready_context_respects_hard_affinity 2 rq_hard_head 0 [1, 2] (by decide) (by decide)
  exact ⟨r, s', h1, h3⟩

/-! ## The wake protocol: `try_wake_engine` -/

@[simp] theorem setSync_same (s : Runtime) (i : Nat) (d : engine_sleep_sync) :
    (s.setSync i d).engine_sleep_sync_data i = d := by
  simp [Runtime.setSync]

theorem setSync_other (s : Runtime) (i j : Nat) (d : engine_sleep_sync) (h : j ≠ i) :
    (s.setSync i d).engine_sleep_sync_data j = s.engine_sleep_sync_data j := by
  simp [Runtime.setSync, Function.update_noteq h]

theorem setSync_self (s : Runtime) (i : Nat) :
    s.setSync i (s.engine_sleep_sync_data i) = s := by
  simp [Runtime.setSync, Function.update_eq_self]

/-- A call that is refused leaves the whole state as it was: the wake
semaphore is taken and given back. -/
theorem try_wake_engine_refused (s : Runtime) (engine_id : Nat) (action : MR_EngineAction)
    (action_data : Option Nat) (states : Nat)
    (hw : 0 < (s.engine_sleep_sync_data engine_id).es_wake_semaphore)
    (hst : (s.engine_sleep_sync_data engine_id).es_state &&& states = 0) :
    try_wake_engine s engine_id action action_data states = some (false, s) := by
  unfold try_wake_engine MR_SEM_WAIT MR_SEM_POST
  have hw0 : (s.engine_sleep_sync_data engine_id).es_wake_semaphore ≠ 0 := by omega
  simp only [hw0, if_false, hst, ne_eq, not_true_eq_false]
  have hback : (s.engine_sleep_sync_data engine_id).es_wake_semaphore - 1 + 1 =
      (s.engine_sleep_sync_data engine_id).es_wake_semaphore := by omega
  simp only [hback]
  rw [setSync_self]

/-- A call on one engine does not touch the synchroniser of another. -/
theorem try_wake_engine_other (s s' : Runtime) (engine_id j : Nat) (action : MR_EngineAction)
    (action_data : Option Nat) (states : Nat) (b : Bool)
    (h : try_wake_engine s engine_id action action_data states = some (b, s'))
    (hj : j ≠ engine_id) :
    s'.engine_sleep_sync_data j = s.engine_sleep_sync_data j := by
  unfold try_wake_engine at h
  dsimp only at h
  cases hwait : MR_SEM_WAIT (s.engine_sleep_sync_data engine_id).es_wake_semaphore with
  | none =>
    rw [hwait] at h
    exact Option.noConfusion h
  | some w =>
    rw [hwait] at h
    simp only at h
    split at h
    · have := (Prod.mk.inj (Option.some.inj h)).2
      rw [← this]
      exact setSync_other _ _ _ _ hj
    · have := (Prod.mk.inj (Option.some.inj h)).2
      rw [← this]
      exact setSync_other _ _ _ _ hj

/-- A call that is accepted: the synchroniser of the engine afterwards. -/
theorem try_wake_engine_accepted (s : Runtime) (engine_id : Nat) (action : MR_EngineAction)
    (action_data : Option Nat) (states : Nat)
    (hw : 0 < (s.engine_sleep_sync_data engine_id).es_wake_semaphore)
    (hst : (s.engine_sleep_sync_data engine_id).es_state &&& states ≠ 0) :
    try_wake_engine s engine_id action action_data states =
      some (true, s.setSync engine_id
        { es_sleep_semaphore := (s.engine_sleep_sync_data engine_id).es_sleep_semaphore + 1
          es_wake_semaphore := (s.engine_sleep_sync_data engine_id).es_wake_semaphore
          es_state := ENGINE_STATE_WOKEN
          es_action := action
          es_action_data :=
            action_data.getD (s.engine_sleep_sync_data engine_id).es_action_data }) := by
  have hw0 : (s.engine_sleep_sync_data engine_id).es_wake_semaphore ≠ 0 := by omega
  have hback : (s.engine_sleep_sync_data engine_id).es_wake_semaphore - 1 + 1 =
      (s.engine_sleep_sync_data engine_id).es_wake_semaphore := by omega
  unfold try_wake_engine MR_SEM_WAIT MR_SEM_POST
  simp only [hw0, if_false, ne_eq, hst, not_false_eq_true, if_true]
  cases action_data with
  | none => simp [hback]
  | some d => simp [hback]

/-- C4: a call of `try_wake_engine` that gets the wake semaphore returns, and
it returns true exactly when the state of the target engine has a bit in
common with `states`.  When it returns true the engine's action is `action`,
its action data is the word behind `action_data` when that pointer is not
null (and is left alone when it is), its state is WOKEN, its sleep semaphore
has been posted once, and its wake semaphore has the count it had before. -/
theorem try_wake_engine_spec (s : Runtime) (engine_id : Nat) (action : MR_EngineAction)
    (action_data : Option Nat) (states : Nat)
    (hw : 0 < (s.engine_sleep_sync_data engine_id).es_wake_semaphore) :
    ∃ b s', try_wake_engine s engine_id action action_data states = some (b, s') ∧
      (b = true ↔ (s.engine_sleep_sync_data engine_id).es_state &&& states ≠ 0) ∧
      (b = true →
        (s'.engine_sleep_sync_data engine_id).es_action = action ∧
        (∀ d, action_data = some d →
          (s'.engine_sleep_sync_data engine_id).es_action_data = d) ∧
        (action_data = none →
          (s'.engine_sleep_sync_data engine_id).es_action_data =
            (s.engine_sleep_sync_data engine_id).es_action_data) ∧
        (s'.engine_sleep_sync_data engine_id).es_state = ENGINE_STATE_WOKEN ∧
        (s'.engine_sleep_sync_data engine_id).es_sleep_semaphore =
          (s.engine_sleep_sync_data engine_id).es_sleep_semaphore + 1 ∧
        (s'.engine_sleep_sync_data engine_id).es_wake_semaphore =
          (s.engine_sleep_sync_data engine_id).es_wake_semaphore) := by
  by_cases hst : (s.engine_sleep_sync_data engine_id).es_state &&& states = 0
  · refine ⟨false, s, try_wake_engine_refused s engine_id action action_data states hw hst,
      ?_, fun hb => Bool.noConfusion hb⟩
    simp [hst]
  · refine ⟨true, _, try_wake_engine_accepted s engine_id action action_data states hw hst,
      by simp [hst], fun _ => ?_⟩
    refine ⟨by simp, fun d hd => by simp [hd], fun hd => by simp [hd], by simp, by simp,
      by simp⟩

/-- An instance: waking the sleeping engine 1 of a two-engine runtime. -/
theorem try_wake_engine_spec_witness :
    ∃ b s', try_wake_engine (MR_do_sleep_set_sleeping (MR_init_context_stuff 2 2 8) 1) 1
        MR_EngineAction.MR_ENGINE_ACTION_CONTEXT (some 5) ENGINE_STATE_SLEEPING
        = some (b, s') ∧
      (b = true → (s'.engine_sleep_sync_data 1).es_state = ENGINE_STATE_WOKEN) := by
  obtain ⟨b, s', h1, _, h3⟩ := try_wake_engine_spec
    (MR_do_sleep_set_sleeping (MR_init_context_stuff 2 2 8) 1) 1
    MR_EngineAction.MR_ENGINE_ACTION_CONTEXT (some 5) ENGINE_STATE_SLEEPING (by decide)
  exact ⟨b, s', h1, fun hb => (h3 hb).2.2.2.1⟩

/-- C5, the claim as stated fails: `MR_shutdown_all_engines` calls
`try_wake_engine` with the mask `ENGINE_STATE_ALL`, and on an engine that is
WORKING that call returns true, makes the engine WOKEN with the action
SHUTDOWN and posts its sleep semaphore. -/
theorem try_wake_engine_working_counterexample :
    ((MR_init_context_stuff 2 2 8).engine_sleep_sync_data 1).es_state
      = ENGINE_STATE_WORKING ∧
    (try_wake_engine (MR_init_context_stuff 2 2 8) 1
      MR_EngineAction.MR_ENGINE_ACTION_SHUTDOWN none ENGINE_STATE_ALL).map
      (fun r => (r.1, (r.2.engine_sleep_sync_data 1).es_state,
        (r.2.engine_sleep_sync_data 1).es_action,
        (r.2.engine_sleep_sync_data 1).es_sleep_semaphore))
      = some (true, ENGINE_STATE_WOKEN, MR_EngineAction.MR_ENGINE_ACTION_SHUTDOWN, 1) := by
  decide

/-- C5 as amended: a call of `try_wake_engine` on an engine whose state is
WORKING, with a mask that does not hold the WORKING bit (the masks of
`MR_schedule_context` and `MR_try_wake_an_engine`), returns false and leaves
the state as it was: the engine's state, action, action data and semaphore
counts are the same after the call. -/
theorem try_wake_engine_working_untouched (s : Runtime) (engine_id : Nat)
    (action : MR_EngineAction) (action_data : Option Nat) (states : Nat)
    (hw : 0 < (s.engine_sleep_sync_data engine_id).es_wake_semaphore)
    (hworking : (s.engine_sleep_sync_data engine_id).es_state = ENGINE_STATE_WORKING)
    (hmask : ENGINE_STATE_WORKING &&& states = 0) :
    try_wake_engine s engine_id action action_data states = some (false, s) :=
  try_wake_engine_refused s engine_id action action_data states hw (by rw [hworking, hmask])

/-- An instance: the wake of `MR_schedule_context` on a working engine. -/
theorem try_wake_engine_working_untouched_witness :
    try_wake_engine (MR_init_context_stuff 2 2 8) 1 MR_EngineAction.MR_ENGINE_ACTION_CONTEXT
      (some 5) (ENGINE_STATE_IDLE ||| ENGINE_STATE_SLEEPING)
      = some (false, MR_init_context_stuff 2 2 8) :=
  try_wake_engine_working_untouched (MR_init_context_stuff 2 2 8) 1
    MR_EngineAction.MR_ENGINE_ACTION_CONTEXT (some 5)
    (ENGINE_STATE_IDLE ||| ENGINE_STATE_SLEEPING) (by decide) (by decide) (by decide)

/-! ## Signalling: an engine in state WOKEN -/

theorem runqueue_append_sync (s : Runtime) (ctxt : Nat) :
    (runqueue_append s ctxt).engine_sleep_sync_data = s.engine_sleep_sync_data := by
  unfold runqueue_append
  dsimp only
  split <;> rfl

/-- A wake that does not accept the state WOKEN leaves the synchroniser of a
woken engine as it is, whichever engine it targets. -/
theorem try_wake_engine_keeps_woken (s s' : Runtime) (e engine_id : Nat)
    (action : MR_EngineAction) (action_data : Option Nat) (states : Nat) (b : Bool)
    (hwoken : (s.engine_sleep_sync_data e).es_state = ENGINE_STATE_WOKEN)
    (hmask : ENGINE_STATE_WOKEN &&& states = 0)
    (h : try_wake_engine s engine_id action action_data states = some (b, s')) :
    s'.engine_sleep_sync_data e = s.engine_sleep_sync_data e := by
  by_cases he : e = engine_id
  · subst he
    by_cases hw : 0 < (s.engine_sleep_sync_data e).es_wake_semaphore
    · rw [try_wake_engine_refused s e action action_data states hw
        (by rw [hwoken, hmask])] at h
      rw [← (Prod.mk.inj (Option.some.inj h)).2]
    · have hw0 : (s.engine_sleep_sync_data e).es_wake_semaphore = 0 := by omega
      unfold try_wake_engine MR_SEM_WAIT at h
      simp only [hw0, if_true] at h
      exact Option.noConfusion h
  · exact try_wake_engine_other s s' engine_id e action action_data states b h he

theorem try_wake_an_engine_loop_keeps_woken (e me preferred_engine : Nat)
    (action : MR_EngineAction) (action_data : Option Nat) (target_eng : Option Nat) :
    ∀ (k : Nat) (s : Runtime) (r : Bool × Option Nat × Runtime),
      (s.engine_sleep_sync_data e).es_state = ENGINE_STATE_WOKEN →
      MR_try_wake_an_engine_loop me preferred_engine action action_data target_eng k s
        = some r →
      r.2.2.engine_sleep_sync_data e = s.engine_sleep_sync_data e := by
  intro k
  induction k with
  | zero =>
    intro s r _ h
    simp only [MR_try_wake_an_engine_loop] at h
    rw [← Option.some.inj h]
  | succ k ih =>
    intro s r hwoken h
    simp only [MR_try_wake_an_engine_loop] at h
    split at h
    · exact ih s r hwoken h
    · split at h
      · split at h
        · exact Option.noConfusion h
        · rename_i s1 hwake
          rw [← Option.some.inj h]
          exact try_wake_engine_keeps_woken s s1 e _ action action_data
            ENGINE_STATE_SLEEPING true hwoken (by decide) hwake
        · rename_i s1 hwake
          have hkeep := try_wake_engine_keeps_woken s s1 e _ action action_data
            ENGINE_STATE_SLEEPING false hwoken (by decide) hwake
          rw [ih s1 r (by rw [hkeep]; exact hwoken) h, hkeep]
      · exact ih s r hwoken h

theorem MR_schedule_context_keeps_woken (s s' : Runtime) (e me ctxt : Nat)
    (hwoken : (s.engine_sleep_sync_data e).es_state = ENGINE_STATE_WOKEN)
    (h : MR_schedule_context s me ctxt = some s') :
    s'.engine_sleep_sync_data e = s.engine_sleep_sync_data e := by
  unfold MR_schedule_context at h
  dsimp only at h
  split at h
  · split at h
    · exact Option.noConfusion h
    · rename_i s1 hwake
      rw [← Option.some.inj h]
      exact try_wake_engine_keeps_woken s s1 e _ _ _ _ true hwoken (by decide) hwake
    · rename_i s1 hwake
      rw [← Option.some.inj h, runqueue_append_sync]
      exact try_wake_engine_keeps_woken s s1 e _ _ _ _ false hwoken (by decide) hwake
  · split at h
    · split at h
      · exact Option.noConfusion h
      · rename_i t s1 hwake
        rw [← Option.some.inj h]
        exact try_wake_an_engine_loop_keeps_woken e me _ _ _ _ _ s (true, t, s1) hwoken hwake
      · rename_i t s1 hwake
        rw [← Option.some.inj h, runqueue_append_sync]
        exact try_wake_an_engine_loop_keeps_woken e me _ _ _ _ _ s (false, t, s1) hwoken hwake
    · rw [← Option.some.inj h, runqueue_append_sync]

/-- One step that is neither a wake of `MR_shutdown_all_engines` nor a
transition of engine `e` itself leaves the synchroniser of `e` as it is when
`e` is WOKEN. -/
theorem signal_step_keeps_woken (s : Runtime) (e : Nat) (st : SignalStep)
    (hwoken : (s.engine_sleep_sync_data e).es_state = ENGINE_STATE_WOKEN)
    (hsd : st.is_shutdown = false) (hown : st.own_engine ≠ some e) :
    (st.apply s).engine_sleep_sync_data e = s.engine_sleep_sync_data e := by
  cases st with
  | schedule_context me ctxt =>
    simp only [SignalStep.apply]
    cases h : MR_schedule_context s me ctxt with
    | none => rfl
    | some s' => exact MR_schedule_context_keeps_woken s s' e me ctxt hwoken h
  | try_wake_an_engine me p a d =>
    simp only [SignalStep.apply]
    cases h : MR_try_wake_an_engine s me p a d none with
    | none => rfl
    | some r =>
      exact try_wake_an_engine_loop_keeps_woken e me p a d none _ s r hwoken h
  | shutdown_wake me i => exact absurd hsd (by simp [SignalStep.is_shutdown])
  | advertise_idle e' =>
    have hne : e ≠ e' := fun h => hown (by rw [h]; rfl)
    simp only [SignalStep.apply, advertise_engine_state_idle]
    exact setSync_other _ _ _ _ hne
  | advertise_working e' =>
    have hne : e ≠ e' := fun h => hown (by rw [h]; rfl)
    simp only [SignalStep.apply, advertise_engine_state_working]
    exact setSync_other _ _ _ _ hne
  | set_sleeping e' =>
    have hne : e ≠ e' := fun h => hown (by rw [h]; rfl)
    simp only [SignalStep.apply, MR_do_sleep_set_sleeping]
    exact setSync_other _ _ _ _ hne
  | sleep_wait e' =>
    have hne : e ≠ e' := fun h => hown (by rw [h]; rfl)
    simp only [SignalStep.apply, MR_do_sleep_wait]
    cases h : MR_SEM_WAIT (s.engine_sleep_sync_data e').es_sleep_semaphore with
    | none => rfl
    | some v => exact setSync_other _ _ _ _ hne

/-- A call of `try_wake_engine` that returns leaves every wake semaphore with
the count it had. -/
theorem try_wake_engine_wake_semaphore (s s' : Runtime) (engine_id : Nat)
    (action : MR_EngineAction) (action_data : Option Nat) (states : Nat) (b : Bool)
    (h : try_wake_engine s engine_id action action_data states = some (b, s')) (j : Nat) :
    (s'.engine_sleep_sync_data j).es_wake_semaphore
      = (s.engine_sleep_sync_data j).es_wake_semaphore := by
  by_cases hj : j = engine_id
  · subst hj
    by_cases hw : 0 < (s.engine_sleep_sync_data j).es_wake_semaphore
    · by_cases hst : (s.engine_sleep_sync_data j).es_state &&& states = 0
      · rw [try_wake_engine_refused s j action action_data states hw hst] at h
        rw [← (Prod.mk.inj (Option.some.inj h)).2]
      · rw [try_wake_engine_accepted s j action action_data states hw hst] at h
        rw [← (Prod.mk.inj (Option.some.inj h)).2]
        simp
    · have hw0 : (s.engine_sleep_sync_data j).es_wake_semaphore = 0 := by omega
      unfold try_wake_engine MR_SEM_WAIT at h
      simp only [hw0, if_true] at h
      exact Option.noConfusion h
  · rw [try_wake_engine_other s s' engine_id j action action_data states b h hj]

theorem try_wake_an_engine_loop_wake_semaphore (me preferred_engine : Nat)
    (action : MR_EngineAction) (action_data : Option Nat) (target_eng : Option Nat) (j : Nat) :
    ∀ (k : Nat) (s : Runtime) (r : Bool × Option Nat × Runtime),
      MR_try_wake_an_engine_loop me preferred_engine action action_data target_eng k s
        = some r →
      (r.2.2.engine_sleep_sync_data j).es_wake_semaphore
        = (s.engine_sleep_sync_data j).es_wake_semaphore := by
  intro k
  induction k with
  | zero =>
    intro s r h
    simp only [MR_try_wake_an_engine_loop] at h
    rw [← Option.some.inj h]
  | succ k ih =>
    intro s r h
    simp only [MR_try_wake_an_engine_loop] at h
    split at h
    · exact ih s r h
    · split at h
      · split at h
        · exact Option.noConfusion h
        · rename_i s1 hwake
          rw [← Option.some.inj h]
          exact try_wake_engine_wake_semaphore s s1 _ action action_data _ true hwake j
        · rename_i s1 hwake
          rw [ih s1 r h]
          exact try_wake_engine_wake_semaphore s s1 _ action action_data _ false hwake j
      · exact ih s r h

/-- No step of the protocol changes the count of a wake semaphore: a waker
takes it and gives it back within its step. -/
theorem signal_step_wake_semaphore (s : Runtime) (st : SignalStep) (j : Nat) :
    ((st.apply s).engine_sleep_sync_data j).es_wake_semaphore
      = (s.engine_sleep_sync_data j).es_wake_semaphore := by
  cases st with
  | schedule_context me ctxt =>
    simp only [SignalStep.apply]
    cases h : MR_schedule_context s me ctxt with
    | none => rfl
    | some s' =>
      simp only [Option.getD_some]
      unfold MR_schedule_context at h
      dsimp only at h
      split at h
      · split at h
        · exact Option.noConfusion h
        · rename_i s1 hwake
          rw [← Option.some.inj h]
          exact try_wake_engine_wake_semaphore s s1 _ _ _ _ true hwake j
        · rename_i s1 hwake
          rw [← Option.some.inj h, runqueue_append_sync]
          exact try_wake_engine_wake_semaphore s s1 _ _ _ _ false hwake j
      · split at h
        · split at h
          · exact Option.noConfusion h
          · rename_i t s1 hwake
            rw [← Option.some.inj h]
            exact try_wake_an_engine_loop_wake_semaphore me _ _ _ _ j _ s (true, t, s1) hwake
          · rename_i t s1 hwake
            rw [← Option.some.inj h, runqueue_append_sync]
            exact try_wake_an_engine_loop_wake_semaphore me _ _ _ _ j _ s (false, t, s1) hwake
        · rw [← Option.some.inj h, runqueue_append_sync]
  | try_wake_an_engine me p a d =>
    simp only [SignalStep.apply]
    cases h : MR_try_wake_an_engine s me p a d none with
    | none => rfl
    | some r => exact try_wake_an_engine_loop_wake_semaphore me p a d none j _ s r h
  | shutdown_wake me i =>
    simp only [SignalStep.apply, MR_shutdown_all_engines_wake]
    split
    · rfl
    · cases h : try_wake_engine s i MR_EngineAction.MR_ENGINE_ACTION_SHUTDOWN none
          ENGINE_STATE_ALL with
      | none => rfl
      | some r =>
        exact try_wake_engine_wake_semaphore s r.2 i _ _ _ r.1 h j
  | advertise_idle e =>
    simp only [SignalStep.apply, advertise_engine_state_idle]
    by_cases hj : j = e
    · subst hj
      simp
    · rw [setSync_other _ _ _ _ hj]
  | advertise_working e =>
    simp only [SignalStep.apply, advertise_engine_state_working]
    by_cases hj : j = e
    · subst hj
      simp
    · rw [setSync_other _ _ _ _ hj]
  | set_sleeping e =>
    simp only [SignalStep.apply, MR_do_sleep_set_sleeping]
    by_cases hj : j = e
    · subst hj
      simp
    · rw [setSync_other _ _ _ _ hj]
  | sleep_wait e =>
    simp only [SignalStep.apply, MR_do_sleep_wait]
    cases h : MR_SEM_WAIT (s.engine_sleep_sync_data e).es_sleep_semaphore with
    | none => rfl
    | some v =>
      by_cases hj : j = e
      · subst hj
        simp
      · exact congrArg _ (setSync_other _ _ _ _ hj)

/-- In every state reached from the initial one by steps of the protocol each
wake semaphore has count 1, so no waker is ever blocked at the start of its
step. -/
theorem signal_run_wake_semaphore (num_threads : Nat) (nprocs max_contexts : Int)
    (steps : List SignalStep) (j : Nat) :
    ((signal_run (MR_init_context_stuff num_threads nprocs max_contexts)
      steps).engine_sleep_sync_data j).es_wake_semaphore = 1 := by
  have hgen : ∀ (steps : List SignalStep) (s : Runtime),
      ((signal_run s steps).engine_sleep_sync_data j).es_wake_semaphore
        = (s.engine_sleep_sync_data j).es_wake_semaphore := by
    intro steps
    induction steps with
    | nil => intro s; rfl
    | cons st steps ih =>
      intro s
      simp only [signal_run, List.foldl_cons]
      have := ih (st.apply s)
      simp only [signal_run] at this
      rw [this, signal_step_wake_semaphore]
  rw [hgen]
  rfl

/-- C6, the claim as stated fails: engine 1 goes to sleep and is handed
context 5 by `MR_schedule_context`, so that it is WOKEN with the action
CONTEXT stored and its sleep semaphore posted.  Before engine 1 takes any
step, the wake of `MR_shutdown_all_engines` signals it again: the stored
action is overwritten by SHUTDOWN and the count of the sleep semaphore is
2. -/
theorem woken_engine_signalled_again_counterexample :
    ((signal_run (MR_init_context_stuff 2 2 8) woken_run).engine_sleep_sync_data 1)
      = { es_sleep_semaphore := 1
          es_wake_semaphore := 1
          es_state := ENGINE_STATE_WOKEN
          es_action := MR_EngineAction.MR_ENGINE_ACTION_CONTEXT
          es_action_data := 5 } ∧
    ((signal_run (MR_init_context_stuff 2 2 8)
        (woken_run ++ [SignalStep.shutdown_wake 0 1])).engine_sleep_sync_data 1)
      = { es_sleep_semaphore := 2
          es_wake_semaphore := 1
          es_state := ENGINE_STATE_WOKEN
          es_action := MR_EngineAction.MR_ENGINE_ACTION_SHUTDOWN
          es_action_data := 5 } := by
  decide

/-- A run without shutdown in which an engine is signalled twice before it
reads an action: woken while idle, engine 1 goes back to work without waiting
on its sleep semaphore, and the next wake overwrites the stored context 5
with context 6 and posts the sleep semaphore a second time. -/
theorem idle_engine_woken_twice_example :
    ((signal_run two_hard_contexts (idle_wake_run.take 2)).engine_sleep_sync_data 1)
      = { es_sleep_semaphore := 1
          es_wake_semaphore := 1
          es_state := ENGINE_STATE_WOKEN
          es_action := MR_EngineAction.MR_ENGINE_ACTION_CONTEXT
          es_action_data := 5 } ∧
    ((signal_run two_hard_contexts idle_wake_run).engine_sleep_sync_data 1)
      = { es_sleep_semaphore := 2
          es_wake_semaphore := 1
          es_state := ENGINE_STATE_WOKEN
          es_action := MR_EngineAction.MR_ENGINE_ACTION_CONTEXT
          es_action_data := 6 } ∧
    (signal_run two_hard_contexts idle_wake_run).MR_runqueue_head = 0 := by
  decide

/-- C6 as amended: in every run of steps of `MR_schedule_context` and
`MR_try_wake_an_engine` and of transitions of the other engines, an engine
whose state is WOKEN is not signalled again and its stored action and action
data are not overwritten: its state, action, action data and semaphore
counts at the end of the run are those at the start. -/
theorem woken_engine_not_signalled_again (s : Runtime) (e : Nat) (steps : List SignalStep)
    (hwoken : (s.engine_sleep_sync_data e).es_state = ENGINE_STATE_WOKEN)
    (hsteps : ∀ st ∈ steps, st.is_shutdown = false ∧ st.own_engine ≠ some e) :
    (signal_run s steps).engine_sleep_sync_data e = s.engine_sleep_sync_data e := by
  induction steps generalizing s with
  | nil => rfl
  | cons st steps ih =>
    have hst := hsteps st (List.mem_cons_self _ _)
    have hkeep := signal_step_keeps_woken s e st hwoken hst.1 hst.2
    simp only [signal_run, List.foldl_cons]
    have := ih (st.apply s) (by rw [hkeep]; exact hwoken)
      (fun x hx => hsteps x (List.mem_cons_of_mem _ hx))
    simp only [signal_run] at this
    rw [this, hkeep]

/-- An instance: engine 1, woken with context 5, is then the target of a
second `MR_schedule_context` and of a `MR_try_wake_an_engine`. -/
theorem woken_engine_not_signalled_again_witness :
    (signal_run (signal_run (MR_init_context_stuff 2 2 8) woken_run)
        [SignalStep.schedule_context 0 6,
         SignalStep.try_wake_an_engine 0 1 MR_EngineAction.MR_ENGINE_ACTION_WORKSTEAL
           (some 0),
         SignalStep.advertise_idle 0]).engine_sleep_sync_data 1 =
      (signal_run (MR_init_context_stuff 2 2 8) woken_run).engine_sleep_sync_data 1 :=
  woken_engine_not_signalled_again (signal_run (MR_init_context_stuff 2 2 8) woken_run) 1
    [SignalStep.schedule_context 0 6,
     SignalStep.try_wake_an_engine 0 1 MR_EngineAction.MR_ENGINE_ACTION_WORKSTEAL (some 0),
     SignalStep.advertise_idle 0] (by decide) (by decide)

/-! ## Scenario S1: the originator arrives first -/

theorem do_local_spark_empty (s : Runtime) (me : Nat) (join_label : MR_Code)
    (h : (s.engines me).MR_eng_spark_deque = []) :
    do_local_spark s me join_label = Outcome.ok (MR_Code.null, s) := by
  simp [do_local_spark, MR_wsdeque_pop_bottom, h]

/-- When every registered deque is empty the loop of `MR_attempt_steal_spark`
runs to its end, `i = MR_num_threads`, and steals nothing. -/
theorem steal_loop_all_empty (offset : Nat) (s : Runtime)
    (hall : ∀ i < s.MR_num_threads, (s.MR_spark_deques i).all
      (fun j => (s.engines j).MR_eng_spark_deque.isEmpty) = true) :
    ∀ k, k ≤ s.MR_num_threads →
      MR_attempt_steal_spark_loop offset k s = (s.MR_num_threads, none, s) := by
  intro k
  induction k with
  | zero => intro _; rfl
  | succ k ih =>
    intro hk
    have hpos : 0 < s.MR_num_threads := by omega
    have hidx := hall ((s.MR_num_threads - (k + 1) + offset) % s.MR_num_threads)
      (Nat.mod_lt _ hpos)
    simp only [MR_attempt_steal_spark_loop]
    cases hv : s.MR_spark_deques ((s.MR_num_threads - (k + 1) + offset) % s.MR_num_threads) with
    | none => exact ih (by omega)
    | some victim =>
      rw [hv] at hidx
      simp only [Option.all_some, List.isEmpty_iff] at hidx
      simp only [hidx, MR_wsdeque_steal_top]
      exact ih (by omega)

theorem do_work_steal_nothing (s : Runtime) (me : Nat) (join_label : MR_Code)
    (hctx : (s.engines me).MR_eng_this_context ≠ 0)
    (hall : ∀ i < s.MR_num_threads, (s.MR_spark_deques i).all
      (fun j => (s.engines j).MR_eng_spark_deque.isEmpty) = true) :
    do_work_steal s me join_label =
      Outcome.ok (MR_Code.null,
        s.setEngine me { s.engines me with MR_eng_victim_counter := 0 }) := by
  unfold do_work_steal MR_attempt_steal_spark
  simp only [hctx, false_and, not_false_eq_true, if_true,
    steal_loop_all_empty _ s hall s.MR_num_threads (Nat.le_refl _), Nat.mod_self]

/-- What `save_dirty_context` does to the context the engine holds. -/
theorem save_dirty_context_spec (s : Runtime) (me : Nat) (join_label : MR_Code) :
    ((save_dirty_context s me join_label).ctxt
        (s.engines me).MR_eng_this_context).MR_ctxt_resume_owner_engine = me ∧
    ((save_dirty_context s me join_label).ctxt
        (s.engines me).MR_eng_this_context).MR_ctxt_resume = join_label ∧
    ((save_dirty_context s me join_label).engines me).MR_eng_this_context = 0 ∧
    (save_dirty_context s me join_label).sync_terms = s.sync_terms ∧
    (save_dirty_context s me join_label).MR_runqueue_head = s.MR_runqueue_head := by
  simp [save_dirty_context, MR_save_context, Runtime.setCtxt, Runtime.setEngine]

/-- What `prepare_engine_for_context` does: the context the engine held, if
any, is pushed on the free list of its size class, and the engine holds the
new context. -/
theorem prepare_engine_for_context_spec (s : Runtime) (me context : Nat) :
    ((prepare_engine_for_context s me context).engines me).MR_eng_this_context = context ∧
    ((s.engines me).MR_eng_this_context ≠ 0 →
      (s.ctxt (s.engines me).MR_eng_this_context).MR_ctxt_size
          = MR_ContextSize.MR_CONTEXT_SIZE_REGULAR →
      (prepare_engine_for_context s me context).free_context_list
          = (s.engines me).MR_eng_this_context ∧
      ((prepare_engine_for_context s me context).ctxt
          (s.engines me).MR_eng_this_context).MR_ctxt_next = s.free_context_list) ∧
    ((s.engines me).MR_eng_this_context ≠ 0 →
      (s.ctxt (s.engines me).MR_eng_this_context).MR_ctxt_size
          = MR_ContextSize.MR_CONTEXT_SIZE_SMALL →
      (prepare_engine_for_context s me context).free_small_context_list
          = (s.engines me).MR_eng_this_context ∧
      ((prepare_engine_for_context s me context).ctxt
          (s.engines me).MR_eng_this_context).MR_ctxt_next = s.free_small_context_list) := by
  refine ⟨?_, ?_, ?_⟩
  · simp [prepare_engine_for_context, MR_load_context, Runtime.setEngine]
  · intro h0 hsz
    simp [prepare_engine_for_context, h0, MR_destroy_context, MR_save_context,
      MR_load_context, Runtime.setCtxt, Runtime.setEngine, hsz]
  · intro h0 hsz
    simp [prepare_engine_for_context, h0, MR_destroy_context, MR_save_context,
      MR_load_context, Runtime.setCtxt, Runtime.setEngine, hsz]

/-- C3: scenario S1 with the originator first.  Engine `e0` runs the
originating context of a sync-term with count 2 and calls
`MR_do_join_and_continue`: it is sent to the dirty idle entry with the join
label in `r1`.  There its own deque is empty and no registered deque holds a
spark, so both probes return null and `save_dirty_context` is reached: it
records `e0` as the preferred engine of the context, sets the resume point of
the context to the join label and clears the context slot of `e0` (with an
empty run queue the entry then goes to sleep in exactly that state).  A call
of `MR_do_join_and_continue` on the same sync-term made later by an engine
`e1` that holds another context, in any state that still has the sync-term
and the originating context as `save_dirty_context` left them, lowers the
count to zero, leaves the wait loop without a single round, makes the
originating context the current context of `e1`, pushes the context that `e1`
held on the free list of its size class, and returns the join label. -/
theorem s1_originator_first (fuel : Nat) (s : Runtime) (e0 st : Nat) (join_label : MR_Code)
    (hown : (s.engines e0).MR_eng_this_context = (s.sync_terms st).MR_st_orig_context)
    (horig : (s.sync_terms st).MR_st_orig_context ≠ 0)
    (hcount : (s.sync_terms st).MR_st_count = 2)
    (hlocal : (s.engines e0).MR_eng_spark_deque = [])
    (hsteal : ∀ i < s.MR_num_threads, (s.MR_spark_deques i).all
      (fun j => (s.engines j).MR_eng_spark_deque.isEmpty) = true) :
    (MR_do_join_and_continue fuel s e0 st join_label).1
      = some (MR_ENTRY MR_Entry.MR_do_idle_dirty_context) ∧
    (((MR_do_join_and_continue fuel s e0 st join_label).2.engines e0).MR_r1 = join_label) ∧
    ∃ sa sc sd,
      do_local_spark (MR_do_join_and_continue fuel s e0 st join_label).2 e0 join_label
        = Outcome.ok (MR_Code.null, sa) ∧
      do_work_steal (advertise_engine_state_idle sa e0) e0 join_label
        = Outcome.ok (MR_Code.null, sc) ∧
      sd = save_dirty_context sc e0 join_label ∧
      (sd.ctxt (s.sync_terms st).MR_st_orig_context).MR_ctxt_resume_owner_engine = e0 ∧
      (sd.ctxt (s.sync_terms st).MR_st_orig_context).MR_ctxt_resume = join_label ∧
      (sd.engines e0).MR_eng_this_context = 0 ∧
      (s.MR_runqueue_head = 0 →
        MR_do_idle_dirty_context fuel (MR_do_join_and_continue fuel s e0 st join_label).2 e0
          = Outcome.ok (MR_ENTRY MR_Entry.MR_do_sleep, sd)) ∧
      ∀ (t : Runtime) (e1 : Nat),
        t.sync_terms st = sd.sync_terms st →
        t.ctxt (s.sync_terms st).MR_st_orig_context
          = sd.ctxt (s.sync_terms st).MR_st_orig_context →
        (t.engines e1).MR_eng_this_context ≠ (s.sync_terms st).MR_st_orig_context →
        join_wait_loop t (s.sync_terms st).MR_st_orig_context join_label 0 = some 0 ∧
        (MR_do_join_and_continue 0 t e1 st join_label).1 = some join_label ∧
        ((MR_do_join_and_continue 0 t e1 st join_label).2.sync_terms st).MR_st_count = 0 ∧
        ((MR_do_join_and_continue 0 t e1 st join_label).2.engines e1).MR_eng_this_context
          = (s.sync_terms st).MR_st_orig_context ∧
        ((t.engines e1).MR_eng_this_context ≠ 0 →
          (t.ctxt (t.engines e1).MR_eng_this_context).MR_ctxt_size
            = MR_ContextSize.MR_CONTEXT_SIZE_REGULAR →
          (MR_do_join_and_continue 0 t e1 st join_label).2.free_context_list
            = (t.engines e1).MR_eng_this_context ∧
          ((MR_do_join_and_continue 0 t e1 st join_label).2.ctxt
            (t.engines e1).MR_eng_this_context).MR_ctxt_next = t.free_context_list) ∧
        ((t.engines e1).MR_eng_this_context ≠ 0 →
          (t.ctxt (t.engines e1).MR_eng_this_context).MR_ctxt_size
            = MR_ContextSize.MR_CONTEXT_SIZE_SMALL →
          (MR_do_join_and_continue 0 t e1 st join_label).2.free_small_context_list
            = (t.engines e1).MR_eng_this_context ∧
          ((MR_do_join_and_continue 0 t e1 st join_label).2.ctxt
            (t.engines e1).MR_eng_this_context).MR_ctxt_next
              = t.free_small_context_list) := by
  have hM : (s.sync_terms st).MR_st_count < MR_UNSIGNED_MOD := by
    rw [hcount]
    decide
  have hr0 := join_and_continue_eq fuel s e0 st join_label (by omega) hM
  simp only [hown, if_true, hcount] at hr0
  simp only [show ¬ ((2 : Nat) = 1) by decide, if_false, show (2 : Nat) - 1 = 1 by rfl] at hr0
  rw [hr0]
  -- the state in which the dirty idle entry starts
  generalize hA : (s.setSyncTerm st { s.sync_terms st with MR_st_count := 1 }).setEngine e0
      { (s.setSyncTerm st { s.sync_terms st with MR_st_count := 1 }).engines e0 with
        MR_r1 := join_label } = A
  have hAeng : ∀ j, (A.engines j).MR_eng_spark_deque = (s.engines j).MR_eng_spark_deque := by
    intro j
    rw [← hA]
    by_cases hj : j = e0
    · subst hj
      simp
    · rw [setEngine_engines_other _ _ _ _ hj]
      rfl
  have hActx : (A.engines e0).MR_eng_this_context = (s.sync_terms st).MR_st_orig_context := by
    rw [← hA]
    simpa using hown
  have hAr1 : (A.engines e0).MR_r1 = join_label := by
    rw [← hA]
    simp
  have hAst : A.sync_terms st = { s.sync_terms st with MR_st_count := 1 } := by
    rw [← hA]
    simp
  have hAmisc : A.MR_spark_deques = s.MR_spark_deques ∧ A.MR_num_threads = s.MR_num_threads ∧
      A.MR_runqueue_head = s.MR_runqueue_head := by
    rw [← hA]
    exact ⟨rfl, rfl, rfl⟩
  refine ⟨rfl, hAr1, ?_⟩
  -- the two probes find nothing
  have hloc := do_local_spark_empty A e0 join_label (by rw [hAeng, hlocal])
  have hsteal2 : ∀ i < (advertise_engine_state_idle A e0).MR_num_threads,
      ((advertise_engine_state_idle A e0).MR_spark_deques i).all
        (fun j => ((advertise_engine_state_idle A e0).engines j).MR_eng_spark_deque.isEmpty)
        = true := by
    intro i hi
    have := hsteal i (by rw [← hAmisc.2.1]; exact hi)
    rw [← hAmisc.1] at this
    simpa [advertise_engine_state_idle, Runtime.setSync, hAeng] using this
  have hws := do_work_steal_nothing (advertise_engine_state_idle A e0) e0 join_label
    (by
      have : ((advertise_engine_state_idle A e0).engines e0).MR_eng_this_context
          = (A.engines e0).MR_eng_this_context := rfl
      rw [this, hActx]
      exact horig) hsteal2
  generalize hC : (advertise_engine_state_idle A e0).setEngine e0
      { (advertise_engine_state_idle A e0).engines e0 with MR_eng_victim_counter := 0 } = C
      at hws
  have hCctx : (C.engines e0).MR_eng_this_context = (s.sync_terms st).MR_st_orig_context := by
    rw [← hC]
    simpa [advertise_engine_state_idle, Runtime.setSync] using hActx
  have hCst : C.sync_terms = A.sync_terms := by
    rw [← hC]
    rfl
  have hChead : C.MR_runqueue_head = s.MR_runqueue_head := by
    rw [← hC]
    exact hAmisc.2.2
  obtain ⟨hsd1, hsd2, hsd3, hsd4, hsd5⟩ := save_dirty_context_spec C e0 join_label
  rw [hCctx] at hsd1 hsd2
  refine ⟨A, C, save_dirty_context C e0 join_label, hloc, hws, rfl, hsd1, hsd2, hsd3, ?_, ?_⟩
  · -- with an empty run queue the entry ends in `MR_do_sleep`
    intro hhead
    have hsdhead : (save_dirty_context C e0 join_label).MR_runqueue_head = 0 := by
      rw [hsd5, hChead, hhead]
    have hclear : (save_dirty_context C e0 join_label).setEngine e0
        { (save_dirty_context C e0 join_label).engines e0 with MR_eng_this_context := 0 }
        = save_dirty_context C e0 join_label := by
      have hrec : ∀ (e : MercuryEngine), e.MR_eng_this_context = 0 →
          ({ e with MR_eng_this_context := 0 } : MercuryEngine) = e := by
        intro e he
        cases e
        simp only at he
        subst he
        rfl
      rw [hrec _ hsd3]
      simp [Runtime.setEngine, Function.update_eq_self]
    have hget : do_get_context fuel (save_dirty_context C e0 join_label) e0
        = Outcome.ok (MR_Code.null, save_dirty_context C e0 join_label) := by
      have : MR_find_ready_context fuel (save_dirty_context C e0 join_label) e0
          = some (0, save_dirty_context C e0 join_label) := by
        unfold MR_find_ready_context
        have hl : MR_find_ready_context_loop e0
            ((save_dirty_context C e0 join_label).engines e0).MR_eng_c_depth fuel
            (save_dirty_context C e0 join_label).ctxt
            (save_dirty_context C e0 join_label).MR_runqueue_head 0 0 0
            = some ((save_dirty_context C e0 join_label).ctxt, 0, 0) := by
          rw [hsdhead]
          cases fuel <;> simp [MR_find_ready_context_loop]
        simp only [hl, ne_eq, not_true_eq_false, if_false]
      simp [do_get_context, this]
    unfold MR_do_idle_dirty_context MR_MAYBE_TRAMPOLINE
    simp only [hAr1, hloc, MR_MAYBE_TRAMPOLINE_AND_ACTION, ne_eq, not_true_eq_false, if_false,
      hws, hclear, hget]
  · -- the later call by a foreign engine
    intro t e1 htst htctx hforeign
    have htst' : t.sync_terms st = { s.sync_terms st with MR_st_count := 1 } := by
      rw [htst, hsd4, hCst, hAst]
    have hpub : (t.ctxt (s.sync_terms st).MR_st_orig_context).MR_ctxt_resume = join_label := by
      rw [htctx, hsd2]
    have hcnt : (t.sync_terms st).MR_st_count = 1 := by rw [htst']
    have horig_t : (t.sync_terms st).MR_st_orig_context
        = (s.sync_terms st).MR_st_orig_context := by rw [htst']
    have hr1 := join_and_continue_eq 0 t e1 st join_label (by omega)
      (by rw [hcnt]; decide)
    simp only [horig_t, hforeign, if_false, hcnt, if_true, hpub] at hr1
    rw [hr1]
    obtain ⟨hp1, hp2, hp3⟩ := prepare_engine_for_context_spec
      (t.setSyncTerm st
        { MR_st_orig_context := (s.sync_terms st).MR_st_orig_context
          MR_st_parent_sp := (t.sync_terms st).MR_st_parent_sp
          MR_st_count := 1 - 1 }) e1
      (s.sync_terms st).MR_st_orig_context
    refine ⟨join_wait_loop_ready t _ join_label 0 hpub, rfl, by simp, hp1, ?_, ?_⟩
    · intro h0 hsz
      exact hp2 h0 hsz
    · intro h0 hsz
      exact hp3 h0 hsz

/-- An instance: scenario S1 with two engines, the later call made by engine 1
in the state that `save_dirty_context` left. -/
theorem s1_originator_first_witness :
    ∃ sd : Runtime,
      (sd.ctxt 1).MR_ctxt_resume = MR_Code.label 3 ∧
      (sd.engines 0).MR_eng_this_context = 0 ∧
      (MR_do_join_and_continue 0 sd 1 7 (MR_Code.label 3)).1 = some (MR_Code.label 3) ∧
      ((MR_do_join_and_continue 0 sd 1 7 (MR_Code.label 3)).2.engines 1).MR_eng_this_context
        = 1 := by
  obtain ⟨_, _, sa, sc, sd, hloc, hws, hsd, _, hres, hclr, _, hlater⟩ :=
    s1_originator_first 0 s1_start 0 7 (MR_Code.label 3) (by decide) (by decide) (by decide)
      (by decide) (by decide)
  rw [do_local_spark_empty _ _ _ (by decide)] at hloc
  have hsa : (MR_do_join_and_continue 0 s1_start 0 7 (MR_Code.label 3)).2 = sa :=
    (Prod.mk.inj (Outcome.ok.inj hloc)).2
  subst hsa
  rw [do_work_steal_nothing _ _ _ (by decide) (by decide)] at hws
  have hsc := (Prod.mk.inj (Outcome.ok.inj hws)).2
  subst hsc
  have hforeign : (sd.engines 1).MR_eng_this_context ≠ 1 := by
    rw [hsd]
    decide
  obtain ⟨_, h2, _, h4, _⟩ := hlater sd 1 rfl rfl hforeign
  exact ⟨sd, hres, hclr, h2, h4⟩

/-! ## The splice of `MR_find_ready_context` -/

theorem is_chain_head (h : Nat → MR_Context) (p : Nat) (q : List Nat)
    (hc : is_chain h p q) : p = (q.head?).getD 0 := by
  cases q with
  | nil => simpa [is_chain] using hc
  | cons a q =>
    simp only [is_chain] at hc
    simpa using hc.1

/-- The three ways of picking a context all pick it from the queue. -/
theorem picked_mem (h : Nat → MR_Context) (e d : Nat) (q : List Nat) (r : Nat) (hr : r ≠ 0)
    (hpick : q.find? (hard_match h e d) = some r ∨
      (q.find? (hard_match h e d) = none ∧ (q.filter (soft_match h e)).getLast? = some r) ∨
      (q.find? (hard_match h e d) = none ∧ q.filter (soft_match h e) = [] ∧
        r = (q.find? (no_affinity h)).getD 0)) : r ∈ q := by
  rcases hpick with h1 | ⟨_, h1⟩ | ⟨_, _, h1⟩
  · exact List.mem_of_find?_eq_some h1
  · exact (List.mem_filter.mp (List.mem_of_getLast?_eq_some h1)).1
  · cases hfind : q.find? (no_affinity h) with
    | none =>
      rw [hfind] at h1
      exact absurd h1 hr
    | some b =>
      rw [hfind] at h1
      simp only [Option.getD_some] at h1
      rw [h1]
      exact List.mem_of_find?_eq_some hfind

/-- C11: `MR_find_ready_context` splices out exactly the context it returns.
The context returned is one of the queue; the queue afterwards is the queue
before without that node, the other contexts in the same order;
`MR_runqueue_head` is its first node and `MR_runqueue_tail` its last node,
both null when nothing remains.  When the call returns no context the whole
state, and so the queue, its head and its tail, is unchanged. -/
theorem find_ready_context_splices_result (fuel : Nat) (s : Runtime) (me : Nat)
    (q : List Nat)
    (hq : is_chain s.ctxt s.MR_runqueue_head q)
    (ht : s.MR_runqueue_tail = (q.getLast?).getD 0) (hf : q.length ≤ fuel) :
    ∃ r s', MR_find_ready_context fuel s me = some (r, s') ∧
      (r ≠ 0 → r ∈ q ∧ (q.erase r).length + 1 = q.length) ∧
      (q.erase r).Sublist q ∧
      is_chain s'.ctxt s'.MR_runqueue_head (q.erase r) ∧
      s'.MR_runqueue_head = ((q.erase r).head?).getD 0 ∧
      s'.MR_runqueue_tail = ((q.erase r).getLast?).getD 0 ∧
      (q.erase r = [] → s'.MR_runqueue_head = 0 ∧ s'.MR_runqueue_tail = 0) ∧
      (r = 0 → s' = s) := by
  obtain ⟨r, s', hs', hch, hzero, _, _, _, _, hpick, htail⟩ :=
    find_ready_context_spec fuel s me q hq hf
  have hhead := is_chain_head _ _ _ hch
  have htl := htail ht
  refine ⟨r, s', hs', fun hr => ?_, List.erase_sublist r q, hch, hhead, htl, fun he => ?_,
    hzero⟩
  · have hmem := picked_mem _ _ _ q r hr hpick
    refine ⟨hmem, ?_⟩
    rw [List.length_erase_of_mem hmem]
    have : 0 < q.length := List.length_pos_of_mem hmem
    omega
  · rw [hhead, htl, he]
    exact ⟨rfl, rfl⟩

/-- An instance: engine 0 at depth 2 takes the last of three contexts; the
two others remain, the tail pointer moves to the second. -/
theorem find_ready_context_splices_result_witness :
    ∃ r s', MR_find_ready_context 3 rq_hard_last 0 = some (r, s') ∧
      is_chain s'.ctxt s'.MR_runqueue_head ([1, 2, 3].erase r) ∧
      s'.MR_runqueue_tail = ((([1, 2, 3] : List Nat).erase r).getLast?).getD 0 := by
  obtain ⟨r, s', h1, _, _, h4, _, h6, _⟩ :=
    find_ready_context_splices_result 3 rq_hard_last 0 [1, 2, 3] (by decide) (by decide)
      (by decide)
  exact ⟨r, s', h1, h4, h6⟩

/-! ## Appending to the run queue -/

/-- Linking `c` behind the last node `t` of a chain. -/
theorem is_chain_link_last (h : Nat → MR_Context) (c t : Nat) (hc0 : c ≠ 0) :
    ∀ (l : List Nat) (head : Nat),
      is_chain h head (l ++ [t]) → c ∉ l ++ [t] →
      is_chain
        (Function.update (Function.update h c { h c with MR_ctxt_next := 0 }) t
          { (Function.update h c { h c with MR_ctxt_next := 0 }) t with MR_ctxt_next := c })
        head (l ++ [t, c]) := by
  intro l
  induction l with
  | nil =>
    intro head hch hmem
    simp only [List.nil_append, is_chain] at hch ⊢
    have hct : c ≠ t := by
      intro e
      exact hmem (by simp [e])
    refine ⟨hch.1, hch.2.1, ?_, hc0, ?_⟩
    · simp
    · rw [Function.update_noteq hct]
      simp
  | cons x l ih =>
    intro head hch hmem
    have hnd := is_chain_nodup h _ _ hch
    simp only [List.cons_append, is_chain] at hch ⊢
    have hxt : x ≠ t := by
      simp only [List.cons_append, List.nodup_cons, List.mem_append, List.mem_singleton,
        not_or] at hnd
      exact hnd.1.2
    have hxc : x ≠ c := by
      intro e
      exact hmem (by simp [e])
    refine ⟨hch.1, hch.2.1, ?_⟩
    rw [Function.update_noteq hxt, Function.update_noteq hxc]
    exact ih _ hch.2.2 (fun hm => hmem (List.mem_cons_of_mem _ hm))

/-- The tail of `MR_schedule_context`: on a run queue `q` that does not hold
`c`, the append leaves the run queue `q ++ [c]` and changes no field of any
context but `MR_ctxt_next`. -/
theorem runqueue_append_spec (s : Runtime) (c : Nat) (q : List Nat)
    (hq : is_runqueue s q) (hc0 : c ≠ 0) (hcq : c ∉ q) :
    is_runqueue (runqueue_append s c) (q ++ [c]) ∧
    (∀ a, ∃ n, (runqueue_append s c).ctxt a = { s.ctxt a with MR_ctxt_next := n }) ∧
    (runqueue_append s c).engine_sleep_sync_data = s.engine_sleep_sync_data ∧
    (runqueue_append s c).engines = s.engines ∧
    (runqueue_append s c).MR_num_idle_engines = s.MR_num_idle_engines ∧
    (runqueue_append s c).MR_num_threads = s.MR_num_threads := by
  obtain ⟨hch, htl⟩ := hq
  have hframe : (runqueue_append s c).engine_sleep_sync_data = s.engine_sleep_sync_data ∧
      (runqueue_append s c).engines = s.engines ∧
      (runqueue_append s c).MR_num_idle_engines = s.MR_num_idle_engines ∧
      (runqueue_append s c).MR_num_threads = s.MR_num_threads := by
    unfold runqueue_append
    dsimp only
    split <;> exact ⟨rfl, rfl, rfl, rfl⟩
  have hheap : ∀ a, ∃ n, (runqueue_append s c).ctxt a = { s.ctxt a with MR_ctxt_next := n } := by
    intro a
    unfold runqueue_append
    simp only [Runtime.setCtxt]
    split
    · by_cases hat : a = s.MR_runqueue_tail
      · refine ⟨c, ?_⟩
        rw [hat]
        by_cases hac : s.MR_runqueue_tail = c
        · rw [hac]
          simp
        · simp [Function.update_noteq hac]
      · by_cases hac : a = c
        · subst hac
          exact ⟨0, by simp [Function.update_noteq hat]⟩
        · exact ⟨(s.ctxt a).MR_ctxt_next,
            by simp [Function.update_noteq hat, Function.update_noteq hac]⟩
    · by_cases hac : a = c
      · subst hac
        exact ⟨0, by simp⟩
      · exact ⟨(s.ctxt a).MR_ctxt_next, by simp [Function.update_noteq hac]⟩
  refine ⟨?_, hheap, hframe⟩
  rcases List.eq_nil_or_concat q with hnil | ⟨l, t, hl⟩
  · subst hnil
    simp only [List.getLast?_nil, Option.getD_none] at htl
    simp only [is_chain] at hch
    unfold runqueue_append is_runqueue
    simp only [Runtime.setCtxt, htl, ne_eq, not_true_eq_false, if_false, List.nil_append]
    refine ⟨?_, by simp⟩
    simp [is_chain, hc0]
  · subst hl
    have hlt : l.concat t = l ++ [t] := List.concat_eq_append _ _
    rw [hlt] at hch htl hcq ⊢
    have htl' : s.MR_runqueue_tail = t := by
      rw [htl]
      simp
    have ht0 : t ≠ 0 := is_chain_ne_zero _ _ _ hch t (by simp)
    have hlink := is_chain_link_last s.ctxt c t hc0 l _ hch hcq
    unfold runqueue_append is_runqueue
    simp only [Runtime.setCtxt, htl', ne_eq, ht0, not_false_eq_true, if_true]
    refine ⟨?_, by simp⟩
    simpa [List.append_assoc] using hlink

/-! ## `MR_try_wake_an_engine` -/

/-- The loop of `MR_try_wake_an_engine` visits every engine once. -/
theorem mem_wake_order (s : Runtime) (p j : Nat) :
    j ∈ wake_order s p ↔ j < s.MR_num_threads := by
  unfold wake_order
  simp only [List.mem_map, List.mem_range]
  constructor
  · rintro ⟨i, hi, rfl⟩
    exact Nat.mod_lt _ (by omega)
  · intro hj
    have hN : 0 < s.MR_num_threads := by omega
    have hp : p % s.MR_num_threads < s.MR_num_threads := Nat.mod_lt _ hN
    have hdecomp : p = p % s.MR_num_threads + s.MR_num_threads * (p / s.MR_num_threads) :=
      (Nat.mod_add_div p s.MR_num_threads).symm
    by_cases hle : p % s.MR_num_threads ≤ j
    · refine ⟨j - p % s.MR_num_threads, by omega, ?_⟩
      have : j - p % s.MR_num_threads + p
          = j + s.MR_num_threads * (p / s.MR_num_threads) := by omega
      rw [this, Nat.add_mul_mod_self_left, Nat.mod_eq_of_lt hj]
    · refine ⟨j + s.MR_num_threads - p % s.MR_num_threads, by omega, ?_⟩
      have : j + s.MR_num_threads - p % s.MR_num_threads + p
          = j + s.MR_num_threads * (p / s.MR_num_threads + 1) := by
        rw [Nat.mul_add, Nat.mul_one]
        omega
      rw [this, Nat.add_mul_mod_self_left, Nat.mod_eq_of_lt hj]

/-- The loop of `MR_try_wake_an_engine` from iteration `MR_num_threads - k`
on: it signals the first engine of the rest of the order that is not the
caller and is SLEEPING, and returns false when there is none. -/
theorem try_wake_an_engine_loop_eq (s : Runtime) (me preferred_engine : Nat)
    (action : MR_EngineAction) (action_data : Option Nat) (target_eng : Option Nat)
    (hw : ∀ j < s.MR_num_threads,
      (s.engine_sleep_sync_data j).es_state = ENGINE_STATE_SLEEPING →
      0 < (s.engine_sleep_sync_data j).es_wake_semaphore) :
    ∀ k, k ≤ s.MR_num_threads →
      MR_try_wake_an_engine_loop me preferred_engine action action_data target_eng k s =
        match ((List.range' (s.MR_num_threads - k) k).map
            (fun i => (i + preferred_engine) % s.MR_num_threads)).find? (fun j =>
              decide (j ≠ me) &&
                decide ((s.engine_sleep_sync_data j).es_state = ENGINE_STATE_SLEEPING)) with
        | some j => some (true, target_eng.map (fun _ => j), signalled s j action action_data)
        | none => some (false, target_eng, s) := by
  intro k
  induction k with
  | zero =>
    intro _
    simp [MR_try_wake_an_engine_loop]
  | succ k ih =>
    intro hk
    have hidx : s.MR_num_threads - (k + 1) + 1 = s.MR_num_threads - k := by omega
    rw [List.range'_succ, hidx, List.map_cons, List.find?_cons]
    simp only [MR_try_wake_an_engine_loop]
    by_cases hme : (s.MR_num_threads - (k + 1) + preferred_engine) % s.MR_num_threads = me
    · simp only [hme, if_true, ne_eq, not_true_eq_false, decide_False, Bool.false_and]
      exact ih (by omega)
    · simp only [hme, if_false]
      by_cases hsl : (s.engine_sleep_sync_data
          ((s.MR_num_threads - (k + 1) + preferred_engine) % s.MR_num_threads)).es_state
            = ENGINE_STATE_SLEEPING
      · have hacc := try_wake_engine_accepted s
          ((s.MR_num_threads - (k + 1) + preferred_engine) % s.MR_num_threads)
          action action_data ENGINE_STATE_SLEEPING (hw _ (Nat.mod_lt _ (by omega)) hsl)
          (by rw [hsl]; decide)
        simp only [hsl, if_true, hacc, ne_eq, hme, not_false_eq_true, decide_True,
          Bool.and_self]
        rfl
      · simp only [hsl, if_false, decide_False, Bool.and_false]
        exact ih (by omega)

theorem first_sleeping_some (s : Runtime) (me p j : Nat)
    (h : first_sleeping s me p = some j) :
    j < s.MR_num_threads ∧ j ≠ me ∧
      (s.engine_sleep_sync_data j).es_state = ENGINE_STATE_SLEEPING := by
  unfold first_sleeping at h
  have hmem := List.mem_of_find?_eq_some h
  have hp := (List.find?_eq_some.mp h).1
  simp only [Bool.and_eq_true, decide_eq_true_eq] at hp
  exact ⟨(mem_wake_order s p j).mp hmem, hp.1, hp.2⟩

theorem first_sleeping_none (s : Runtime) (me p : Nat) :
    first_sleeping s me p = none ↔
      ∀ j, j < s.MR_num_threads → j ≠ me →
        (s.engine_sleep_sync_data j).es_state ≠ ENGINE_STATE_SLEEPING := by
  unfold first_sleeping
  rw [List.find?_eq_none]
  constructor
  · intro h j hj hme hsl
    have := h j ((mem_wake_order s p j).mpr hj)
    simp [hme, hsl] at this
  · intro h j hj
    have hlt := (mem_wake_order s p j).mp hj
    simp only [Bool.and_eq_true, decide_eq_true_eq, not_and]
    intro hme
    exact h j hlt hme

theorem signalled_other (s : Runtime) (j i : Nat) (action : MR_EngineAction)
    (action_data : Option Nat) (h : i ≠ j) :
    (signalled s j action action_data).engine_sleep_sync_data i
      = s.engine_sleep_sync_data i := by
  unfold signalled
  exact setSync_other _ _ _ _ h

/-- What a call of `MR_try_wake_an_engine` returns and does, by whether some
engine other than the caller is SLEEPING. -/
theorem try_wake_an_engine_cases (s : Runtime) (me preferred_engine : Nat)
    (action : MR_EngineAction) (action_data : Option Nat) (target_eng : Option Nat)
    (hw : ∀ j < s.MR_num_threads,
      (s.engine_sleep_sync_data j).es_state = ENGINE_STATE_SLEEPING →
      0 < (s.engine_sleep_sync_data j).es_wake_semaphore) :
    ∃ b t s',
      MR_try_wake_an_engine s me preferred_engine action action_data target_eng
        = some (b, t, s') ∧
      (b = true ↔ ∃ j, j < s.MR_num_threads ∧ j ≠ me ∧
        (s.engine_sleep_sync_data j).es_state = ENGINE_STATE_SLEEPING) ∧
      (b = true → ∃ j, first_sleeping s me preferred_engine = some j ∧
        t = target_eng.map (fun _ => j) ∧
        s' = signalled s j action action_data ∧
        (s.engine_sleep_sync_data j).es_state = ENGINE_STATE_SLEEPING ∧
        (s'.engine_sleep_sync_data j).es_state = ENGINE_STATE_WOKEN ∧
        (s'.engine_sleep_sync_data j).es_action = action ∧
        (∀ d, action_data = some d → (s'.engine_sleep_sync_data j).es_action_data = d) ∧
        (s'.engine_sleep_sync_data j).es_sleep_semaphore
          = (s.engine_sleep_sync_data j).es_sleep_semaphore + 1) ∧
      (b = false → t = target_eng ∧ s' = s) ∧
      (∀ i, (s.engine_sleep_sync_data i).es_state ≠ ENGINE_STATE_SLEEPING →
        s'.engine_sleep_sync_data i = s.engine_sleep_sync_data i) := by
  have hloop := try_wake_an_engine_loop_eq s me preferred_engine action action_data target_eng
    hw s.MR_num_threads (Nat.le_refl _)
  rw [Nat.sub_self, ← List.range_eq_range'] at hloop
  cases hfs : first_sleeping s me preferred_engine with
  | none =>
    have hfs' := hfs
    unfold first_sleeping wake_order at hfs'
    rw [hfs'] at hloop
    refine ⟨false, target_eng, s, hloop, ?_, fun hb => Bool.noConfusion hb,
      fun _ => ⟨rfl, rfl⟩, fun _ _ => rfl⟩
    constructor
    · intro hb
      exact Bool.noConfusion hb
    · rintro ⟨j, hj, hme, hsl⟩
      exact absurd hsl ((first_sleeping_none s me preferred_engine).mp hfs j hj hme)
  | some j =>
    have hfs' := hfs
    unfold first_sleeping wake_order at hfs'
    rw [hfs'] at hloop
    obtain ⟨hj, hme, hsl⟩ := first_sleeping_some s me preferred_engine j hfs
    refine ⟨true, target_eng.map (fun _ => j), signalled s j action action_data, hloop,
      ⟨fun _ => ⟨j, hj, hme, hsl⟩, fun _ => rfl⟩, fun _ => ⟨j, rfl, rfl, rfl, hsl, ?_, ?_, ?_, ?_⟩,
      fun hb => Bool.noConfusion hb, fun i hi => ?_⟩
    · simp [signalled]
    · simp [signalled]
    · intro d hd
      simp [signalled, hd]
    · simp [signalled]
    · have hij : i ≠ j := by
        intro e
        rw [e] at hi
        exact hi hsl
      exact signalled_other s j i action action_data hij

/-- C16: `MR_try_wake_an_engine` examines the engines in the cyclic order
`preferred`, `preferred + 1`, ... modulo the number of engines, skips the
caller, and wakes the first one whose state is exactly SLEEPING.  It returns
true exactly when some engine other than the caller is SLEEPING; then the id
of the first such engine is stored behind `target_eng` when that pointer is
not null, and that engine is WOKEN with the given action and payload and its
sleep semaphore posted.  It returns false, changing nothing, when there is
none.  An engine that is not SLEEPING (IDLE, WORKING or WOKEN) is never
signalled: its synchroniser is the same after the call. -/
theorem try_wake_an_engine_spec (s : Runtime) (me preferred_engine : Nat)
    (action : MR_EngineAction) (action_data : Option Nat) (target_eng : Option Nat)
    (hw : ∀ j < s.MR_num_threads,
      (s.engine_sleep_sync_data j).es_state = ENGINE_STATE_SLEEPING →
      0 < (s.engine_sleep_sync_data j).es_wake_semaphore) :
    ∃ b t s',
      MR_try_wake_an_engine s me preferred_engine action action_data target_eng
        = some (b, t, s') ∧
      (b = true ↔ ∃ j, j < s.MR_num_threads ∧ j ≠ me ∧
        (s.engine_sleep_sync_data j).es_state = ENGINE_STATE_SLEEPING) ∧
      (b = true → ∃ j, first_sleeping s me preferred_engine = some j ∧
        t = target_eng.map (fun _ => j) ∧
        s' = signalled s j action action_data ∧
        (s.engine_sleep_sync_data j).es_state = ENGINE_STATE_SLEEPING ∧
        (s'.engine_sleep_sync_data j).es_state = ENGINE_STATE_WOKEN ∧
        (s'.engine_sleep_sync_data j).es_action = action ∧
        (∀ d, action_data = some d → (s'.engine_sleep_sync_data j).es_action_data = d) ∧
        (s'.engine_sleep_sync_data j).es_sleep_semaphore
          = (s.engine_sleep_sync_data j).es_sleep_semaphore + 1) ∧
      (b = false → t = target_eng ∧ s' = s) ∧
      (∀ i, (s.engine_sleep_sync_data i).es_state ≠ ENGINE_STATE_SLEEPING →
        s'.engine_sleep_sync_data i = s.engine_sleep_sync_data i) :=
  try_wake_an_engine_cases s me preferred_engine action action_data target_eng hw

/-- An instance: in scenario S2 the search from engine 2 passes the idle
engine 2 and the working engine 3, skips the caller 0 and wakes the sleeping
engine 1. -/
theorem try_wake_an_engine_spec_witness :
    ∃ t s', MR_try_wake_an_engine s2_state 0 2 MR_EngineAction.MR_ENGINE_ACTION_CONTEXT
        (some 5) (some 0) = some (true, t, s') ∧
      t = some 1 ∧ (s'.engine_sleep_sync_data 1).es_state = ENGINE_STATE_WOKEN := by
  obtain ⟨b, t, s', h1, h2, h3, _, _⟩ := try_wake_an_engine_spec s2_state 0 2
    MR_EngineAction.MR_ENGINE_ACTION_CONTEXT (some 5) (some 0) (by decide)
  have hb : b = true := h2.mpr ⟨1, by decide, by decide, by decide⟩
  obtain ⟨j, hj, ht, _, _, hwoken, _⟩ := h3 hb
  have hj1 : j = 1 := by
    have : first_sleeping s2_state 0 2 = some 1 := by decide
    rw [this] at hj
    exact (Option.some.inj hj).symm
  subst hj1
  subst hb
  exact ⟨t, s', h1, by rw [ht]; rfl, hwoken⟩

/-! ## `MR_schedule_context` -/

theorem signalled_runqueue (s : Runtime) (j : Nat) (action : MR_EngineAction)
    (action_data : Option Nat) (q : List Nat) (hq : is_runqueue s q) :
    is_runqueue (signalled s j action action_data) q ∧
    (signalled s j action action_data).ctxt = s.ctxt := ⟨hq, rfl⟩

/-- What `MR_schedule_context` does with a context without hard affinity: a
direct hand-over to the first sleeping engine, or an append to the run
queue. -/
theorem schedule_context_no_affinity (s : Runtime) (me c : Nat) (q : List Nat)
    (hreq : (s.ctxt c).MR_ctxt_resume_engine_required = false)
    (hq : is_runqueue s q) (hc0 : c ≠ 0) (hcq : c ∉ q)
    (hw : ∀ j < s.MR_num_threads,
      (s.engine_sleep_sync_data j).es_state = ENGINE_STATE_SLEEPING →
      0 < (s.engine_sleep_sync_data j).es_wake_semaphore) :
    ((0 < s.MR_num_idle_engines ∧ ∃ j, j < s.MR_num_threads ∧ j ≠ me ∧
        (s.engine_sleep_sync_data j).es_state = ENGINE_STATE_SLEEPING) →
      ∃ j, first_sleeping s me (s.ctxt c).MR_ctxt_resume_owner_engine = some j ∧
        MR_schedule_context s me c
          = some (signalled s j MR_EngineAction.MR_ENGINE_ACTION_CONTEXT (some c)) ∧
        is_runqueue (signalled s j MR_EngineAction.MR_ENGINE_ACTION_CONTEXT (some c)) q ∧
        (signalled s j MR_EngineAction.MR_ENGINE_ACTION_CONTEXT (some c)).ctxt = s.ctxt ∧
        ((signalled s j MR_EngineAction.MR_ENGINE_ACTION_CONTEXT
          (some c)).engine_sleep_sync_data j).es_action
            = MR_EngineAction.MR_ENGINE_ACTION_CONTEXT ∧
        ((signalled s j MR_EngineAction.MR_ENGINE_ACTION_CONTEXT
          (some c)).engine_sleep_sync_data j).es_action_data = c ∧
        ((signalled s j MR_EngineAction.MR_ENGINE_ACTION_CONTEXT
          (some c)).engine_sleep_sync_data j).es_state = ENGINE_STATE_WOKEN ∧
        ∀ i, i ≠ j → (signalled s j MR_EngineAction.MR_ENGINE_ACTION_CONTEXT
          (some c)).engine_sleep_sync_data i = s.engine_sleep_sync_data i) ∧
    (¬ (0 < s.MR_num_idle_engines ∧ ∃ j, j < s.MR_num_threads ∧ j ≠ me ∧
        (s.engine_sleep_sync_data j).es_state = ENGINE_STATE_SLEEPING) →
      MR_schedule_context s me c = some (runqueue_append s c) ∧
      is_runqueue (runqueue_append s c) (q ++ [c]) ∧
      (runqueue_append s c).engine_sleep_sync_data = s.engine_sleep_sync_data) := by
  obtain ⟨b, t, s', hcall, hiff, htrue, hfalse, _⟩ := try_wake_an_engine_cases s me
    (s.ctxt c).MR_ctxt_resume_owner_engine MR_EngineAction.MR_ENGINE_ACTION_CONTEXT (some c)
    none hw
  obtain ⟨hrq, _, hsync, _⟩ := runqueue_append_spec s c q hq hc0 hcq
  constructor
  · rintro ⟨hidle, hex⟩
    have hb : b = true := hiff.mpr hex
    obtain ⟨j, hfs, _, hs', _⟩ := htrue hb
    subst hb
    subst hs'
    refine ⟨j, hfs, ?_, hq, rfl, by simp [signalled], by simp [signalled],
      by simp [signalled], fun i hi => signalled_other s j i _ _ hi⟩
    unfold MR_schedule_context
    simp only [hreq, Bool.false_eq_true, if_false, gt_iff_lt, hidle, if_true, hcall]
  · intro hno
    refine ⟨?_, hrq, hsync⟩
    unfold MR_schedule_context
    simp only [hreq, Bool.false_eq_true, if_false, gt_iff_lt]
    by_cases hidle : 0 < s.MR_num_idle_engines
    · have hb : b = false := by
        cases b with
        | false => rfl
        | true => exact absurd ⟨hidle, hiff.mp rfl⟩ hno
      subst hb
      obtain ⟨_, hs'⟩ := hfalse rfl
      subst hs'
      simp only [hidle, if_true, hcall]
    · simp only [hidle, if_false]

/-- C13: `MR_schedule_context` on a context without hard affinity delivers the
context exactly once.  When the count of idle engines is positive and some
engine other than the caller is SLEEPING, the first sleeping engine in cyclic
order from the preferred engine of the context is woken with the action
CONTEXT and the context as payload, and the run queue and the contexts are
unchanged.  Otherwise no synchroniser changes and the context becomes the
last element of the run queue, behind the earlier elements in their order. -/
theorem schedule_context_delivers_once (s : Runtime) (me c : Nat) (q : List Nat)
    (hreq : (s.ctxt c).MR_ctxt_resume_engine_required = false)
    (hq : is_runqueue s q) (hc0 : c ≠ 0) (hcq : c ∉ q)
    (hw : ∀ j < s.MR_num_threads,
      (s.engine_sleep_sync_data j).es_state = ENGINE_STATE_SLEEPING →
      0 < (s.engine_sleep_sync_data j).es_wake_semaphore) :
    ((0 < s.MR_num_idle_engines ∧ ∃ j, j < s.MR_num_threads ∧ j ≠ me ∧
        (s.engine_sleep_sync_data j).es_state = ENGINE_STATE_SLEEPING) →
      ∃ j, first_sleeping s me (s.ctxt c).MR_ctxt_resume_owner_engine = some j ∧
        MR_schedule_context s me c
          = some (signalled s j MR_EngineAction.MR_ENGINE_ACTION_CONTEXT (some c)) ∧
        is_runqueue (signalled s j MR_EngineAction.MR_ENGINE_ACTION_CONTEXT (some c)) q ∧
        (signalled s j MR_EngineAction.MR_ENGINE_ACTION_CONTEXT (some c)).ctxt = s.ctxt ∧
        ((signalled s j MR_EngineAction.MR_ENGINE_ACTION_CONTEXT
          (some c)).engine_sleep_sync_data j).es_action
            = MR_EngineAction.MR_ENGINE_ACTION_CONTEXT ∧
        ((signalled s j MR_EngineAction.MR_ENGINE_ACTION_CONTEXT
          (some c)).engine_sleep_sync_data j).es_action_data = c ∧
        ((signalled s j MR_EngineAction.MR_ENGINE_ACTION_CONTEXT
          (some c)).engine_sleep_sync_data j).es_state = ENGINE_STATE_WOKEN ∧
        ∀ i, i ≠ j → (signalled s j MR_EngineAction.MR_ENGINE_ACTION_CONTEXT
          (some c)).engine_sleep_sync_data i = s.engine_sleep_sync_data i) ∧
    (¬ (0 < s.MR_num_idle_engines ∧ ∃ j, j < s.MR_num_threads ∧ j ≠ me ∧
        (s.engine_sleep_sync_data j).es_state = ENGINE_STATE_SLEEPING) →
      MR_schedule_context s me c = some (runqueue_append s c) ∧
      is_runqueue (runqueue_append s c) (q ++ [c]) ∧
      (runqueue_append s c).engine_sleep_sync_data = s.engine_sleep_sync_data) :=
  schedule_context_no_affinity s me c q hreq hq hc0 hcq hw

/-- An instance: scenario S2, the context is handed to the sleeping engine
1. -/
theorem schedule_context_delivers_once_witness :
    MR_schedule_context s2_state 0 5
      = some (signalled s2_state 1 MR_EngineAction.MR_ENGINE_ACTION_CONTEXT (some 5)) := by
  obtain ⟨j, hj, hcall, _⟩ := (schedule_context_delivers_once s2_state 0 5 [] (by decide)
    (by decide) (by decide) (by decide) (by decide)).1
    ⟨by decide, 1, by decide, by decide, by decide⟩
  have hj1 : j = 1 := by
    have : first_sleeping s2_state 0 (s2_state.ctxt 5).MR_ctxt_resume_owner_engine
        = some 1 := by decide
    rw [this] at hj
    exact (Option.some.inj hj).symm
  rw [hj1] at hcall
  exact hcall

/-- C14: `MR_schedule_context` on a context with hard affinity targets only
the owner engine recorded in the context.  If that engine is IDLE or SLEEPING
it is woken with the action CONTEXT and the context as payload, and the run
queue is unchanged.  If it is WORKING or WOKEN the wake fails, no
synchroniser changes, and the context is appended at the tail of the run
queue.  In both cases the synchroniser of every other engine is unchanged,
whatever the state of that engine. -/
theorem schedule_context_hard_affinity (s : Runtime) (me c : Nat) (q : List Nat)
    (hreq : (s.ctxt c).MR_ctxt_resume_engine_required = true)
    (hq : is_runqueue s q) (hc0 : c ≠ 0) (hcq : c ∉ q)
    (hw : 0 < (s.engine_sleep_sync_data
      (s.ctxt c).MR_ctxt_resume_owner_engine).es_wake_semaphore) :
    (((s.engine_sleep_sync_data (s.ctxt c).MR_ctxt_resume_owner_engine).es_state
          = ENGINE_STATE_IDLE ∨
      (s.engine_sleep_sync_data (s.ctxt c).MR_ctxt_resume_owner_engine).es_state
          = ENGINE_STATE_SLEEPING) →
      MR_schedule_context s me c
        = some (signalled s (s.ctxt c).MR_ctxt_resume_owner_engine
            MR_EngineAction.MR_ENGINE_ACTION_CONTEXT (some c)) ∧
      is_runqueue (signalled s (s.ctxt c).MR_ctxt_resume_owner_engine
        MR_EngineAction.MR_ENGINE_ACTION_CONTEXT (some c)) q ∧
      (signalled s (s.ctxt c).MR_ctxt_resume_owner_engine
        MR_EngineAction.MR_ENGINE_ACTION_CONTEXT (some c)).ctxt = s.ctxt ∧
      ((signalled s (s.ctxt c).MR_ctxt_resume_owner_engine
        MR_EngineAction.MR_ENGINE_ACTION_CONTEXT (some c)).engine_sleep_sync_data
          (s.ctxt c).MR_ctxt_resume_owner_engine)
        = { es_sleep_semaphore := (s.engine_sleep_sync_data
              (s.ctxt c).MR_ctxt_resume_owner_engine).es_sleep_semaphore + 1
            es_wake_semaphore := (s.engine_sleep_sync_data
              (s.ctxt c).MR_ctxt_resume_owner_engine).es_wake_semaphore
            es_state := ENGINE_STATE_WOKEN
            es_action := MR_EngineAction.MR_ENGINE_ACTION_CONTEXT
            es_action_data := c }) ∧
    (((s.engine_sleep_sync_data (s.ctxt c).MR_ctxt_resume_owner_engine).es_state
          = ENGINE_STATE_WORKING ∨
      (s.engine_sleep_sync_data (s.ctxt c).MR_ctxt_resume_owner_engine).es_state
          = ENGINE_STATE_WOKEN) →
      MR_schedule_context s me c = some (runqueue_append s c) ∧
      is_runqueue (runqueue_append s c) (q ++ [c]) ∧
      (runqueue_append s c).engine_sleep_sync_data = s.engine_sleep_sync_data) ∧
    (∃ s', MR_schedule_context s me c = some s' ∧
      ∀ i, i ≠ (s.ctxt c).MR_ctxt_resume_owner_engine →
        s'.engine_sleep_sync_data i = s.engine_sleep_sync_data i) := by
  obtain ⟨hrq, _, hsync, _⟩ := runqueue_append_spec s c q hq hc0 hcq
  have haccept : (s.engine_sleep_sync_data (s.ctxt c).MR_ctxt_resume_owner_engine).es_state
        &&& (ENGINE_STATE_IDLE ||| ENGINE_STATE_SLEEPING) ≠ 0 →
      MR_schedule_context s me c
        = some (signalled s (s.ctxt c).MR_ctxt_resume_owner_engine
            MR_EngineAction.MR_ENGINE_ACTION_CONTEXT (some c)) := by
    intro hst
    unfold MR_schedule_context
    simp only [hreq, if_true, try_wake_engine_accepted s _ _ _ _ hw hst]
    rfl
  have hrefuse : (s.engine_sleep_sync_data (s.ctxt c).MR_ctxt_resume_owner_engine).es_state
        &&& (ENGINE_STATE_IDLE ||| ENGINE_STATE_SLEEPING) = 0 →
      MR_schedule_context s me c = some (runqueue_append s c) := by
    intro hst
    unfold MR_schedule_context
    simp only [hreq, if_true, try_wake_engine_refused s _ _ _ _ hw hst]
  refine ⟨fun hst => ⟨haccept ?_, hq, rfl, by simp [signalled]⟩,
    fun hst => ⟨hrefuse ?_, hrq, hsync⟩, ?_⟩
  · rcases hst with h | h <;> rw [h] <;> decide
  · rcases hst with h | h <;> rw [h] <;> decide
  · by_cases hst : (s.engine_sleep_sync_data (s.ctxt c).MR_ctxt_resume_owner_engine).es_state
        &&& (ENGINE_STATE_IDLE ||| ENGINE_STATE_SLEEPING) = 0
    · exact ⟨_, hrefuse hst, fun i _ => by rw [hsync]⟩
    · exact ⟨_, haccept hst, fun i hi => signalled_other s _ i _ _ hi⟩

/-- An instance: scenario S3, the owner engine is working, so the context is
appended to the empty run queue. -/
theorem schedule_context_hard_affinity_witness :
    MR_schedule_context two_hard_contexts 0 5 = some (runqueue_append two_hard_contexts 5) ∧
    is_runqueue (runqueue_append two_hard_contexts 5) [5] := by
  obtain ⟨h1, h2, _⟩ := (schedule_context_hard_affinity two_hard_contexts 0 5 [] (by decide)
    (by decide) (by decide) (by decide) (by decide)).2.1 (Or.inl (by decide))
  exact ⟨h1, h2⟩

/-! ## The order of the run queue for one engine -/

/-- Scheduling the contexts of `cs`, none with hard affinity, while no engine
can be woken: each is appended, so the run queue `q` becomes `q ++ cs`; only
the links of the contexts change. -/
theorem schedule_contexts_appends (me : Nat) :
    ∀ (cs : List Nat) (s : Runtime) (q : List Nat),
      is_runqueue s q → (q ++ cs).Nodup → (∀ c ∈ cs, c ≠ 0) →
      (∀ c ∈ cs, (s.ctxt c).MR_ctxt_resume_engine_required = false) →
      (∀ j < s.MR_num_threads,
        (s.engine_sleep_sync_data j).es_state = ENGINE_STATE_SLEEPING →
        0 < (s.engine_sleep_sync_data j).es_wake_semaphore) →
      ¬ (0 < s.MR_num_idle_engines ∧ ∃ j, j < s.MR_num_threads ∧ j ≠ me ∧
        (s.engine_sleep_sync_data j).es_state = ENGINE_STATE_SLEEPING) →
      ∃ s1, schedule_contexts me s cs = some s1 ∧ is_runqueue s1 (q ++ cs) ∧
        (∀ a, ∃ n, s1.ctxt a = { s.ctxt a with MR_ctxt_next := n }) ∧
        s1.engines = s.engines := by
  intro cs
  induction cs with
  | nil =>
    intro s q hq _ _ _ _ _
    exact ⟨s, rfl, by simpa using hq, fun a => ⟨(s.ctxt a).MR_ctxt_next, rfl⟩, rfl⟩
  | cons c cs ih =>
    intro s q hq hnd h0 hreq hw hno
    have hcq : c ∉ q := by
      intro hm
      have := (List.nodup_append.mp hnd).2.2 hm (List.mem_cons_self _ _)
      exact this
    have hc0 := h0 c (List.mem_cons_self _ _)
    obtain ⟨_, hB⟩ := schedule_context_no_affinity s me c q
      (hreq c (List.mem_cons_self _ _)) hq hc0 hcq hw
    obtain ⟨hcall, hrq, hsync⟩ := hB hno
    obtain ⟨_, hheap, _, heng, hidle, hN⟩ := runqueue_append_spec s c q hq hc0 hcq
    obtain ⟨s1, hs1, hrq1, hheap1, heng1⟩ := ih (runqueue_append s c) (q ++ [c]) hrq
      (by simpa [List.append_assoc] using hnd)
      (fun x hx => h0 x (List.mem_cons_of_mem _ hx))
      (fun x hx => by
        obtain ⟨n, hn⟩ := hheap x
        rw [hn]
        exact hreq x (List.mem_cons_of_mem _ hx))
      (by rw [hsync, hN]; exact hw)
      (by rw [hsync, hN, hidle]; exact hno)
    refine ⟨s1, ?_, by simpa [List.append_assoc] using hrq1, fun a => ?_, by rw [heng1, heng]⟩
    · simp only [schedule_contexts, hcall]
      exact hs1
    · obtain ⟨n1, hn1⟩ := hheap1 a
      obtain ⟨n, hn⟩ := hheap a
      exact ⟨n1, by rw [hn1, hn]⟩

/-- Successive dequeues by engine `e` from a queue of contexts that have no
hard affinity and all prefer `e`: they come out from the tail to the head. -/
theorem dequeue_contexts_reverse (fuel e : Nat) :
    ∀ (n : Nat) (q : List Nat) (s : Runtime),
      q.length = n → n ≤ fuel → is_chain s.ctxt s.MR_runqueue_head q →
      (∀ a ∈ q, (s.ctxt a).MR_ctxt_resume_engine_required = false ∧
        (s.ctxt a).MR_ctxt_resume_owner_engine = e) →
      ∃ s2, dequeue_contexts fuel e n s = some (q.reverse, s2) := by
  intro n
  induction n with
  | zero =>
    intro q s hlen _ _ _
    have : q = [] := List.eq_nil_of_length_eq_zero hlen
    subst this
    exact ⟨s, rfl⟩
  | succ n ih =>
    intro q s hlen hf hch hall
    rcases List.eq_nil_or_concat q with hnil | ⟨l, z, hl⟩
    · subst hnil
      simp at hlen
    · rw [List.concat_eq_append] at hl
      subst hl
      have hnd := is_chain_nodup _ _ _ hch
      obtain ⟨r, s', hs', hch', _, hother, _, _, _, hpick, _⟩ :=
        find_ready_context_spec fuel s e (l ++ [z]) hch (by
          simp only [List.length_append, List.length_singleton] at hlen ⊢
          omega)
      have hsoft : ∀ a ∈ l ++ [z], soft_match s.ctxt e a = true := by
        intro a ha
        simp [soft_match, (hall a ha).1, (hall a ha).2]
      have hfilter : (l ++ [z]).filter (soft_match s.ctxt e) = l ++ [z] :=
        List.filter_eq_self.mpr hsoft
      have hr : r = z := by
        rcases hpick with h | ⟨_, h⟩ | ⟨_, h, _⟩
        · have hm := List.mem_of_find?_eq_some h
          have hh := (List.find?_eq_some.mp h).1
          simp [hard_match, (hall r hm).1] at hh
        · rw [hfilter] at h
          simp at h
          exact h.symm
        · rw [hfilter] at h
          simp at h
      subst hr
      have hzl : r ∉ l := by
        intro hm
        exact (List.nodup_append.mp hnd).2.2 hm (List.mem_singleton_self _)
      have herase : (l ++ [r]).erase r = l := by
        rw [List.erase_append_right _ hzl]
        simp
      rw [herase] at hch'
      simp only [List.length_append, List.length_singleton] at hlen
      obtain ⟨s2, hs2⟩ := ih l s' (by omega) (by omega) hch' (fun a ha => by
        have har : a ≠ r := fun h => hzl (h ▸ ha)
        obtain ⟨m, hm⟩ := hother a har
        rw [hm]
        exact hall a (List.mem_append_left _ ha))
      refine ⟨s2, ?_⟩
      simp only [dequeue_contexts, hs', hs2, List.reverse_append, List.reverse_singleton,
        List.singleton_append]

/-- C12, the claim as stated fails: contexts 1 and 2, without hard affinity
and both preferring engine 0, are scheduled in this order on an empty run
queue while no engine is idle; two successive dequeues by engine 0 then
return context 2 first and context 1 second. -/
theorem runqueue_fifo_counterexample :
    (schedule_contexts 1 (MR_init_context_stuff 2 2 8) [1, 2]).bind
      (fun s1 => (dequeue_contexts 2 0 2 s1).map Prod.fst) = some [2, 1] ∧
    (∀ c ∈ [1, 2],
      ((MR_init_context_stuff 2 2 8).ctxt c).MR_ctxt_resume_engine_required = false ∧
      ((MR_init_context_stuff 2 2 8).ctxt c).MR_ctxt_resume_owner_engine = 0) ∧
    is_runqueue (MR_init_context_stuff 2 2 8) [] := by
  decide

/-- C12 as amended: if contexts `c1 .. ck`, none with hard affinity and all
with the same preferred engine `e`, are appended in that order by
`MR_schedule_context` to an empty run queue, no engine being woken, then the
run queue holds them in that order and `k` successive calls of
`MR_find_ready_context` by engine `e` return them in the reverse order,
`ck` first and `c1` last. -/
theorem runqueue_same_engine_reverse_order (fuel me e : Nat) (s : Runtime) (cs : List Nat)
    (hempty : is_runqueue s [])
    (hnd : cs.Nodup) (h0 : ∀ c ∈ cs, c ≠ 0)
    (hpref : ∀ c ∈ cs, (s.ctxt c).MR_ctxt_resume_engine_required = false ∧
      (s.ctxt c).MR_ctxt_resume_owner_engine = e)
    (hw : ∀ j < s.MR_num_threads,
      (s.engine_sleep_sync_data j).es_state = ENGINE_STATE_SLEEPING →
      0 < (s.engine_sleep_sync_data j).es_wake_semaphore)
    (hno : ¬ (0 < s.MR_num_idle_engines ∧ ∃ j, j < s.MR_num_threads ∧ j ≠ me ∧
      (s.engine_sleep_sync_data j).es_state = ENGINE_STATE_SLEEPING))
    (hf : cs.length ≤ fuel) :
    ∃ s1, schedule_contexts me s cs = some s1 ∧ is_runqueue s1 cs ∧
      ∃ s2, dequeue_contexts fuel e cs.length s1 = some (cs.reverse, s2) := by
  obtain ⟨s1, hs1, hrq, hheap, _⟩ := schedule_contexts_appends me cs s [] hempty
    (by simpa using hnd) h0 (fun c hc => (hpref c hc).1) hw hno
  simp only [List.nil_append] at hrq
  obtain ⟨s2, hs2⟩ := dequeue_contexts_reverse fuel e cs.length cs s1 rfl hf hrq.1
    (fun a ha => by
      obtain ⟨n, hn⟩ := hheap a
      rw [hn]
      exact hpref a ha)
  exact ⟨s1, hs1, hrq, s2, hs2⟩

/-- An instance: contexts 1 and 2 scheduled by engine 1 for engine 0. -/
theorem runqueue_same_engine_reverse_order_witness :
    ∃ s1, schedule_contexts 1 (MR_init_context_stuff 2 2 8) [1, 2] = some s1 ∧
      is_runqueue s1 [1, 2] ∧
      ∃ s2, dequeue_contexts 2 0 2 s1 = some ([2, 1], s2) :=
  runqueue_same_engine_reverse_order 2 1 0 (MR_init_context_stuff 2 2 8) [1, 2] (by decide)
    (by decide) (by decide) (by decide) (by decide) (by decide) (by decide)

/-! ## Hard affinity on the direct hand-over -/

/-- C15, the code at the failing input: the context at address 5 has hard
affinity for engine 1 at C depth 2.  Engine 1, at C depth 0, finds no work in
`MR_do_idle` and blocks in `MR_do_sleep`.  `MR_schedule_context` then hands
the context directly to engine 1, and `MR_do_sleep` resumes it there: the
engine jumps to the resume point of the context with the context as its
current context, at C depth 0, while the depth recorded in the context is 2
and its hard-affinity flag is still set.  The dequeue from the run queue,
`MR_find_ready_context`, refuses the same context at that depth. -/
theorem hard_affinity_resumed_at_other_depth :
    ∃ s1 s2 s3 s4,
      MR_do_idle 4 s3_start 1 = Outcome.ok (MR_ENTRY MR_Entry.MR_do_sleep, s1) ∧
      MR_do_sleep 1 4 s1 1 = Outcome.ok (SleepResult.blocked s2) ∧
      MR_schedule_context s2 0 5 = some s3 ∧
      MR_do_sleep_from_wait 4 1 1 s3
        = Outcome.ok (SleepResult.jump (MR_Code.label 9) s4) ∧
      (s4.engines 1).MR_eng_this_context = 5 ∧
      (s4.engines 1).MR_eng_c_depth = 0 ∧
      (s4.ctxt 5).MR_ctxt_resume_engine_required = true ∧
      (s4.ctxt 5).MR_ctxt_resume_owner_engine = 1 ∧
      (s4.ctxt 5).MR_ctxt_resume_c_depth = 2 ∧
      (MR_find_ready_context 4 (runqueue_append s3_start 5) 1).map Prod.fst = some 0 :=
  ⟨_, _, _, _, rfl, rfl, rfl, rfl, by decide, by decide, by decide, by decide, by decide,
    by decide⟩
/-! ## The context pool: `MR_create_context` and `MR_destroy_context` -/

/-- What `MR_init_context_maybe_generator` leaves behind when it returns. -/
theorem init_context_cases (s : Runtime) (c gen : Nat) :
    (init_checks_pass s c ∧
      ∃ s', MR_init_context_maybe_generator s c gen = Outcome.ok s' ∧
        s'.free_small_context_list = s.free_small_context_list ∧
        s'.free_context_list = s.free_context_list ∧
        s'.next_context = s.next_context ∧
        s'.engines = s.engines ∧
        (∀ a, a ≠ c → s'.ctxt a = s.ctxt a) ∧
        (s'.ctxt c).MR_ctxt_size = (s.ctxt c).MR_ctxt_size ∧
        (s'.ctxt c).MR_ctxt_prev_detstack_zones = 0 ∧
        (s'.ctxt c).MR_ctxt_prev_nondetstack_zones = 0) ∨
    (¬ init_checks_pass s c ∧
      ∃ msg, MR_init_context_maybe_generator s c gen = Outcome.fatal_error msg) := by
  unfold init_checks_pass MR_init_context_maybe_generator
  by_cases hd : (s.ctxt c).MR_ctxt_detstack_zone = 0 <;>
  by_cases hn : (s.ctxt c).MR_ctxt_nondetstack_zone = 0 <;>
  by_cases hpd : (s.ctxt c).MR_ctxt_prev_detstack_zones = 0 <;>
  by_cases hpn : (s.ctxt c).MR_ctxt_prev_nondetstack_zones = 0 <;>
  simp [hd, hn, hpd, hpn, MR_create_or_reuse_zone, Runtime.setCtxt, Function.update] <;>
  intro a h1 h2 <;> exact absurd h2 h1

/-- The context `MR_create_context` hands to `MR_init_context_maybe_generator`
is the one the spec names, and the state `p` at that call differs from the
state at entry only in the free lists, the allocation and the count. -/
theorem create_context_unfold (s : Runtime) (size : MR_ContextSize) (gen : Nat) :
    ∃ p : Runtime,
      MR_create_context s size gen =
        (match MR_init_context_maybe_generator p (chosen_context s size) gen with
          | Outcome.ok s5 => Outcome.ok (chosen_context s size, s5)
          | Outcome.fatal_error msg => Outcome.fatal_error msg
          | Outcome.out_of_fuel => Outcome.out_of_fuel) ∧
      p.free_small_context_list =
        (if size = MR_ContextSize.MR_CONTEXT_SIZE_SMALL ∧ s.free_small_context_list ≠ 0 then
          (s.ctxt s.free_small_context_list).MR_ctxt_next
        else s.free_small_context_list) ∧
      p.free_context_list =
        (if ¬ (size = MR_ContextSize.MR_CONTEXT_SIZE_SMALL ∧ s.free_small_context_list ≠ 0) ∧
            s.free_context_list ≠ 0 then
          (s.ctxt s.free_context_list).MR_ctxt_next
        else s.free_context_list) ∧
      p.next_context =
        (if served_from_free_list s size then s.next_context else s.next_context + 1) ∧
      p.engines = s.engines ∧
      (∀ a, a ≠ chosen_context s size → p.ctxt a = s.ctxt a) ∧
      p.ctxt (chosen_context s size) =
        (if served_from_free_list s size then s.ctxt (chosen_context s size)
        else { zero_context with MR_ctxt_size := size }) := by
  by_cases hA : size = MR_ContextSize.MR_CONTEXT_SIZE_SMALL ∧ s.free_small_context_list ≠ 0
  · refine ⟨{ s with
        MR_num_outstanding_contexts := s.MR_num_outstanding_contexts + 1
        free_small_context_list := (s.ctxt s.free_small_context_list).MR_ctxt_next },
      ?_, ?_, ?_, ?_, rfl, fun _ _ => rfl, ?_⟩
    · obtain ⟨h1, h2⟩ := hA
      subst h1
      simp [MR_create_context, chosen_context, h2]
    · simp [hA]
    · simp [hA]
    · simp [served_from_free_list, hA]
    · simp [served_from_free_list, hA]
  · by_cases hB : s.free_context_list ≠ 0
    · have hch : chosen_context s size = s.free_context_list := by
        cases size
        · simp [chosen_context, hB]
        · have : s.free_small_context_list = 0 := by simpa using hA
          simp [chosen_context, hB, this]
      refine ⟨{ s with
          MR_num_outstanding_contexts := s.MR_num_outstanding_contexts + 1
          free_context_list := (s.ctxt s.free_context_list).MR_ctxt_next },
        ?_, ?_, ?_, ?_, rfl, fun _ _ => rfl, ?_⟩
      · rw [hch]
        simp [MR_create_context, hA, hB]
      · simp [hA]
      · simp [hA, hB]
      · simp [served_from_free_list, hB]
      · simp [served_from_free_list, hB]
    · have hB0 : s.free_context_list = 0 := by simpa using hB
      have hch : chosen_context s size = s.next_context := by
        cases size
        · simp [chosen_context, hB0]
        · have : s.free_small_context_list = 0 := by simpa using hA
          simp [chosen_context, hB0, this]
      refine ⟨({ s with
          MR_num_outstanding_contexts := s.MR_num_outstanding_contexts + 1
          next_context := s.next_context + 1
          ctxt := Function.update s.ctxt s.next_context zero_context }).setCtxt s.next_context
            { zero_context with MR_ctxt_size := size },
        ?_, ?_, ?_, ?_, rfl, ?_, ?_⟩
      · rw [hch]
        simp [MR_create_context, hA, hB0, MR_GC_NEW, Runtime.setCtxt, zero_context]
      · simp [hA, Runtime.setCtxt]
      · simp [hA, hB0, Runtime.setCtxt]
      · simp [served_from_free_list, hA, hB0, Runtime.setCtxt]
      · intro a ha
        rw [hch] at ha
        simp [Runtime.setCtxt, Function.update, ha]
      · rw [hch]
        simp [served_from_free_list, hA, hB0, Runtime.setCtxt]

/-- The two checks look at the context only. -/
theorem init_checks_pass_congr (s t : Runtime) (c : Nat) (h : s.ctxt c = t.ctxt c) :
    init_checks_pass s c ↔ init_checks_pass t c := by
  unfold init_checks_pass
  rw [h]

/-- `MR_create_context` either returns the context the spec names, or that
context came from a free list and fails a check of
`MR_init_context_maybe_generator`, which is fatal. -/
theorem create_context_cases (s : Runtime) (size : MR_ContextSize) (gen : Nat) :
    ((served_from_free_list s size → init_checks_pass s (chosen_context s size)) ∧
      ∃ s', MR_create_context s size gen = Outcome.ok (chosen_context s size, s') ∧
        s'.free_small_context_list =
          (if size = MR_ContextSize.MR_CONTEXT_SIZE_SMALL ∧ s.free_small_context_list ≠ 0 then
            (s.ctxt s.free_small_context_list).MR_ctxt_next
          else s.free_small_context_list) ∧
        s'.free_context_list =
          (if ¬ (size = MR_ContextSize.MR_CONTEXT_SIZE_SMALL ∧ s.free_small_context_list ≠ 0) ∧
              s.free_context_list ≠ 0 then
            (s.ctxt s.free_context_list).MR_ctxt_next
          else s.free_context_list) ∧
        s'.next_context =
          (if served_from_free_list s size then s.next_context else s.next_context + 1) ∧
        s'.engines = s.engines ∧
        (∀ a, a ≠ chosen_context s size → s'.ctxt a = s.ctxt a) ∧
        (s'.ctxt (chosen_context s size)).MR_ctxt_size =
          (if served_from_free_list s size then
            (s.ctxt (chosen_context s size)).MR_ctxt_size
          else size) ∧
        (s'.ctxt (chosen_context s size)).MR_ctxt_prev_detstack_zones = 0 ∧
        (s'.ctxt (chosen_context s size)).MR_ctxt_prev_nondetstack_zones = 0) ∨
    (served_from_free_list s size ∧ ¬ init_checks_pass s (chosen_context s size) ∧
      ∃ msg, MR_create_context s size gen = Outcome.fatal_error msg) := by
  obtain ⟨p, hp, hps, hpf, hpn, hpe, hpo, hpc⟩ := create_context_unfold s size gen
  have hfresh : ¬ served_from_free_list s size → init_checks_pass p (chosen_context s size) := by
    intro h
    unfold init_checks_pass
    rw [hpc, if_neg h]
    simp [zero_context]
  have hserved : served_from_free_list s size →
      (init_checks_pass p (chosen_context s size) ↔
        init_checks_pass s (chosen_context s size)) := by
    intro h
    apply init_checks_pass_congr
    rw [hpc, if_pos h]
  rcases init_context_cases p (chosen_context s size) gen with
    ⟨hpass, s', hs', h1, h2, h3, h4, h5, h6, h7, h8⟩ | ⟨hfail, msg, hmsg⟩
  · left
    refine ⟨fun h => (hserved h).mp hpass, s', ?_, ?_, ?_, ?_, ?_, ?_, ?_, h7, h8⟩
    · rw [hp, hs']
    · rw [h1, hps]
    · rw [h2, hpf]
    · rw [h3, hpn]
    · rw [h4, hpe]
    · intro a ha
      rw [h5 a ha, hpo a ha]
    · rw [h6, hpc]
      split <;> rfl
  · right
    have hs : served_from_free_list s size := by
      by_contra h
      exact hfail (hfresh h)
    refine ⟨hs, fun h => hfail ((hserved hs).mpr h), msg, ?_⟩
    rw [hp, hmsg]

/-- What `MR_destroy_context` does to the pool. -/
theorem destroy_context_spec (s : Runtime) (me c : Nat) :
    ((MR_destroy_context s me c).ctxt c).MR_ctxt_size = (s.ctxt c).MR_ctxt_size ∧
    ((MR_destroy_context s me c).ctxt c).MR_ctxt_detstack_zone
      = (s.ctxt c).MR_ctxt_detstack_zone ∧
    ((MR_destroy_context s me c).ctxt c).MR_ctxt_prev_detstack_zones
      = (s.ctxt c).MR_ctxt_prev_detstack_zones ∧
    ((MR_destroy_context s me c).ctxt c).MR_ctxt_nondetstack_zone
      = (s.ctxt c).MR_ctxt_nondetstack_zone ∧
    ((MR_destroy_context s me c).ctxt c).MR_ctxt_prev_nondetstack_zones
      = (s.ctxt c).MR_ctxt_prev_nondetstack_zones ∧
    (∀ a, a ≠ c → (MR_destroy_context s me c).ctxt a = s.ctxt a) ∧
    (MR_destroy_context s me c).next_context = s.next_context ∧
    ((s.ctxt c).MR_ctxt_size = MR_ContextSize.MR_CONTEXT_SIZE_REGULAR →
      (MR_destroy_context s me c).free_context_list = c ∧
      (MR_destroy_context s me c).free_small_context_list = s.free_small_context_list ∧
      ((MR_destroy_context s me c).ctxt c).MR_ctxt_next = s.free_context_list) ∧
    ((s.ctxt c).MR_ctxt_size = MR_ContextSize.MR_CONTEXT_SIZE_SMALL →
      (MR_destroy_context s me c).free_small_context_list = c ∧
      (MR_destroy_context s me c).free_context_list = s.free_context_list ∧
      ((MR_destroy_context s me c).ctxt c).MR_ctxt_next = s.free_small_context_list) := by
  cases hsz : (s.ctxt c).MR_ctxt_size <;>
  simp [MR_destroy_context, MR_save_context, Runtime.setCtxt, hsz] <;>
  intro a ha <;> simp [Function.update, ha]

/-- The context a request is served with is not the null pointer, provided
the allocator does not hand out address 0. -/
theorem chosen_context_ne_zero (s : Runtime) (size : MR_ContextSize)
    (hnew : s.next_context ≠ 0) : chosen_context s size ≠ 0 := by
  cases size <;> unfold chosen_context <;> simp only <;> repeat' split
  all_goals assumption

/-- C17: `MR_create_context` chooses its context by size class.  In a state
where the head of each free list passes the checks of
`MR_init_context_maybe_generator`: a SMALL request returns the head of the
small free list when that list is not empty and unlinks it; otherwise it
returns the head of the regular free list when that is not empty, the context
keeps its size field and nothing is allocated; otherwise it returns a newly
allocated context of size SMALL.  A REGULAR request returns the head of the
regular free list when that is not empty and otherwise a newly allocated
context of size REGULAR; in both cases the small free list is left as it
was. -/
theorem create_context_chooses_by_size_class (s : Runtime) (gen : Nat)
    (hsmall : s.free_small_context_list ≠ 0 → init_checks_pass s s.free_small_context_list)
    (hreg : s.free_context_list ≠ 0 → init_checks_pass s s.free_context_list) :
    (s.free_small_context_list ≠ 0 →
      ∃ s', MR_create_context s MR_ContextSize.MR_CONTEXT_SIZE_SMALL gen
          = Outcome.ok (s.free_small_context_list, s') ∧
        s'.free_small_context_list = (s.ctxt s.free_small_context_list).MR_ctxt_next ∧
        s'.free_context_list = s.free_context_list ∧
        s'.next_context = s.next_context) ∧
    (s.free_small_context_list = 0 → s.free_context_list ≠ 0 →
      ∃ s', MR_create_context s MR_ContextSize.MR_CONTEXT_SIZE_SMALL gen
          = Outcome.ok (s.free_context_list, s') ∧
        (s'.ctxt s.free_context_list).MR_ctxt_size
          = (s.ctxt s.free_context_list).MR_ctxt_size ∧
        s'.free_context_list = (s.ctxt s.free_context_list).MR_ctxt_next ∧
        s'.free_small_context_list = 0 ∧
        s'.next_context = s.next_context) ∧
    (s.free_small_context_list = 0 → s.free_context_list = 0 →
      ∃ s', MR_create_context s MR_ContextSize.MR_CONTEXT_SIZE_SMALL gen
          = Outcome.ok (s.next_context, s') ∧
        (s'.ctxt s.next_context).MR_ctxt_size = MR_ContextSize.MR_CONTEXT_SIZE_SMALL ∧
        s'.next_context = s.next_context + 1) ∧
    (s.free_context_list ≠ 0 →
      ∃ s', MR_create_context s MR_ContextSize.MR_CONTEXT_SIZE_REGULAR gen
          = Outcome.ok (s.free_context_list, s') ∧
        (s'.ctxt s.free_context_list).MR_ctxt_size
          = (s.ctxt s.free_context_list).MR_ctxt_size ∧
        s'.free_context_list = (s.ctxt s.free_context_list).MR_ctxt_next ∧
        s'.free_small_context_list = s.free_small_context_list ∧
        s'.next_context = s.next_context) ∧
    (s.free_context_list = 0 →
      ∃ s', MR_create_context s MR_ContextSize.MR_CONTEXT_SIZE_REGULAR gen
          = Outcome.ok (s.next_context, s') ∧
        (s'.ctxt s.next_context).MR_ctxt_size = MR_ContextSize.MR_CONTEXT_SIZE_REGULAR ∧
        s'.free_small_context_list = s.free_small_context_list ∧
        s'.next_context = s.next_context + 1) := by
  refine ⟨?_, ?_, ?_, ?_, ?_⟩
  · intro h1
    rcases create_context_cases s MR_ContextSize.MR_CONTEXT_SIZE_SMALL gen with
      ⟨_, s', hs', p1, p2, p3, _, _, _, _, _⟩ | ⟨_, hfail, _⟩
    · refine ⟨s', ?_, ?_, ?_, ?_⟩
      · simpa [chosen_context, h1] using hs'
      · simpa [h1] using p1
      · simpa [h1] using p2
      · simpa [served_from_free_list, h1] using p3
    · exact absurd (hsmall h1) (by simpa [chosen_context, h1] using hfail)
  · intro h1 h2
    rcases create_context_cases s MR_ContextSize.MR_CONTEXT_SIZE_SMALL gen with
      ⟨_, s', hs', p1, p2, p3, _, _, p6, _, _⟩ | ⟨_, hfail, _⟩
    · refine ⟨s', ?_, ?_, ?_, ?_, ?_⟩
      · simpa [chosen_context, h1, h2] using hs'
      · simpa [chosen_context, served_from_free_list, h1, h2] using p6
      · simpa [h1, h2] using p2
      · simpa [h1] using p1
      · simpa [served_from_free_list, h1, h2] using p3
    · exact absurd (hreg h2) (by simpa [chosen_context, h1, h2] using hfail)
  · intro h1 h2
    rcases create_context_cases s MR_ContextSize.MR_CONTEXT_SIZE_SMALL gen with
      ⟨_, s', hs', p1, p2, p3, _, _, p6, _, _⟩ | ⟨hs, _, _⟩
    · refine ⟨s', ?_, ?_, ?_⟩
      · simpa [chosen_context, h1, h2] using hs'
      · simpa [chosen_context, served_from_free_list, h1, h2] using p6
      · simpa [served_from_free_list, h1, h2] using p3
    · exact absurd hs (by simp [served_from_free_list, h1, h2])
  · intro h2
    rcases create_context_cases s MR_ContextSize.MR_CONTEXT_SIZE_REGULAR gen with
      ⟨_, s', hs', p1, p2, p3, _, _, p6, _, _⟩ | ⟨_, hfail, _⟩
    · refine ⟨s', ?_, ?_, ?_, ?_, ?_⟩
      · simpa [chosen_context, h2] using hs'
      · simpa [chosen_context, served_from_free_list, h2] using p6
      · simpa [h2] using p2
      · simpa using p1
      · simpa [served_from_free_list, h2] using p3
    · exact absurd (hreg h2) (by simpa [chosen_context, h2] using hfail)
  · intro h2
    rcases create_context_cases s MR_ContextSize.MR_CONTEXT_SIZE_REGULAR gen with
      ⟨_, s', hs', p1, p2, p3, _, _, p6, _, _⟩ | ⟨hs, _, _⟩
    · refine ⟨s', ?_, ?_, ?_, ?_⟩
      · simpa [chosen_context, h2] using hs'
      · simpa [chosen_context, served_from_free_list, h2] using p6
      · simpa using p1
      · simpa [served_from_free_list, h2] using p3
    · exact absurd hs (by simp [served_from_free_list, h2])

/-- A request that finds the small free list of no use is served with the
head of the regular free list, when there is one. -/
theorem chosen_context_regular_head (t : Runtime) (size : MR_ContextSize)
    (h : t.free_context_list ≠ 0)
    (h0 : size = MR_ContextSize.MR_CONTEXT_SIZE_SMALL → t.free_small_context_list = 0) :
    chosen_context t size = t.free_context_list := by
  cases size
  · simp [chosen_context, h]
  · simp [chosen_context, h, h0 rfl]

/-- A SMALL request is served with the head of the small free list, when
there is one. -/
theorem chosen_context_small_head (t : Runtime) (h : t.free_small_context_list ≠ 0) :
    chosen_context t MR_ContextSize.MR_CONTEXT_SIZE_SMALL = t.free_small_context_list := by
  simp [chosen_context, h]

/-- After `MR_create_context` and `MR_destroy_context` the same request is
served with the same context again: the facts shared by the round trip and by
the size field. -/
theorem create_destroy_pool (s : Runtime) (size : MR_ContextSize) (gen me : Nat)
    (hsized : free_list_heads_sized s) (hnew : s.next_context ≠ 0)
    (hpass : served_from_free_list s size → init_checks_pass s (chosen_context s size)) :
    ∃ s1, MR_create_context s size gen = Outcome.ok (chosen_context s size, s1) ∧
      (s1.ctxt (chosen_context s size)).MR_ctxt_size =
        (if size = MR_ContextSize.MR_CONTEXT_SIZE_SMALL ∧ s.free_small_context_list = 0 ∧
            s.free_context_list ≠ 0 then MR_ContextSize.MR_CONTEXT_SIZE_REGULAR else size) ∧
      served_from_free_list (MR_destroy_context s1 me (chosen_context s size)) size ∧
      chosen_context (MR_destroy_context s1 me (chosen_context s size)) size
        = chosen_context s size ∧
      init_checks_pass (MR_destroy_context s1 me (chosen_context s size))
        (chosen_context s size) := by
  have hc0 := chosen_context_ne_zero s size hnew
  rcases create_context_cases s size gen with
    ⟨_, s1, hs1, p1, p2, p3, _, _, p6, p7, p8⟩ | ⟨hs, hfail, _⟩
  swap
  · exact absurd (hpass hs) hfail
  obtain ⟨d1, _, d3, _, d5, _, _, dreg, dsmall⟩ :=
    destroy_context_spec s1 me (chosen_context s size)
  have hsize : (s1.ctxt (chosen_context s size)).MR_ctxt_size =
      (if size = MR_ContextSize.MR_CONTEXT_SIZE_SMALL ∧ s.free_small_context_list = 0 ∧
          s.free_context_list ≠ 0 then MR_ContextSize.MR_CONTEXT_SIZE_REGULAR else size) := by
    rw [p6]
    obtain ⟨hz1, hz2⟩ := hsized
    cases size
    · by_cases h2 : s.free_context_list = 0
      · simp [served_from_free_list, h2]
      · simp [served_from_free_list, chosen_context, h2, hz2 h2]
    · by_cases h1 : s.free_small_context_list = 0
      · by_cases h2 : s.free_context_list = 0
        · simp [served_from_free_list, h1, h2]
        · simp [served_from_free_list, chosen_context, h1, h2, hz2 h2]
      · simp [served_from_free_list, chosen_context, h1, hz1 h1]
  have hinit : init_checks_pass (MR_destroy_context s1 me (chosen_context s size))
      (chosen_context s size) := by
    unfold init_checks_pass
    rw [d3, d5, p7, p8]
    exact ⟨fun _ => rfl, fun _ => rfl⟩
  refine ⟨s1, hs1, hsize, ?_, ?_, hinit⟩
  · cases hsz : (s1.ctxt (chosen_context s size)).MR_ctxt_size
    · obtain ⟨e1, _, _⟩ := dreg hsz
      right
      rw [e1]
      exact hc0
    · obtain ⟨e1, _, _⟩ := dsmall hsz
      rw [hsize] at hsz
      have hsmall : size = MR_ContextSize.MR_CONTEXT_SIZE_SMALL := by
        split at hsz
        · cases hsz
        · exact hsz
      left
      rw [e1]
      exact ⟨hsmall, hc0⟩
  · cases hsz : (s1.ctxt (chosen_context s size)).MR_ctxt_size
    · obtain ⟨e1, e2, _⟩ := dreg hsz
      rw [hsize] at hsz
      have hd0 : size = MR_ContextSize.MR_CONTEXT_SIZE_SMALL →
          (MR_destroy_context s1 me (chosen_context s size)).free_small_context_list = 0 := by
        intro hsmall
        have hcond : s.free_small_context_list = 0 ∧ s.free_context_list ≠ 0 := by
          by_contra hcon
          have : ¬ (size = MR_ContextSize.MR_CONTEXT_SIZE_SMALL ∧
              s.free_small_context_list = 0 ∧ s.free_context_list ≠ 0) := fun h => hcon h.2
          rw [if_neg this, hsmall] at hsz
          cases hsz
        rw [e2, p1]
        simp [hcond.1]
      rw [chosen_context_regular_head _ size (by rw [e1]; exact hc0) hd0, e1]
    · obtain ⟨e1, _, _⟩ := dsmall hsz
      rw [hsize] at hsz
      have hsmall : size = MR_ContextSize.MR_CONTEXT_SIZE_SMALL := by
        split at hsz
        · cases hsz
        · exact hsz
      have hne : (MR_destroy_context s1 me (chosen_context s size)).free_small_context_list
          ≠ 0 := by
        rw [e1]
        exact hc0
      rw [hsmall] at hne e1 ⊢
      rw [chosen_context_small_head _ hne, e1]

/-- C19: the free-list round trip.  In a state where the head of each free
list has the size class of its list and passes the checks of
`MR_init_context_maybe_generator`, and the allocator does not hand out the
null address: `MR_create_context` for a size class returns a context `c`, and
after `MR_destroy_context(c)` the next `MR_create_context` for the same size
class returns the same `c`. -/
theorem create_destroy_create_same_context (s : Runtime) (size : MR_ContextSize)
    (gen gen2 me : Nat)
    (hsized : free_list_heads_sized s) (hnew : s.next_context ≠ 0)
    (hpass : served_from_free_list s size → init_checks_pass s (chosen_context s size)) :
    ∃ c s1 s3, MR_create_context s size gen = Outcome.ok (c, s1) ∧
      MR_create_context (MR_destroy_context s1 me c) size gen2 = Outcome.ok (c, s3) := by
  obtain ⟨s1, hs1, _, hserved, hchosen, hinit⟩ :=
    create_destroy_pool s size gen me hsized hnew hpass
  rcases create_context_cases (MR_destroy_context s1 me (chosen_context s size)) size gen2 with
    ⟨_, s3, hs3, _⟩ | ⟨_, hfail, _⟩
  · rw [hchosen] at hs3
    exact ⟨chosen_context s size, s1, s3, hs1, hs3⟩
  · rw [hchosen] at hfail
    exact absurd hinit hfail

/-- C18, amended: in a state where the head of each free list has the size
class of its list and passes the checks of `MR_init_context_maybe_generator`,
the context returned by `MR_create_context` for the size class `size` has size
field `size`, except that a SMALL request served from the regular free list
returns a context whose size field is REGULAR; `MR_destroy_context` leaves the
size field as it is. -/
theorem create_context_size_field (s : Runtime) (size : MR_ContextSize) (gen me : Nat)
    (hsized : free_list_heads_sized s) (hnew : s.next_context ≠ 0)
    (hpass : served_from_free_list s size → init_checks_pass s (chosen_context s size)) :
    ∃ c s1, MR_create_context s size gen = Outcome.ok (c, s1) ∧
      (s1.ctxt c).MR_ctxt_size =
        (if size = MR_ContextSize.MR_CONTEXT_SIZE_SMALL ∧ s.free_small_context_list = 0 ∧
            s.free_context_list ≠ 0 then MR_ContextSize.MR_CONTEXT_SIZE_REGULAR else size) ∧
      ((MR_destroy_context s1 me c).ctxt c).MR_ctxt_size = (s1.ctxt c).MR_ctxt_size := by
  obtain ⟨s1, hs1, hsize, _, _, _⟩ := create_destroy_pool s size gen me hsized hnew hpass
  exact ⟨chosen_context s size, s1, hs1, hsize,
    (destroy_context_spec s1 me (chosen_context s size)).1⟩

/-- Where the check of `MR_init_context_maybe_generator` sits: when
`MR_create_context` re-initialises a context taken from a free list, the
fatal error is raised exactly when the det stack or the nondet stack of that
context has a null zone pointer and a chain of previous zones that is not
null; in every other case the context is returned with both chains set to
null. -/
theorem create_context_fatal_iff (s : Runtime) (size : MR_ContextSize) (gen : Nat)
    (hserved : served_from_free_list s size) :
    (((s.ctxt (chosen_context s size)).MR_ctxt_detstack_zone = 0 ∧
        (s.ctxt (chosen_context s size)).MR_ctxt_prev_detstack_zones ≠ 0) ∨
      ((s.ctxt (chosen_context s size)).MR_ctxt_nondetstack_zone = 0 ∧
        (s.ctxt (chosen_context s size)).MR_ctxt_prev_nondetstack_zones ≠ 0) →
      ∃ msg, MR_create_context s size gen = Outcome.fatal_error msg) ∧
    (¬ (((s.ctxt (chosen_context s size)).MR_ctxt_detstack_zone = 0 ∧
        (s.ctxt (chosen_context s size)).MR_ctxt_prev_detstack_zones ≠ 0) ∨
      ((s.ctxt (chosen_context s size)).MR_ctxt_nondetstack_zone = 0 ∧
        (s.ctxt (chosen_context s size)).MR_ctxt_prev_nondetstack_zones ≠ 0)) →
      ∃ s', MR_create_context s size gen = Outcome.ok (chosen_context s size, s') ∧
        (s'.ctxt (chosen_context s size)).MR_ctxt_prev_detstack_zones = 0 ∧
        (s'.ctxt (chosen_context s size)).MR_ctxt_prev_nondetstack_zones = 0) := by
  have hiff : init_checks_pass s (chosen_context s size) ↔
      ¬ (((s.ctxt (chosen_context s size)).MR_ctxt_detstack_zone = 0 ∧
        (s.ctxt (chosen_context s size)).MR_ctxt_prev_detstack_zones ≠ 0) ∨
      ((s.ctxt (chosen_context s size)).MR_ctxt_nondetstack_zone = 0 ∧
        (s.ctxt (chosen_context s size)).MR_ctxt_prev_nondetstack_zones ≠ 0)) := by
    unfold init_checks_pass
    tauto
  rcases create_context_cases s size gen with
    ⟨hp, s', hs', _, _, _, _, _, _, p7, p8⟩ | ⟨_, hfail, msg, hmsg⟩
  · exact ⟨fun h => absurd h (hiff.mp (hp hserved)), fun _ => ⟨s', hs', p7, p8⟩⟩
  · exact ⟨fun _ => ⟨msg, hmsg⟩, fun h => absurd (hiff.mpr h) hfail⟩

/-- Witness for C17 on the pool with both free lists in use: a SMALL request
returns the context at address 6, the head of the small free list, and a
REGULAR request the context at address 4, the head of the regular free list,
leaving the small free list alone. -/
theorem create_context_chooses_by_size_class_witness :
    (pool_both.free_small_context_list ≠ 0 →
      init_checks_pass pool_both pool_both.free_small_context_list) ∧
    (pool_both.free_context_list ≠ 0 →
      init_checks_pass pool_both pool_both.free_context_list) ∧
    (∃ s', MR_create_context pool_both MR_ContextSize.MR_CONTEXT_SIZE_SMALL 0
        = Outcome.ok (6, s') ∧
      s'.free_small_context_list = 0 ∧ s'.free_context_list = 4 ∧ s'.next_context = 7) ∧
    (∃ s', MR_create_context pool_both MR_ContextSize.MR_CONTEXT_SIZE_REGULAR 0
        = Outcome.ok (4, s') ∧
      (s'.ctxt 4).MR_ctxt_size = MR_ContextSize.MR_CONTEXT_SIZE_REGULAR ∧
      s'.free_context_list = 3 ∧ s'.free_small_context_list = 6 ∧ s'.next_context = 7) :=
  ⟨by decide, by decide,
    (create_context_chooses_by_size_class pool_both 0 (by decide) (by decide)).1 (by decide),
    (create_context_chooses_by_size_class pool_both 0 (by decide) (by decide)).2.2.2.1
      (by decide)⟩

/-- C18, counterexample: in the pool whose small free list is empty and whose
regular free list holds the REGULAR context at address 4, a request for size
SMALL returns that context; its size field is REGULAR, not SMALL, and is still
REGULAR after `MR_destroy_context` has put it back. -/
theorem create_small_size_field_counterexample :
    ∃ s', MR_create_context pool_regular_only MR_ContextSize.MR_CONTEXT_SIZE_SMALL 0
        = Outcome.ok (4, s') ∧
      (s'.ctxt 4).MR_ctxt_size ≠ MR_ContextSize.MR_CONTEXT_SIZE_SMALL ∧
      ((MR_destroy_context s' 0 4).ctxt 4).MR_ctxt_size
        ≠ MR_ContextSize.MR_CONTEXT_SIZE_SMALL :=
  ⟨_, rfl, by decide, by decide⟩

/-- Witness for the amended C18 on the same pool: the SMALL request served
from the regular free list returns a context of size REGULAR. -/
theorem create_context_size_field_witness :
    free_list_heads_sized pool_regular_only ∧ pool_regular_only.next_context ≠ 0 ∧
    (served_from_free_list pool_regular_only MR_ContextSize.MR_CONTEXT_SIZE_SMALL →
      init_checks_pass pool_regular_only
        (chosen_context pool_regular_only MR_ContextSize.MR_CONTEXT_SIZE_SMALL)) ∧
    ∃ c s1, MR_create_context pool_regular_only MR_ContextSize.MR_CONTEXT_SIZE_SMALL 0
        = Outcome.ok (c, s1) ∧
      (s1.ctxt c).MR_ctxt_size = MR_ContextSize.MR_CONTEXT_SIZE_REGULAR ∧
      ((MR_destroy_context s1 1 c).ctxt c).MR_ctxt_size = (s1.ctxt c).MR_ctxt_size :=
  ⟨by decide, by decide, by decide,
    create_context_size_field pool_regular_only MR_ContextSize.MR_CONTEXT_SIZE_SMALL 0 1
      (by decide) (by decide) (by decide)⟩

/-- Witness for C19 on the pool with both free lists in use, for a SMALL
request made by engine 1. -/
theorem create_destroy_create_same_context_witness :
    free_list_heads_sized pool_both ∧ pool_both.next_context ≠ 0 ∧
    (served_from_free_list pool_both MR_ContextSize.MR_CONTEXT_SIZE_SMALL →
      init_checks_pass pool_both
        (chosen_context pool_both MR_ContextSize.MR_CONTEXT_SIZE_SMALL)) ∧
    ∃ c s1 s3, MR_create_context pool_both MR_ContextSize.MR_CONTEXT_SIZE_SMALL 0
        = Outcome.ok (c, s1) ∧
      MR_create_context (MR_destroy_context s1 1 c) MR_ContextSize.MR_CONTEXT_SIZE_SMALL 0
        = Outcome.ok (c, s3) :=
  ⟨by decide, by decide, by decide,
    create_destroy_create_same_context pool_both MR_ContextSize.MR_CONTEXT_SIZE_SMALL 0 0 1
      (by decide) (by decide) (by decide)⟩

/-- C20, the code misses the check it attempts: the context at address 4 on
the regular free list has its det-stack zone and a chain of previous
det-stack zones that is not null, so its stacks are not empty.
`MR_create_context` takes it from the list and returns it, with the chain
set to null, and no fatal error is raised: the test of the chain sits inside
`if (c->MR_ctxt_detstack_zone == NULL)`, which a context that has its zone
does not enter. -/
theorem create_context_reuses_unclean_counterexample :
    pool_dirty.free_context_list = 4 ∧
    (pool_dirty.ctxt 4).MR_ctxt_prev_detstack_zones ≠ 0 ∧
    ∃ s', MR_create_context pool_dirty MR_ContextSize.MR_CONTEXT_SIZE_REGULAR 0
        = Outcome.ok (4, s') ∧
      (s'.ctxt 4).MR_ctxt_prev_detstack_zones = 0 :=
  ⟨by decide, by decide, _, rfl, by decide⟩

/-- An instance in which the check does fire: the context at address 4 on the
regular free list has no det-stack zone and a chain of previous det-stack
zones that is not null, and `MR_create_context` stops with a fatal error. -/
theorem create_context_fatal_iff_witness :
    served_from_free_list pool_dirty_no_zone MR_ContextSize.MR_CONTEXT_SIZE_REGULAR ∧
    ∃ msg, MR_create_context pool_dirty_no_zone MR_ContextSize.MR_CONTEXT_SIZE_REGULAR 0
      = Outcome.fatal_error msg :=
  ⟨by decide,
    (create_context_fatal_iff pool_dirty_no_zone MR_ContextSize.MR_CONTEXT_SIZE_REGULAR 0
      (by decide)).1 (Or.inl (by decide))⟩
/-! ## Nondet stack frames: `mkframe` and `succeed_discard` -/

/-- C30: the nondet frame round trip of `stacks.h`.  For every stack state,
frame size `n` and redo address `r`, with or without `SPEED`: after
`mkframe(name, n, r)` the PREVFR slot of the new frame holds the old `maxfr`,
its SUCCFR slot the old `curfr`, its SUCCIP slot the current `succip` and its
REDOIP slot `r`, and `maxfr = curfr = old maxfr + NONDET_FIXED_SIZE + n`.  A
`succeed_discard()` executed in that frame, in any later state `st'` whose
`curfr` is still the new frame and whose PREVFR, SUCCIP and SUCCFR slots of
that frame are as `mkframe` left them, restores `maxfr` and `curfr` to their
values before `mkframe` and goes to the `succip` saved by `mkframe`. -/
theorem nondet_frame_round_trip (speed : Bool) (st : NondetStack) (name : Int) (n : Nat)
    (r : Int) (st' : NondetStack)
    (hcur : st'.curfr = (mkframe speed st name n r).curfr)
    (hprev : bt_prevfr st' st'.curfr = bt_prevfr (mkframe speed st name n r) st'.curfr)
    (hsuccip : bt_succip st' st'.curfr = bt_succip (mkframe speed st name n r) st'.curfr)
    (hsuccfr : bt_succfr st' st'.curfr = bt_succfr (mkframe speed st name n r) st'.curfr) :
    curprevfr (mkframe speed st name n r) = st.maxfr ∧
    cursuccfr (mkframe speed st name n r) = st.curfr ∧
    cursuccip (mkframe speed st name n r) = st.succip ∧
    curredoip (mkframe speed st name n r) = r ∧
    (mkframe speed st name n r).maxfr = st.maxfr + NONDET_FIXED_SIZE speed + n ∧
    (mkframe speed st name n r).curfr = st.maxfr + NONDET_FIXED_SIZE speed + n ∧
    (mkframe speed st name n r).succip = st.succip ∧
    (succeed_discard st').1.maxfr = st.maxfr ∧
    (succeed_discard st').1.curfr = st.curfr ∧
    (succeed_discard st').2 = st.succip := by
  have hmk : curprevfr (mkframe speed st name n r) = st.maxfr ∧
      cursuccfr (mkframe speed st name n r) = st.curfr ∧
      cursuccip (mkframe speed st name n r) = st.succip ∧
      curredoip (mkframe speed st name n r) = r ∧
      (mkframe speed st name n r).maxfr = st.maxfr + NONDET_FIXED_SIZE speed + n ∧
      (mkframe speed st name n r).curfr = st.maxfr + NONDET_FIXED_SIZE speed + n ∧
      (mkframe speed st name n r).succip = st.succip := by
    cases speed <;>
    simp [mkframe, mkframe_save_prednm, NondetStack.store, curprevfr, cursuccfr, cursuccip,
      curredoip, bt_prevfr, bt_succfr, bt_succip, bt_redoip, REDOIP, PREVFR, SUCCIP, SUCCFR,
      PREDNM, NONDET_FIXED_SIZE, Function.update, add_assoc]
  obtain ⟨h1, h2, h3, h4, h5, h6, h7⟩ := hmk
  refine ⟨h1, h2, h3, h4, h5, h6, h7, ?_, ?_, ?_⟩
  · show curprevfr st' = st.maxfr
    unfold curprevfr
    rw [hprev, hcur]
    exact h1
  · show bt_succfr st' st'.curfr = st.curfr
    rw [hsuccfr, hcur]
    exact h2
  · show bt_succip st' st'.curfr = st.succip
    rw [hsuccip, hcur]
    exact h3

/-- Witness for C30: a frame of 2 words made on top of a stack whose `maxfr`
is 10 and `curfr` is 7, and discarded at once. -/
theorem nondet_frame_round_trip_witness :
    (succeed_discard
      (mkframe false { mem := fun _ => 0, maxfr := 10, curfr := 7, succip := 33 } 0 2 44)).1.maxfr
        = 10 ∧
    (succeed_discard
      (mkframe false { mem := fun _ => 0, maxfr := 10, curfr := 7, succip := 33 } 0 2 44)).1.curfr
        = 7 ∧
    (succeed_discard
      (mkframe false { mem := fun _ => 0, maxfr := 10, curfr := 7, succip := 33 } 0 2 44)).2
        = 33 :=
  (nondet_frame_round_trip false { mem := fun _ => 0, maxfr := 10, curfr := 7, succip := 33 }
    0 2 44 (mkframe false { mem := fun _ => 0, maxfr := 10, curfr := 7, succip := 33 } 0 2 44)
    rfl rfl rfl rfl).2.2.2.2.2.2.2

/-! ## `MR_arg` and `MR_named_arg` -/

/-- C27, counterexample: the selected argument exists, the type of the term
is not canonical and the caller asked for `MR_FAIL_ON_NONCANONICAL`; `MR_arg`
returns FALSE and writes neither output, and so does `MR_named_arg`. -/
theorem arg_exists_but_fails_counterexample :
    expand_noncanonical_exists.chosen_index_exists = true ∧
    MR_arg (fun _ _ _ => expand_noncanonical_exists) 1 2 0 0 0
      MR_non_canon_handling.MR_FAIL_ON_NONCANONICAL "msg" = Outcome.ok (false, 0, 0) ∧
    MR_named_arg (fun _ _ _ => expand_noncanonical_exists) 1 2 "x" 0 0
      MR_non_canon_handling.MR_FAIL_ON_NONCANONICAL "msg" = Outcome.ok (false, 0, 0) :=
  ⟨rfl, rfl, rfl⟩

/-- C27, amended: when the type of the term is canonical, or the caller
passes `MR_ALLOW_NONCANONICAL`, `MR_arg` returns TRUE exactly when the
selected argument exists, and then stores the type-info and the address of
that argument; when the argument does not exist it returns FALSE and writes
neither output; `MR_named_arg` does the same for an argument selected by
name.  For a type that is not canonical both return FALSE, writing nothing,
under `MR_FAIL_ON_NONCANONICAL`, and stop with a fatal error under
`MR_ABORT_ON_NONCANONICAL`. -/
theorem arg_true_iff_exists (expand : Nat → Nat → Int → MR_Expand_Chosen_Arg_Only_Info)
    (expand_named : Nat → Nat → String → MR_Expand_Chosen_Arg_Only_Info)
    (type_info term_ptr : Nat) (arg_index : Int) (arg_name : String) (t0 p0 : Nat)
    (h : MR_non_canon_handling) (msg : String) :
    (((expand type_info term_ptr arg_index).non_canonical_type = false ∨
        h = MR_non_canon_handling.MR_ALLOW_NONCANONICAL) →
      MR_arg expand type_info term_ptr arg_index t0 p0 h msg =
        (if (expand type_info term_ptr arg_index).chosen_index_exists = true then
          Outcome.ok (true, (expand type_info term_ptr arg_index).chosen_type_info,
            (expand type_info term_ptr arg_index).chosen_value_ptr)
        else Outcome.ok (false, t0, p0))) ∧
    (((expand_named type_info term_ptr arg_name).non_canonical_type = false ∨
        h = MR_non_canon_handling.MR_ALLOW_NONCANONICAL) →
      MR_named_arg expand_named type_info term_ptr arg_name t0 p0 h msg =
        (if (expand_named type_info term_ptr arg_name).chosen_index_exists = true then
          Outcome.ok (true, (expand_named type_info term_ptr arg_name).chosen_type_info,
            (expand_named type_info term_ptr arg_name).chosen_value_ptr)
        else Outcome.ok (false, t0, p0))) ∧
    ((expand type_info term_ptr arg_index).non_canonical_type = true →
      (h = MR_non_canon_handling.MR_FAIL_ON_NONCANONICAL →
        MR_arg expand type_info term_ptr arg_index t0 p0 h msg = Outcome.ok (false, t0, p0)) ∧
      (h = MR_non_canon_handling.MR_ABORT_ON_NONCANONICAL →
        MR_arg expand type_info term_ptr arg_index t0 p0 h msg = Outcome.fatal_error msg)) ∧
    ((expand_named type_info term_ptr arg_name).non_canonical_type = true →
      (h = MR_non_canon_handling.MR_FAIL_ON_NONCANONICAL →
        MR_named_arg expand_named type_info term_ptr arg_name t0 p0 h msg
          = Outcome.ok (false, t0, p0)) ∧
      (h = MR_non_canon_handling.MR_ABORT_ON_NONCANONICAL →
        MR_named_arg expand_named type_info term_ptr arg_name t0 p0 h msg
          = Outcome.fatal_error msg)) := by
  refine ⟨?_, ?_, ?_, ?_⟩
  · intro hc
    unfold MR_arg
    cases hnc : (expand type_info term_ptr arg_index).non_canonical_type
    · simp [hnc]
    · rcases hc with hc | hc
      · rw [hnc] at hc
        cases hc
      · subst hc
        simp [hnc]
  · intro hc
    unfold MR_named_arg
    cases hnc : (expand_named type_info term_ptr arg_name).non_canonical_type
    · simp [hnc]
    · rcases hc with hc | hc
      · rw [hnc] at hc
        cases hc
      · subst hc
        simp [hnc]
  · intro hnc
    constructor <;> intro hc <;> subst hc <;> simp [MR_arg, hnc]
  · intro hnc
    constructor <;> intro hc <;> subst hc <;> simp [MR_named_arg, hnc]

/-- Witness for the amended C27: a term of a canonical type whose argument 0
exists, at address 7 with type-info 8. -/
theorem arg_true_iff_exists_witness :
    expand_canonical_exists.non_canonical_type = false ∧
    MR_arg (fun _ _ _ => expand_canonical_exists) 1 2 0 0 0
      MR_non_canon_handling.MR_ABORT_ON_NONCANONICAL "msg" = Outcome.ok (true, 8, 7) :=
  ⟨rfl,
    (arg_true_iff_exists (fun _ _ _ => expand_canonical_exists)
      (fun _ _ _ => expand_canonical_exists) 1 2 0 "x" 0 0
      MR_non_canon_handling.MR_ABORT_ON_NONCANONICAL "msg").1 (Or.inl rfl)⟩

/-! ## Pending I/O: the descriptor bound -/

/-- One entry with a descriptor that is not negative leaves `max_id` at -1. -/
theorem check_pending_contexts_body_max_id (v : PendingScan) (p : MR_PendingContext)
    (hv : v.max_id = -1) (hp : 0 ≤ p.fd) :
    (MR_check_pending_contexts_body v p).max_id = -1 := by
  have hlt : ¬ ((-1 : Int) > p.fd) := by omega
  unfold MR_check_pending_contexts_body
  simp only [hv]
  split_ifs <;> simp_all <;> omega

/-- The first loop of `MR_check_pending_contexts` leaves `max_id` at -1 when
no descriptor of the list is negative. -/
theorem check_pending_contexts_scan_max_id (l : List MR_PendingContext) :
    ∀ v : PendingScan, v.max_id = -1 → (∀ p ∈ l, 0 ≤ p.fd) →
      (l.foldl MR_check_pending_contexts_body v).max_id = -1 := by
  induction l with
  | nil => intro v hv _; exact hv
  | cons p l ih =>
    intro v hv hl
    rw [List.foldl_cons]
    exact ih _ (check_pending_contexts_body_max_id v p hv (hl p (List.mem_cons_self _ _)))
      (fun q hq => hl q (List.mem_cons_of_mem _ hq))

/-- The descriptor bound is never computed: for every pending-I/O list that
is not empty and holds no negative descriptor, `MR_check_pending_contexts`
stops with the fatal error for zero descriptors, whatever the entries wait
for. -/
theorem check_pending_contexts_fatal (l : List MR_PendingContext) (block : Bool)
    (hne : l ≠ []) (hfd : ∀ p ∈ l, 0 ≤ p.fd) :
    MR_check_pending_contexts l block = Outcome.fatal_error "no fd's set!" := by
  unfold MR_check_pending_contexts
  rw [if_neg hne]
  simp only
  rw [check_pending_contexts_scan_max_id l _ rfl hfd]
  simp

/-- C29, the code does not do what the claim says: with one entry waiting to
read descriptor 3, and with a second one waiting to write descriptor 9,
`MR_check_pending_contexts` does not call `select` with the bound 4, or 10,
but stops with the fatal error for zero descriptors, although an entry has a
waiting mode set.  On the empty list it returns 0 without calling
`select`. -/
theorem check_pending_contexts_bound_not_computed :
    MR_check_pending_contexts pending_read_3 true = Outcome.fatal_error "no fd's set!" ∧
    MR_check_pending_contexts pending_read_3_write_9 false
      = Outcome.fatal_error "no fd's set!" ∧
    (∃ p ∈ pending_read_3, p.waiting_mode &&& MR_PENDING_READ ≠ 0 ∧ p.fd = 3) ∧
    MR_check_pending_contexts [] true = Outcome.ok PendingPoll.returns_zero :=
  ⟨rfl, rfl, by decide, rfl⟩

/-! ## Work stealing: the cap and the victim counter -/

/-- C26: `do_work_steal` respects the cap on contexts.  When the engine holds
no context and the count of outstanding contexts is at or above
`MR_max_outstanding_contexts` it returns no work and the state is the one at
entry, so no deque is touched and the victim counter is unchanged.  In every
other case, that is when the engine holds a context or the count is below the
limit, it runs `MR_attempt_steal_spark`: the result and the state are those
of the attempt, followed by `prepare_engine_for_spark` when a spark was
stolen. -/
theorem do_work_steal_respects_cap (s : Runtime) (me : Nat) (join_label : MR_Code) :
    (((s.engines me).MR_eng_this_context = 0 ∧
        s.MR_max_outstanding_contexts ≤ s.MR_num_outstanding_contexts) →
      do_work_steal s me join_label = Outcome.ok (MR_Code.null, s)) ∧
    (((s.engines me).MR_eng_this_context ≠ 0 ∨
        s.MR_num_outstanding_contexts < s.MR_max_outstanding_contexts) →
      do_work_steal s me join_label =
        match MR_attempt_steal_spark s me with
        | (some spark, s1) =>
          match prepare_engine_for_spark s1 me spark join_label with
          | Outcome.ok s2 => Outcome.ok (spark.MR_spark_resume, s2)
          | Outcome.fatal_error msg => Outcome.fatal_error msg
          | Outcome.out_of_fuel => Outcome.out_of_fuel
        | (none, s1) => Outcome.ok (MR_Code.null, s1)) := by
  constructor
  · intro h
    unfold do_work_steal
    rw [if_neg (not_not.mpr h)]
  · intro h
    have hn : ¬ ((s.engines me).MR_eng_this_context = 0 ∧
        s.MR_max_outstanding_contexts ≤ s.MR_num_outstanding_contexts) := by
      rintro ⟨h1, h2⟩
      rcases h with h | h
      · exact h h1
      · omega
    unfold do_work_steal
    rw [if_pos hn]

/-- Witness for C26: at the cap engine 0, which holds no context, steals
nothing although the deque of engine 1 holds a spark, and its victim counter
stays at 1; holding a context it steals that spark. -/
theorem do_work_steal_respects_cap_witness :
    ((steal_state_capped.engines 0).MR_eng_this_context = 0 ∧
      steal_state_capped.MR_max_outstanding_contexts
        ≤ steal_state_capped.MR_num_outstanding_contexts) ∧
    do_work_steal steal_state_capped 0 MR_Code.null
      = Outcome.ok (MR_Code.null, steal_state_capped) ∧
    (steal_state_capped.engines 0).MR_eng_victim_counter = 1 ∧
    (∃ s', do_work_steal steal_state 0 MR_Code.null = Outcome.ok (MR_Code.label 4, s') ∧
      (s'.engines 1).MR_eng_spark_deque = []) :=
  ⟨by decide,
    (do_work_steal_respects_cap steal_state_capped 0 MR_Code.null).1 (by decide),
    by decide, _, rfl, by decide⟩

/-- C28, the code does not do what the claim says about the victim counter:
with two deques and the victim counter of engine 0 at 1, the first deque
probed is deque 1; the spark is stolen from it, and the victim counter
afterwards is 0, the number of probes that failed, not 1, the index of the
deque the spark was stolen from. -/
theorem steal_victim_counter_not_deque_index :
    (steal_state.engines 0).MR_eng_victim_counter = 1 ∧
    (MR_attempt_steal_spark steal_state 0).1
      = some { MR_spark_sync_term := 7, MR_spark_resume := MR_Code.label 4,
               MR_spark_thread_local_mutables := 0 } ∧
    ((MR_attempt_steal_spark steal_state 0).2.engines 1).MR_eng_spark_deque = [] ∧
    ((MR_attempt_steal_spark steal_state 0).2.engines 0).MR_eng_spark_deque = [] ∧
    (steal_state.engines 0).MR_eng_spark_deque = [] ∧
    ((MR_attempt_steal_spark steal_state 0).2.engines 0).MR_eng_victim_counter = 0 := by
  decide

/-! ## What the scheduler code leaves alone: the protocol part of the state -/

@[simp] theorem setCtxt_protocol (s : Runtime) (p : Nat) (c : MR_Context) :
    (s.setCtxt p c).protocol = s.protocol := rfl

@[simp] theorem setEngine_protocol (s : Runtime) (i : Nat) (e : MercuryEngine) :
    (s.setEngine i e).protocol = s.protocol := rfl

@[simp] theorem save_dirty_context_protocol (s : Runtime) (me : Nat) (join_label : MR_Code) :
    (save_dirty_context s me join_label).protocol = s.protocol := rfl

@[simp] theorem MR_destroy_context_protocol (s : Runtime) (me c : Nat) :
    (MR_destroy_context s me c).protocol = s.protocol := by
  unfold MR_destroy_context
  simp only
  split <;> rfl

@[simp] theorem prepare_engine_for_context_protocol (s : Runtime) (me c : Nat) :
    (prepare_engine_for_context s me c).protocol = s.protocol := by
  unfold prepare_engine_for_context MR_load_context
  simp only [setEngine_protocol]
  split
  · exact MR_destroy_context_protocol _ _ _
  · rfl

/-- A call of `MR_init_context_maybe_generator` that returns leaves the
protocol part alone. -/
theorem init_context_protocol (s : Runtime) (c gen : Nat) (s' : Runtime)
    (h : MR_init_context_maybe_generator s c gen = Outcome.ok s') :
    s'.protocol = s.protocol := by
  unfold MR_init_context_maybe_generator at h
  by_cases hd : (s.ctxt c).MR_ctxt_detstack_zone = 0 <;>
  by_cases hn : (s.ctxt c).MR_ctxt_nondetstack_zone = 0 <;>
  by_cases hpd : (s.ctxt c).MR_ctxt_prev_detstack_zones = 0 <;>
  by_cases hpn : (s.ctxt c).MR_ctxt_prev_nondetstack_zones = 0 <;>
  simp [hd, hn, hpd, hpn, MR_create_or_reuse_zone, Runtime.setCtxt, Function.update] at h <;>
  rw [← h] <;> rfl

/-- A call of `MR_create_context` that returns leaves the protocol part
alone. -/
theorem create_context_protocol (s : Runtime) (size : MR_ContextSize) (gen c : Nat)
    (s' : Runtime) (h : MR_create_context s size gen = Outcome.ok (c, s')) :
    s'.protocol = s.protocol := by
  unfold MR_create_context at h
  dsimp only at h
  split at h
  · rename_i s5 heq
    cases h
    rw [init_context_protocol _ _ _ _ heq]
    unfold MR_GC_NEW
    split_ifs <;> rfl
  · cases h
  · cases h

/-- A call of `prepare_engine_for_spark` that returns leaves the protocol
part alone. -/
theorem prepare_engine_for_spark_protocol (s : Runtime) (me : Nat) (spark : MR_Spark)
    (join_label : MR_Code) (s' : Runtime)
    (h : prepare_engine_for_spark s me spark join_label = Outcome.ok s') :
    s'.protocol = s.protocol := by
  unfold prepare_engine_for_spark at h
  dsimp only at h
  split at h
  · rename_i s4 heq
    cases h
    rw [setEngine_protocol]
    by_cases hc1 : (s.engines me).MR_eng_this_context ≠ 0 ∧ join_label ≠ MR_Code.null ∧
        (s.sync_terms spark.MR_spark_sync_term).MR_st_orig_context
          ≠ (s.engines me).MR_eng_this_context
    · rw [if_pos hc1] at heq
      simp only [if_true] at heq
      cases hcr : MR_create_context (save_dirty_context s me join_label)
          (save_dirty_context s me join_label).MR_CONTEXT_SIZE_FOR_SPARK 0 with
      | ok p =>
        obtain ⟨c, s2⟩ := p
        rw [hcr] at heq
        cases heq
        have := create_context_protocol _ _ _ _ _ hcr
        unfold MR_load_context
        rw [setEngine_protocol, setEngine_protocol, this, save_dirty_context_protocol]
      | fatal_error msg =>
        rw [hcr] at heq
        cases heq
      | out_of_fuel =>
        rw [hcr] at heq
        cases heq
    · rw [if_neg hc1] at heq
      by_cases hc2 : (s.engines me).MR_eng_this_context = 0
      · simp only [hc2, if_true] at heq
        cases hcr : MR_create_context s s.MR_CONTEXT_SIZE_FOR_SPARK 0 with
        | ok p =>
          obtain ⟨c, s2⟩ := p
          rw [hcr] at heq
          cases heq
          have := create_context_protocol _ _ _ _ _ hcr
          unfold MR_load_context
          rw [setEngine_protocol, setEngine_protocol, this]
        | fatal_error msg =>
          rw [hcr] at heq
          cases heq
        | out_of_fuel =>
          rw [hcr] at heq
          cases heq
      · simp only [hc2, if_false] at heq
        cases heq
        rfl
  · cases h
  · cases h

/-- A call of `do_local_spark` that returns leaves the protocol part alone. -/
theorem do_local_spark_protocol (s : Runtime) (me : Nat) (join_label tramp : MR_Code)
    (s' : Runtime) (h : do_local_spark s me join_label = Outcome.ok (tramp, s')) :
    s'.protocol = s.protocol := by
  unfold do_local_spark at h
  split at h
  · cases h
    rfl
  · dsimp only at h
    split at h
    · rename_i s2 heq
      cases h
      rw [prepare_engine_for_spark_protocol _ _ _ _ _ heq, setEngine_protocol]
    · cases h
    · cases h

/-- The loop of `MR_attempt_steal_spark` leaves the protocol part alone. -/
theorem attempt_steal_spark_loop_protocol (offset : Nat) :
    ∀ k s, (MR_attempt_steal_spark_loop offset k s).2.2.protocol = s.protocol := by
  intro k
  induction k with
  | zero => intro s; rfl
  | succ k ih =>
    intro s
    simp only [MR_attempt_steal_spark_loop]
    split
    · exact ih s
    · split
      · rfl
      · exact ih s

/-- `MR_attempt_steal_spark` leaves the protocol part alone. -/
theorem attempt_steal_spark_protocol (s : Runtime) (me : Nat) :
    (MR_attempt_steal_spark s me).2.protocol = s.protocol := by
  unfold MR_attempt_steal_spark
  simp only [setEngine_protocol]
  exact attempt_steal_spark_loop_protocol _ _ _

/-- A call of `do_work_steal` that returns leaves the protocol part alone. -/
theorem do_work_steal_protocol (s : Runtime) (me : Nat) (join_label tramp : MR_Code)
    (s' : Runtime) (h : do_work_steal s me join_label = Outcome.ok (tramp, s')) :
    s'.protocol = s.protocol := by
  unfold do_work_steal at h
  split at h
  · split at h
    · rename_i spark s1 hst
      have h1 : s1.protocol = s.protocol := by
        have := attempt_steal_spark_protocol s me
        rw [hst] at this
        exact this
      split at h
      · rename_i s2 heq
        cases h
        rw [prepare_engine_for_spark_protocol _ _ _ _ _ heq, h1]
      · cases h
      · cases h
    · rename_i s1 hst
      cases h
      have := attempt_steal_spark_protocol s me
      rw [hst] at this
      exact this
  · cases h
    rfl

/-- A call of `MR_find_ready_context` that returns leaves the protocol part
alone. -/
theorem find_ready_context_protocol (fuel : Nat) (s : Runtime) (me r : Nat) (s' : Runtime)
    (h : MR_find_ready_context fuel s me = some (r, s')) :
    s'.protocol = s.protocol := by
  unfold MR_find_ready_context at h
  dsimp only at h
  split at h
  · cases h
  · split at h
    · cases h
      split_ifs <;> rfl
    · cases h
      rfl

/-- A call of `do_get_context` that returns leaves the protocol part alone. -/
theorem do_get_context_protocol (fuel : Nat) (s : Runtime) (me : Nat) (tramp : MR_Code)
    (s' : Runtime) (h : do_get_context fuel s me = Outcome.ok (tramp, s')) :
    s'.protocol = s.protocol := by
  unfold do_get_context at h
  split at h
  · cases h
  · rename_i ready_context s1 hf
    have h1 := find_ready_context_protocol _ _ _ _ _ hf
    split at h
    · cases h
      rw [setCtxt_protocol, prepare_engine_for_context_protocol, h1]
    · cases h
      exact h1

/-- `prepare_engine_for_context` does not touch the resume point of the
context it installs. -/
theorem prepare_engine_for_context_resume (s : Runtime) (me c : Nat) :
    ((prepare_engine_for_context s me c).ctxt c).MR_ctxt_resume = (s.ctxt c).MR_ctxt_resume := by
  unfold prepare_engine_for_context MR_load_context
  simp only [setEngine_ctxt]
  split
  · unfold MR_destroy_context MR_save_context
    by_cases hc : c = (s.engines me).MR_eng_this_context
    · rw [← hc]
      simp only [setCtxt_ctxt_same]
      split <;> simp [Runtime.setCtxt]
    · simp only [setCtxt_ctxt_same]
      split <;> simp [Runtime.setCtxt, Function.update_noteq hc]
  · rfl


/-! ## `MR_attempt_steal_spark`: the order of the probes -/

/-- The loop of `MR_attempt_steal_spark` from iteration `MR_num_threads - k`
on: either no entry of the rest yields a spark and the loop runs to its end,
or it stops at the first iteration `i` whose entry `(i + offset) %
MR_num_threads` yields one, with the spark stolen from that deque. -/
theorem steal_loop_spec (offset : Nat) (s : Runtime) :
    ∀ k, k ≤ s.MR_num_threads →
      ((MR_attempt_steal_spark_loop offset k s) = (s.MR_num_threads, none, s) ∧
        ∀ i, s.MR_num_threads - k ≤ i → i < s.MR_num_threads →
          deque_yields s ((i + offset) % s.MR_num_threads) = false) ∨
      (∃ i spark, s.MR_num_threads - k ≤ i ∧ i < s.MR_num_threads ∧
        deque_yields s ((i + offset) % s.MR_num_threads) = true ∧
        (∀ i', s.MR_num_threads - k ≤ i' → i' < i →
          deque_yields s ((i' + offset) % s.MR_num_threads) = false) ∧
        steal_from s ((i + offset) % s.MR_num_threads)
          = (some spark, (MR_attempt_steal_spark_loop offset k s).2.2) ∧
        MR_attempt_steal_spark_loop offset k s
          = (i, some spark, (MR_attempt_steal_spark_loop offset k s).2.2)) := by
  intro k
  induction k with
  | zero =>
    intro _
    left
    refine ⟨rfl, fun i h1 h2 => ?_⟩
    omega
  | succ k ih =>
    intro hk
    have hrest := ih (by omega)
    simp only [MR_attempt_steal_spark_loop]
    cases hd : s.MR_spark_deques ((s.MR_num_threads - (k + 1) + offset) % s.MR_num_threads) with
    | none =>
      have hy : deque_yields s ((s.MR_num_threads - (k + 1) + offset) % s.MR_num_threads)
          = false := by
        simp [deque_yields, hd]
      simp only
      rcases hrest with ⟨h1, h2⟩ | ⟨i, spark, h1, h2, h3, h4, h5, h6⟩
      · left
        refine ⟨h1, fun i hi1 hi2 => ?_⟩
        by_cases hi : i = s.MR_num_threads - (k + 1)
        · rw [hi]
          exact hy
        · exact h2 i (by omega) hi2
      · right
        refine ⟨i, spark, by omega, h2, h3, fun i' hi1 hi2 => ?_, h5, h6⟩
        by_cases hi : i' = s.MR_num_threads - (k + 1)
        · rw [hi]
          exact hy
        · exact h4 i' (by omega) hi2
    | some victim =>
      simp only
      cases hq : (s.engines victim).MR_eng_spark_deque with
      | nil =>
        have hy : deque_yields s ((s.MR_num_threads - (k + 1) + offset) % s.MR_num_threads)
            = false := by
          simp [deque_yields, hd, hq]
        simp only [MR_wsdeque_steal_top]
        rcases hrest with ⟨h1, h2⟩ | ⟨i, spark, h1, h2, h3, h4, h5, h6⟩
        · left
          refine ⟨h1, fun i hi1 hi2 => ?_⟩
          by_cases hi : i = s.MR_num_threads - (k + 1)
          · rw [hi]
            exact hy
          · exact h2 i (by omega) hi2
        · right
          refine ⟨i, spark, by omega, h2, h3, fun i' hi1 hi2 => ?_, h5, h6⟩
          by_cases hi : i' = s.MR_num_threads - (k + 1)
          · rw [hi]
            exact hy
          · exact h4 i' (by omega) hi2
      | cons spark rest =>
        right
        simp only [MR_wsdeque_steal_top]
        refine ⟨s.MR_num_threads - (k + 1), spark, Nat.le_refl _, by omega, ?_,
          fun i' hi1 hi2 => by omega, ?_, rfl⟩
        · simp [deque_yields, hd, hq]
        · simp [steal_from, hd, hq, MR_wsdeque_steal_top]

/-- What `MR_attempt_steal_spark` does, for a victim counter `v`: the deques
are probed in the order `v`, `v + 1`, ... modulo the number of engines, each
entry at most once and null entries yielding nothing.  It fails exactly when
no entry yields a spark, and the victim counter is then 0.  Otherwise the
spark is stolen from the first entry in that order that yields one, entry
`(i + v) % MR_num_threads` after `i` failed probes, and the victim counter
afterwards is `i`. -/
theorem attempt_steal_spark_spec (s : Runtime) (me : Nat) :
    ((MR_attempt_steal_spark s me).1 = none ∧
      (∀ j < s.MR_num_threads, deque_yields s j = false) ∧
      (MR_attempt_steal_spark s me).2
        = s.setEngine me { s.engines me with MR_eng_victim_counter := 0 }) ∨
    (∃ i spark t, i < s.MR_num_threads ∧
      deque_yields s ((i + (s.engines me).MR_eng_victim_counter) % s.MR_num_threads) = true ∧
      (∀ i' < i, deque_yields s
        ((i' + (s.engines me).MR_eng_victim_counter) % s.MR_num_threads) = false) ∧
      steal_from s ((i + (s.engines me).MR_eng_victim_counter) % s.MR_num_threads)
        = (some spark, t) ∧
      (MR_attempt_steal_spark s me).1 = some spark ∧
      (MR_attempt_steal_spark s me).2
        = t.setEngine me { t.engines me with MR_eng_victim_counter := i }) := by
  rcases steal_loop_spec (s.engines me).MR_eng_victim_counter s s.MR_num_threads
      (Nat.le_refl _) with ⟨h1, h2⟩ | ⟨i, spark, _, h2, h3, h4, h5, h6⟩
  · left
    refine ⟨?_, ?_, ?_⟩
    · simp [MR_attempt_steal_spark, h1]
    · intro j hj
      obtain ⟨i, hi, hij⟩ := List.mem_map.mp
        ((mem_wake_order s (s.engines me).MR_eng_victim_counter j).mpr hj)
      rw [← hij]
      exact h2 i (by omega) (List.mem_range.mp hi)
    · simp [MR_attempt_steal_spark, h1]
  · right
    refine ⟨i, spark, _, h2, h3, fun i' hi' => h4 i' (by omega) hi', h5, ?_, ?_⟩
    · unfold MR_attempt_steal_spark
      simp only
      rw [h6]
    · unfold MR_attempt_steal_spark
      simp only
      rw [h6]
      simp only [Nat.mod_eq_of_lt h2]
      have hn : (MR_attempt_steal_spark_loop (s.engines me).MR_eng_victim_counter
          s.MR_num_threads s).2.2.MR_num_threads = s.MR_num_threads := by
        have := attempt_steal_spark_loop_protocol (s.engines me).MR_eng_victim_counter
          s.MR_num_threads s
        unfold Runtime.protocol at this
        simp only [Prod.mk.injEq] at this
        exact this.2.2.1
      rw [hn, Nat.mod_eq_of_lt h2]

/-! ## The idle entries return -/

/-- `MR_create_context` returns when no context has a chain of previous zones
without a zone. -/
theorem create_context_total (s : Runtime) (size : MR_ContextSize) (gen : Nat)
    (h : ∀ c, init_checks_pass s c) :
    ∃ c s', MR_create_context s size gen = Outcome.ok (c, s') := by
  rcases create_context_cases s size gen with ⟨_, s', hs', _⟩ | ⟨_, hfail, _⟩
  · exact ⟨_, s', hs'⟩
  · exact absurd (h _) hfail

/-- `save_dirty_context` does not touch the zones of any context. -/
theorem save_dirty_context_checks (s : Runtime) (me : Nat) (join_label : MR_Code) (c : Nat) :
    init_checks_pass (save_dirty_context s me join_label) c ↔ init_checks_pass s c := by
  unfold init_checks_pass save_dirty_context MR_save_context
  by_cases hc : c = (s.engines me).MR_eng_this_context
  · rw [← hc]
    simp [Runtime.setCtxt, Runtime.setEngine]
  · simp [Runtime.setCtxt, Runtime.setEngine, Function.update_noteq hc]

/-- `prepare_engine_for_spark` returns when no context has a chain of
previous zones without a zone. -/
theorem prepare_engine_for_spark_total (s : Runtime) (me : Nat) (spark : MR_Spark)
    (join_label : MR_Code) (h : ∀ c, init_checks_pass s c) :
    ∃ s', prepare_engine_for_spark s me spark join_label = Outcome.ok s' := by
  unfold prepare_engine_for_spark
  dsimp only
  by_cases hc1 : (s.engines me).MR_eng_this_context ≠ 0 ∧ join_label ≠ MR_Code.null ∧
      (s.sync_terms spark.MR_spark_sync_term).MR_st_orig_context
        ≠ (s.engines me).MR_eng_this_context
  · rw [if_pos hc1]
    simp only [if_true]
    obtain ⟨c, s2, hcr⟩ := create_context_total (save_dirty_context s me join_label)
      (save_dirty_context s me join_label).MR_CONTEXT_SIZE_FOR_SPARK 0
      (fun c => (save_dirty_context_checks s me join_label c).mpr (h c))
    rw [hcr]
    exact ⟨_, rfl⟩
  · rw [if_neg hc1]
    by_cases hc2 : (s.engines me).MR_eng_this_context = 0
    · simp only [hc2, if_true]
      obtain ⟨c, s2, hcr⟩ := create_context_total s s.MR_CONTEXT_SIZE_FOR_SPARK 0 h
      rw [hcr]
      exact ⟨_, rfl⟩
    · simp only [hc2, if_false]
      exact ⟨_, rfl⟩

/-- Readiness looks at the contexts, the head of the run queue, the context
the engine holds and the deques only. -/
theorem idle_ready_congr (fuel : Nat) (s t : Runtime) (me : Nat)
    (hc : t.ctxt = s.ctxt) (hh : t.MR_runqueue_head = s.MR_runqueue_head)
    (hthis : (t.engines me).MR_eng_this_context = (s.engines me).MR_eng_this_context)
    (hdq : ∀ e, (t.engines e).MR_eng_spark_deque = (s.engines e).MR_eng_spark_deque)
    (h : idle_ready fuel s me) : idle_ready fuel t me := by
  obtain ⟨⟨q, h1, h2, h3, h4⟩, h5, h6⟩ := h
  refine ⟨⟨q, ?_, h2, ?_, ?_⟩, ?_, ?_⟩
  · rw [hc, hh]
    exact h1
  · rw [hc]
    exact h3
  · rw [hthis]
    exact h4
  · intro c
    exact (init_checks_pass_congr t s c (by rw [hc])).mpr (h5 c)
  · intro e
    rw [hdq e]
    exact h6 e

/-- `do_local_spark` returns in a ready state, and when it returns null the
state is the one at entry. -/
theorem do_local_spark_total (fuel : Nat) (s : Runtime) (me : Nat) (join_label : MR_Code)
    (h : idle_ready fuel s me) :
    ∃ tramp s1, do_local_spark s me join_label = Outcome.ok (tramp, s1) ∧
      (tramp = MR_Code.null → s1 = s) := by
  obtain ⟨_, h5, h6⟩ := h
  unfold do_local_spark MR_wsdeque_pop_bottom
  cases hl : (s.engines me).MR_eng_spark_deque.getLast? with
  | none => exact ⟨_, _, rfl, fun _ => rfl⟩
  | some spark =>
    simp only
    have hmem : spark ∈ (s.engines me).MR_eng_spark_deque := List.mem_of_getLast?_eq_some hl
    obtain ⟨s2, hs2⟩ := prepare_engine_for_spark_total
      (s.setEngine me
        { s.engines me with MR_eng_spark_deque := (s.engines me).MR_eng_spark_deque.dropLast })
      me spark join_label (fun c => (init_checks_pass_congr _ s c rfl).mpr (h5 c))
    rw [hs2]
    exact ⟨_, _, rfl, fun hn => absurd hn (h6 me spark hmem)⟩

/-- `do_get_context` returns in a ready state, and when it returns null the
state is the one at entry. -/
theorem do_get_context_total (fuel : Nat) (s : Runtime) (me : Nat)
    (h : idle_ready fuel s me) :
    ∃ tramp s1, do_get_context fuel s me = Outcome.ok (tramp, s1) ∧
      (tramp = MR_Code.null → s1 = s) := by
  obtain ⟨⟨q, h1, h2, h3, _⟩, _, _⟩ := h
  obtain ⟨r, s', hs', _, hzero, _, hr, _, _, hpick, _⟩ :=
    find_ready_context_spec fuel s me q h1 h2
  unfold do_get_context
  rw [hs']
  simp only
  by_cases hr0 : r = 0
  · rw [if_neg (not_not.mpr hr0), hzero hr0]
    exact ⟨_, _, rfl, fun _ => rfl⟩
  · rw [if_pos hr0]
    refine ⟨_, _, rfl, fun hn => ?_⟩
    exfalso
    rw [prepare_engine_for_context_resume] at hn
    have hmem := picked_mem _ _ _ q r hr0 hpick
    obtain ⟨n, hn1 | hn1⟩ := hr
    · rw [hn1] at hn
      exact h3 r hmem hn
    · rw [hn1] at hn
      exact h3 r hmem hn

/-- A probe of a deque that yields a spark took it from the top of the deque
of some engine and changed nothing else. -/
theorem steal_from_some (s : Runtime) (j : Nat) (spark : MR_Spark) (t : Runtime)
    (h : steal_from s j = (some spark, t)) :
    ∃ victim rest, (s.engines victim).MR_eng_spark_deque = spark :: rest ∧
      t = s.setEngine victim { s.engines victim with MR_eng_spark_deque := rest } := by
  unfold steal_from at h
  cases hd : s.MR_spark_deques j with
  | none =>
    rw [hd] at h
    cases h
  | some victim =>
    rw [hd] at h
    simp only at h
    cases hq : (s.engines victim).MR_eng_spark_deque with
    | nil =>
      rw [hq] at h
      cases h
    | cons a rest =>
      rw [hq] at h
      simp only [MR_wsdeque_steal_top] at h
      cases h
      exact ⟨victim, rest, hq, rfl⟩

/-- `do_work_steal` returns in a ready state, and when it returns null the
state is the one at entry, up to the victim counter of the engine. -/
theorem do_work_steal_total (fuel : Nat) (s : Runtime) (me : Nat) (join_label : MR_Code)
    (h : idle_ready fuel s me) :
    ∃ tramp s1, do_work_steal s me join_label = Outcome.ok (tramp, s1) ∧
      (tramp = MR_Code.null →
        s1 = s ∨ s1 = s.setEngine me { s.engines me with MR_eng_victim_counter := 0 }) := by
  obtain ⟨_, h5, h6⟩ := h
  unfold do_work_steal
  by_cases hcap : (s.engines me).MR_eng_this_context = 0 ∧
      s.MR_max_outstanding_contexts ≤ s.MR_num_outstanding_contexts
  · rw [if_neg (not_not.mpr hcap)]
    exact ⟨_, _, rfl, fun _ => Or.inl rfl⟩
  · rw [if_pos hcap]
    cases hA : MR_attempt_steal_spark s me with
    | mk a1 a2 =>
      rcases attempt_steal_spark_spec s me with ⟨e1, _, e3⟩ | ⟨i, spark, t, _, _, _, e4, e5, e6⟩
      · rw [hA] at e1 e3
        simp only at e1 e3
        subst e1
        exact ⟨_, _, rfl, fun _ => Or.inr e3⟩
      · rw [hA] at e5 e6
        simp only at e5 e6
        subst e5
        obtain ⟨victim, rest, hq, ht⟩ := steal_from_some s _ spark t e4
        have hmem : spark ∈ (s.engines victim).MR_eng_spark_deque := by
          rw [hq]
          exact List.mem_cons_self _ _
        have hctxt : a2.ctxt = s.ctxt := by
          rw [e6, ht]
          rfl
        obtain ⟨s2, hs2⟩ := prepare_engine_for_spark_total a2 me spark join_label
          (fun c => (init_checks_pass_congr a2 s c (by rw [hctxt])).mpr (h5 c))
        simp only
        rw [hs2]
        exact ⟨_, _, rfl, fun hn => absurd hn (h6 victim spark hmem)⟩

/-- Every step of an idle path returns in a ready state, and when it yields
no work the state is ready for the next step. -/
theorem run_idle_probe_total (fuel : Nat) (s : Runtime) (me : Nat) (p : IdleProbe)
    (h : idle_ready fuel s me) :
    ∃ tramp s1, run_idle_probe fuel s me p = Outcome.ok (tramp, s1) ∧
      (tramp = MR_Code.null → idle_ready fuel s1 me) := by
  cases p with
  | local_spark j =>
    obtain ⟨tramp, s1, h1, h2⟩ := do_local_spark_total fuel s me j h
    exact ⟨tramp, s1, h1, fun hn => by rw [h2 hn]; exact h⟩
  | advertise_idle =>
    exact ⟨_, _, rfl, fun _ => idle_ready_congr fuel s _ me rfl rfl rfl (fun _ => rfl) h⟩
  | get_context =>
    obtain ⟨tramp, s1, h1, h2⟩ := do_get_context_total fuel s me h
    exact ⟨tramp, s1, h1, fun hn => by rw [h2 hn]; exact h⟩
  | work_steal j =>
    obtain ⟨tramp, s1, h1, h2⟩ := do_work_steal_total fuel s me j h
    refine ⟨tramp, s1, h1, fun hn => ?_⟩
    rcases h2 hn with e | e
    · rw [e]
      exact h
    · rw [e]
      refine idle_ready_congr fuel s _ me rfl rfl ?_ (fun e' => ?_) h
      · simp
      · by_cases he : e' = me
        · rw [he]
          simp
        · rw [setEngine_engines_other _ _ _ _ he]
  | save_dirty_context j =>
    refine ⟨_, _, rfl, fun _ => ?_⟩
    obtain ⟨⟨q, h1, h2, h3, h4⟩, h5, h6⟩ := h
    have hnext : ∀ a, ((save_dirty_context s me j).ctxt a).MR_ctxt_next
        = (s.ctxt a).MR_ctxt_next := by
      intro a
      unfold save_dirty_context MR_save_context
      by_cases ha : a = (s.engines me).MR_eng_this_context
      · rw [← ha]
        simp [Runtime.setCtxt, Runtime.setEngine]
      · simp [Runtime.setCtxt, Runtime.setEngine, Function.update_noteq ha]
    have hres : ∀ a, a ≠ (s.engines me).MR_eng_this_context →
        ((save_dirty_context s me j).ctxt a).MR_ctxt_resume = (s.ctxt a).MR_ctxt_resume := by
      intro a ha
      unfold save_dirty_context MR_save_context
      simp [Runtime.setCtxt, Runtime.setEngine, Function.update_noteq ha]
    refine ⟨⟨q, ?_, h2, ?_, ?_⟩, ?_, ?_⟩
    · have hhead : (save_dirty_context s me j).MR_runqueue_head = s.MR_runqueue_head := rfl
      rw [hhead]
      exact (is_chain_congr s.ctxt _ q _ (fun a _ => hnext a)).mp h1
    · intro a ha
      rw [hres a (fun e => h4 (e ▸ ha))]
      exact h3 a ha
    · rw [(save_dirty_context_spec s me j).2.2.1]
      exact fun h0 => is_chain_ne_zero _ _ _ h1 0 h0 rfl
    · intro c
      exact (save_dirty_context_checks s me j c).mpr (h5 c)
    · intro e
      have : ((save_dirty_context s me j).engines e).MR_eng_spark_deque
          = (s.engines e).MR_eng_spark_deque := by
        unfold save_dirty_context MR_save_context
        by_cases he : e = me
        · rw [he]
          simp [Runtime.setCtxt, Runtime.setEngine]
        · simp [Runtime.setCtxt, Runtime.setEngine, Function.update_noteq he]
      rw [this]
      exact h6 e

/-- An idle path returns in a ready state. -/
theorem idle_path_total (fuel me : Nat) :
    ∀ (ps : List IdleProbe) (advertised : Bool) (s : Runtime), idle_ready fuel s me →
      ∃ r, idle_path fuel me ps advertised s = Outcome.ok r := by
  intro ps
  induction ps with
  | nil => intro _ s _; exact ⟨_, rfl⟩
  | cons p ps ih =>
    intro advertised s h
    obtain ⟨tramp, s1, h1, h2⟩ := run_idle_probe_total fuel s me p h
    simp only [idle_path, h1]
    by_cases ht : tramp = MR_Code.null
    · simp only [ht, ne_eq, not_true_eq_false, if_false]
      exact ih _ s1 (h2 ht)
    · simp only [ht, ne_eq, not_false_eq_true, if_true]
      exact ⟨_, rfl⟩

/-! ## The idle entries: order of the probes -/

/-- `save_dirty_context` has cleared the context slot of the engine already. -/
theorem save_dirty_context_clears (s : Runtime) (me : Nat) (join_label : MR_Code) :
    (save_dirty_context s me join_label).setEngine me
      { (save_dirty_context s me join_label).engines me with MR_eng_this_context := 0 }
      = save_dirty_context s me join_label := by
  unfold save_dirty_context
  simp [Runtime.setEngine, Runtime.setCtxt, MR_save_context]

/-- The entry `MR_do_idle` is the initial path of the spec. -/
theorem do_idle_eq_path (fuel : Nat) (s : Runtime) (me : Nat) :
    MR_do_idle fuel s me = idle_path_jump (idle_path fuel me initial_path false s) := by
  unfold MR_do_idle MR_MAYBE_TRAMPOLINE MR_MAYBE_TRAMPOLINE_AND_ACTION initial_path
  simp only [idle_path, run_idle_probe]
  cases do_local_spark s me MR_Code.null with
  | fatal_error msg => rfl
  | out_of_fuel => rfl
  | ok p1 =>
    obtain ⟨t1, s1⟩ := p1
    by_cases h1 : t1 = MR_Code.null
    swap
    · simp [h1, idle_path_jump]
    simp only [h1, ne_eq, not_true_eq_false, if_false]
    cases do_get_context fuel (advertise_engine_state_idle s1 me) me with
    | fatal_error msg => rfl
    | out_of_fuel => rfl
    | ok p2 =>
      obtain ⟨t2, s2⟩ := p2
      by_cases h2 : t2 = MR_Code.null
      swap
      · simp [h2, idle_path_jump]
      simp only [h2, ne_eq, not_true_eq_false, if_false]
      cases do_work_steal s2 me MR_Code.null with
      | fatal_error msg => rfl
      | out_of_fuel => rfl
      | ok p3 =>
        obtain ⟨t3, s3⟩ := p3
        by_cases h3 : t3 = MR_Code.null
        · simp [h3, idle_path_jump, idle_path]
        · simp [h3, idle_path_jump]

/-- The entry `MR_do_idle_clean_context` is the clean path of the spec. -/
theorem do_idle_clean_eq_path (fuel : Nat) (s : Runtime) (me : Nat) :
    MR_do_idle_clean_context fuel s me
      = idle_path_jump (idle_path fuel me clean_path false s) := by
  unfold MR_do_idle_clean_context MR_MAYBE_TRAMPOLINE MR_MAYBE_TRAMPOLINE_AND_ACTION clean_path
  simp only [idle_path, run_idle_probe]
  cases do_local_spark s me MR_Code.null with
  | fatal_error msg => rfl
  | out_of_fuel => rfl
  | ok p1 =>
    obtain ⟨t1, s1⟩ := p1
    by_cases h1 : t1 = MR_Code.null
    swap
    · simp [h1, idle_path_jump]
    simp only [h1, ne_eq, not_true_eq_false, if_false]
    cases do_work_steal (advertise_engine_state_idle s1 me) me MR_Code.null with
    | fatal_error msg => rfl
    | out_of_fuel => rfl
    | ok p2 =>
      obtain ⟨t2, s2⟩ := p2
      by_cases h2 : t2 = MR_Code.null
      swap
      · simp [h2, idle_path_jump]
      simp only [h2, ne_eq, not_true_eq_false, if_false]
      cases do_get_context fuel s2 me with
      | fatal_error msg => rfl
      | out_of_fuel => rfl
      | ok p3 =>
        obtain ⟨t3, s3⟩ := p3
        by_cases h3 : t3 = MR_Code.null
        · simp [h3, idle_path_jump, idle_path]
        · simp [h3, idle_path_jump]

/-- The entry `MR_do_idle_dirty_context` is the dirty path of the spec, with
the join label read from `MR_r1`. -/
theorem do_idle_dirty_eq_path (fuel : Nat) (s : Runtime) (me : Nat) :
    MR_do_idle_dirty_context fuel s me
      = idle_path_jump (idle_path fuel me (dirty_path (s.engines me).MR_r1) false s) := by
  unfold MR_do_idle_dirty_context MR_MAYBE_TRAMPOLINE MR_MAYBE_TRAMPOLINE_AND_ACTION dirty_path
  simp only [idle_path, run_idle_probe]
  cases do_local_spark s me (s.engines me).MR_r1 with
  | fatal_error msg => rfl
  | out_of_fuel => rfl
  | ok p1 =>
    obtain ⟨t1, s1⟩ := p1
    by_cases h1 : t1 = MR_Code.null
    swap
    · simp [h1, idle_path_jump]
    simp only [h1, ne_eq, not_true_eq_false, if_false]
    cases do_work_steal (advertise_engine_state_idle s1 me) me (s.engines me).MR_r1 with
    | fatal_error msg => rfl
    | out_of_fuel => rfl
    | ok p2 =>
      obtain ⟨t2, s2⟩ := p2
      by_cases h2 : t2 = MR_Code.null
      swap
      · simp [h2, idle_path_jump]
      simp only [h2, ne_eq, not_true_eq_false, if_false, save_dirty_context_clears]
      cases do_get_context fuel (save_dirty_context s2 me (s.engines me).MR_r1) me with
      | fatal_error msg => rfl
      | out_of_fuel => rfl
      | ok p3 =>
        obtain ⟨t3, s3⟩ := p3
        by_cases h3 : t3 = MR_Code.null
        · simp [h3, idle_path_jump, idle_path]
        · simp [h3, idle_path_jump]

/-- A step of an idle path other than the advertisement leaves the protocol
part alone. -/
theorem run_idle_probe_protocol (fuel : Nat) (s : Runtime) (me : Nat) (p : IdleProbe)
    (tramp : MR_Code) (s1 : Runtime) (hp : p ≠ IdleProbe.advertise_idle)
    (h : run_idle_probe fuel s me p = Outcome.ok (tramp, s1)) :
    s1.protocol = s.protocol := by
  cases p with
  | local_spark j => exact do_local_spark_protocol _ _ _ _ _ h
  | advertise_idle => exact absurd rfl hp
  | get_context => exact do_get_context_protocol _ _ _ _ _ h
  | work_steal j => exact do_work_steal_protocol _ _ _ _ _ h
  | save_dirty_context j =>
    simp only [run_idle_probe] at h
    cases h
    rfl

/-- The working advertisement depends on the protocol part only. -/
theorem advertise_working_protocol (s t : Runtime) (me : Nat) (h : s.protocol = t.protocol) :
    (advertise_engine_state_working s me).protocol
      = (advertise_engine_state_working t me).protocol := by
  unfold Runtime.protocol at h
  simp only [Prod.mk.injEq] at h
  obtain ⟨h1, h2, h3, h4⟩ := h
  unfold advertise_engine_state_working Runtime.protocol Runtime.setSync
  simp [h1, h2, h3, h4]

/-- After the idle advertisement: a probe that yields work puts the engine
back to work, and when none does the engine goes to sleep as it is. -/
theorem idle_path_advertised (fuel me : Nat) :
    ∀ (rest : List IdleProbe), IdleProbe.advertise_idle ∉ rest →
      ∀ (s : Runtime) (r : Option IdleProbe) (tramp : MR_Code) (s' : Runtime),
        idle_path fuel me rest true s = Outcome.ok (r, tramp, s') →
        (∀ p, r = some p →
          p ∈ rest ∧ s'.protocol = (advertise_engine_state_working s me).protocol) ∧
        (r = none → tramp = MR_ENTRY MR_Entry.MR_do_sleep ∧ s'.protocol = s.protocol) := by
  intro rest
  induction rest with
  | nil =>
    intro _ s r tramp s' h
    simp only [idle_path] at h
    cases h
    exact ⟨fun p h => Option.noConfusion h, fun _ => ⟨rfl, rfl⟩⟩
  | cons p ps ih =>
    intro hmem s r tramp s' h
    have hp : p ≠ IdleProbe.advertise_idle := fun e => hmem (e ▸ List.mem_cons_self _ _)
    have hps : IdleProbe.advertise_idle ∉ ps := fun e => hmem (List.mem_cons_of_mem _ e)
    simp only [idle_path] at h
    cases hrun : run_idle_probe fuel s me p with
    | fatal_error msg =>
      rw [hrun] at h
      cases h
    | out_of_fuel =>
      rw [hrun] at h
      cases h
    | ok q =>
      obtain ⟨t1, s1⟩ := q
      rw [hrun] at h
      have hfr := run_idle_probe_protocol fuel s me p t1 s1 hp hrun
      by_cases ht : t1 = MR_Code.null
      · simp only [ht, ne_eq, not_true_eq_false, if_false, Bool.true_or] at h
        obtain ⟨h1, h2⟩ := ih hps s1 r tramp s' h
        refine ⟨fun q hr => ?_, fun hr => ?_⟩
        · obtain ⟨e1, e2⟩ := h1 q hr
          exact ⟨List.mem_cons_of_mem _ e1,
            e2.trans (advertise_working_protocol _ _ _ hfr)⟩
        · obtain ⟨e1, e2⟩ := h2 hr
          exact ⟨e1, e2.trans hfr⟩
      · simp only [ht, ne_eq, not_false_eq_true, if_true] at h
        cases h
        refine ⟨fun q hr => ?_, fun hr => by cases hr⟩
        cases hr
        exact ⟨List.mem_cons_self _ _, advertise_working_protocol _ _ _ hfr⟩

/-- An idle path that starts with the local spark and the idle advertisement:
either the local spark yields work and the protocol part is as at entry, or a
later probe yields work and the engine has advertised IDLE and then WORKING,
or nothing yields work and the engine goes to sleep having advertised
IDLE. -/
theorem idle_path_outcome (fuel me : Nat) (join_label : MR_Code) (rest : List IdleProbe)
    (hrest : IdleProbe.advertise_idle ∉ rest)
    (s : Runtime) (r : Option IdleProbe) (tramp : MR_Code) (s' : Runtime)
    (h : idle_path fuel me
      (IdleProbe.local_spark join_label :: IdleProbe.advertise_idle :: rest) false s
        = Outcome.ok (r, tramp, s')) :
    (r = some (IdleProbe.local_spark join_label) ∧ s'.protocol = s.protocol) ∨
    ((∃ p ∈ rest, r = some p) ∧
      s'.protocol = (advertise_engine_state_working
        (advertise_engine_state_idle s me) me).protocol) ∨
    (r = none ∧ tramp = MR_ENTRY MR_Entry.MR_do_sleep ∧
      s'.protocol = (advertise_engine_state_idle s me).protocol) := by
  simp only [idle_path, run_idle_probe] at h
  cases hrun : do_local_spark s me join_label with
  | fatal_error msg =>
    rw [hrun] at h
    cases h
  | out_of_fuel =>
    rw [hrun] at h
    cases h
  | ok q =>
    obtain ⟨t1, s1⟩ := q
    rw [hrun] at h
    have hfr := do_local_spark_protocol _ _ _ _ _ hrun
    by_cases ht : t1 = MR_Code.null
    · simp only [ht, ne_eq, not_true_eq_false, if_false, decide_True, Bool.or_true] at h
      have hidle : (advertise_engine_state_idle s1 me).protocol
          = (advertise_engine_state_idle s me).protocol := by
        unfold Runtime.protocol at hfr
        simp only [Prod.mk.injEq] at hfr
        obtain ⟨h1, h2, h3, h4⟩ := hfr
        unfold advertise_engine_state_idle Runtime.protocol Runtime.setSync
        simp [h1, h2, h3, h4]
      obtain ⟨h1, h2⟩ := idle_path_advertised fuel me rest hrest _ r tramp s' h
      cases r with
      | none =>
        obtain ⟨e1, e2⟩ := h2 rfl
        exact Or.inr (Or.inr ⟨rfl, e1, e2.trans hidle⟩)
      | some p =>
        obtain ⟨e1, e2⟩ := h1 p rfl
        exact Or.inr (Or.inl ⟨⟨p, e1, rfl⟩,
          e2.trans (advertise_working_protocol _ _ _ hidle)⟩)
    · simp only [ht, ne_eq, not_false_eq_true, if_true] at h
      cases h
      exact Or.inl ⟨rfl, hfr⟩

/-- The idle entries and the table of section 4.E of the spec: each entry
runs its probes in the order of the table and takes the first that yields
work.  `MR_do_idle` is the path local spark, advertise IDLE, get-context,
work-steal, sleep; `MR_do_idle_clean_context` the path local spark, advertise
IDLE, work-steal, get-context, sleep; `MR_do_idle_dirty_context` the path
local spark with the join label, advertise IDLE, work-steal with the join
label, save the dirty context, get-context, sleep.  Whenever a probe yields
work the idle count is the one at entry; when it is the local spark that
yields, no synchroniser has changed at all, so the engine has the state it
entered with; when a later probe yields the engine is WORKING; when no probe
yields work the engine jumps to `MR_do_sleep` in state IDLE with the idle
count raised by one.  The entries do return: in a state where the run queue
is a finite chain of at most `fuel` contexts with resume points that does
not hold the context of the engine, no context has previous zones without a
zone, and every spark has a resume point, each of the three entries ends in
a jump. -/
theorem idle_entries_probe_order (fuel : Nat) (s : Runtime) (me : Nat) :
    MR_do_idle fuel s me = idle_path_jump (idle_path fuel me initial_path false s) ∧
    MR_do_idle_clean_context fuel s me
      = idle_path_jump (idle_path fuel me clean_path false s) ∧
    MR_do_idle_dirty_context fuel s me
      = idle_path_jump (idle_path fuel me (dirty_path (s.engines me).MR_r1) false s) ∧
    (∀ path, path = initial_path ∨ path = clean_path ∨
        path = dirty_path (s.engines me).MR_r1 →
      ∀ r tramp s', idle_path fuel me path false s = Outcome.ok (r, tramp, s') →
        (r ≠ none → s'.MR_num_idle_engines = s.MR_num_idle_engines) ∧
        (r = path.head? → s'.engine_sleep_sync_data = s.engine_sleep_sync_data) ∧
        (r ≠ none → r ≠ path.head? →
          (s'.engine_sleep_sync_data me).es_state = ENGINE_STATE_WORKING) ∧
        (r = none →
          tramp = MR_ENTRY MR_Entry.MR_do_sleep ∧
          (s'.engine_sleep_sync_data me).es_state = ENGINE_STATE_IDLE ∧
          s'.MR_num_idle_engines = s.MR_num_idle_engines + 1)) ∧
    (idle_ready fuel s me →
      (∃ tramp s', MR_do_idle fuel s me = Outcome.ok (tramp, s')) ∧
      (∃ tramp s', MR_do_idle_clean_context fuel s me = Outcome.ok (tramp, s')) ∧
      (∃ tramp s', MR_do_idle_dirty_context fuel s me = Outcome.ok (tramp, s'))) := by
  refine ⟨do_idle_eq_path fuel s me, do_idle_clean_eq_path fuel s me,
    do_idle_dirty_eq_path fuel s me, ?_, ?_⟩
  swap
  · intro hready
    refine ⟨?_, ?_, ?_⟩
    · obtain ⟨r, hr⟩ := idle_path_total fuel me initial_path false s hready
      rw [do_idle_eq_path, hr]
      exact ⟨_, _, rfl⟩
    · obtain ⟨r, hr⟩ := idle_path_total fuel me clean_path false s hready
      rw [do_idle_clean_eq_path, hr]
      exact ⟨_, _, rfl⟩
    · obtain ⟨r, hr⟩ := idle_path_total fuel me (dirty_path (s.engines me).MR_r1) false s
        hready
      rw [do_idle_dirty_eq_path, hr]
      exact ⟨_, _, rfl⟩
  intro path hpath r tramp s' h
  have hshape : ∃ j rest, path = IdleProbe.local_spark j :: IdleProbe.advertise_idle :: rest ∧
      IdleProbe.advertise_idle ∉ rest ∧ (∀ p ∈ rest, p ≠ IdleProbe.local_spark j) := by
    rcases hpath with hp | hp | hp
    · exact ⟨MR_Code.null, [IdleProbe.get_context, IdleProbe.work_steal MR_Code.null],
        hp, by decide, by decide⟩
    · exact ⟨MR_Code.null, [IdleProbe.work_steal MR_Code.null, IdleProbe.get_context],
        hp, by decide, by decide⟩
    · refine ⟨(s.engines me).MR_r1, [IdleProbe.work_steal (s.engines me).MR_r1,
        IdleProbe.save_dirty_context (s.engines me).MR_r1, IdleProbe.get_context],
        hp, ?_, ?_⟩
      · simp
      · simp
  obtain ⟨j, rest, hpe, hrest, hnl⟩ := hshape
  subst hpe
  have hwork : ((advertise_engine_state_working
      (advertise_engine_state_idle s me) me).engine_sleep_sync_data me).es_state
        = ENGINE_STATE_WORKING ∧
      (advertise_engine_state_working (advertise_engine_state_idle s me) me).MR_num_idle_engines
        = s.MR_num_idle_engines := by
    unfold advertise_engine_state_working advertise_engine_state_idle
    simp [Runtime.setSync]
  have hidle : ((advertise_engine_state_idle s me).engine_sleep_sync_data me).es_state
        = ENGINE_STATE_IDLE ∧
      (advertise_engine_state_idle s me).MR_num_idle_engines = s.MR_num_idle_engines + 1 := by
    unfold advertise_engine_state_idle
    simp [Runtime.setSync]
  have hproj : ∀ a b : Runtime, a.protocol = b.protocol →
      a.engine_sleep_sync_data = b.engine_sleep_sync_data ∧
      a.MR_num_idle_engines = b.MR_num_idle_engines := by
    intro a b hab
    unfold Runtime.protocol at hab
    simp only [Prod.mk.injEq] at hab
    exact ⟨hab.1, hab.2.1⟩
  rcases idle_path_outcome fuel me j rest hrest s r tramp s' h with
    ⟨hr, hp⟩ | ⟨⟨p, hpm, hr⟩, hp⟩ | ⟨hr, ht, hp⟩
  · obtain ⟨e1, e2⟩ := hproj _ _ hp
    refine ⟨fun _ => e2, fun _ => e1, fun _ hh => ?_, fun hn => ?_⟩
    · rw [hr] at hh
      exact absurd rfl hh
    · rw [hr] at hn
      cases hn
  · obtain ⟨e1, e2⟩ := hproj _ _ hp
    refine ⟨fun _ => e2.trans hwork.2, fun hh => ?_, fun _ _ => by rw [e1]; exact hwork.1,
      fun hn => ?_⟩
    · rw [hr] at hh
      simp only [List.head?_cons, Option.some.injEq] at hh
      exact absurd hh (hnl p hpm)
    · rw [hr] at hn
      cases hn
  · obtain ⟨e1, e2⟩ := hproj _ _ hp
    refine ⟨fun hn => absurd hr hn, fun hh => ?_, fun hn => absurd hr hn,
      fun _ => ⟨ht, by rw [e1]; exact hidle.1, e2.trans hidle.2⟩⟩
    rw [hr] at hh
    simp at hh

/-- The example state is ready for engine 0 to enter an idle entry. -/
theorem idle_both_ready : idle_ready 4 idle_both 0 := by
  refine ⟨⟨[5], by decide, by decide, by decide, by decide⟩, ?_, ?_⟩
  · intro c
    unfold init_checks_pass idle_both
    by_cases hc : c = 5
    · subst hc
      decide
    · simp [Runtime.setCtxt, Runtime.setEngine, Runtime.setSyncTerm, MR_init_context_stuff,
        zero_context, Function.update_noteq hc]
  · intro e spark hmem
    unfold idle_both at hmem
    by_cases he : e = 1
    · subst he
      simp [Runtime.setCtxt, Runtime.setEngine, Runtime.setSyncTerm] at hmem
      subst hmem
      decide
    · simp [Runtime.setCtxt, Runtime.setEngine, Runtime.setSyncTerm, MR_init_context_stuff,
        zero_engine, Function.update_noteq he] at hmem

/-- An instance of the idle entries: engine 0, WORKING, with a context in the
run queue and a spark in the deque of engine 1.  Entered through
`MR_do_idle` it takes the context (get-context comes first) and jumps to
`label 9`; entered through `MR_do_idle_clean_context` it steals the spark
(work-steal comes first) and jumps to `label 4`.  Both times it is WORKING
afterwards and the idle count is 0 as before. -/
theorem idle_entries_probe_order_witness :
    (∃ s', idle_path 4 0 initial_path false idle_both
        = Outcome.ok (some IdleProbe.get_context, MR_Code.label 9, s') ∧
      MR_do_idle 4 idle_both 0 = Outcome.ok (MR_Code.label 9, s') ∧
      (s'.engine_sleep_sync_data 0).es_state = ENGINE_STATE_WORKING ∧
      s'.MR_num_idle_engines = idle_both.MR_num_idle_engines) ∧
    (∃ s', idle_path 4 0 clean_path false idle_both
        = Outcome.ok (some (IdleProbe.work_steal MR_Code.null), MR_Code.label 4, s') ∧
      MR_do_idle_clean_context 4 idle_both 0 = Outcome.ok (MR_Code.label 4, s') ∧
      (s'.engine_sleep_sync_data 0).es_state = ENGINE_STATE_WORKING ∧
      s'.MR_num_idle_engines = idle_both.MR_num_idle_engines) ∧
    idle_ready 4 idle_both 0 ∧
    (∃ tramp s', MR_do_idle_dirty_context 4 idle_both 0 = Outcome.ok (tramp, s')) :=
  ⟨⟨_, rfl, rfl,
      ((idle_entries_probe_order 4 idle_both 0).2.2.2.1 initial_path (Or.inl rfl)
        _ _ _ rfl).2.2.1 (fun h => Option.noConfusion h) (by decide),
      ((idle_entries_probe_order 4 idle_both 0).2.2.2.1 initial_path (Or.inl rfl)
        _ _ _ rfl).1 (fun h => Option.noConfusion h)⟩,
    ⟨_, rfl, rfl,
      ((idle_entries_probe_order 4 idle_both 0).2.2.2.1 clean_path
        (Or.inr (Or.inl rfl)) _ _ _ rfl).2.2.1 (fun h => Option.noConfusion h) (by decide),
      ((idle_entries_probe_order 4 idle_both 0).2.2.2.1 clean_path
        (Or.inr (Or.inl rfl)) _ _ _ rfl).1 (fun h => Option.noConfusion h)⟩,
    idle_both_ready,
    ((idle_entries_probe_order 4 idle_both 0).2.2.2.2 idle_both_ready).2.2⟩

/-- C21, the code leaves the engine WOKEN: engine 1 goes idle and to sleep;
engine 0 schedules context 5, which wakes engine 1 with the action CONTEXT;
engine 1 resumes context 5 at `label 9`, in state WOKEN, since the CONTEXT
case of `MR_do_sleep` jumps without `advertise_engine_state_working`.  The
code of context 5 starts a parallel conjunction of two conjuncts (sync-term
7), pushes the spark of the second on the deque of engine 1 and, at the end
of the first, calls `MR_do_join_and_continue`, which sends the engine to
`MR_do_idle_dirty_context` with the join label `label 8`.  The local spark
yields work (the probe taken is the first of the path, the jump goes to
`label 4` and the idle count stays as it was), but the engine is left WOKEN,
not WORKING. -/
theorem local_spark_leaves_engine_woken :
    ∃ s1 s2 s3 s4 s5 s6,
      MR_do_idle 4 idle_count_start 1 = Outcome.ok (MR_ENTRY MR_Entry.MR_do_sleep, s1) ∧
      MR_do_sleep 1 4 s1 1 = Outcome.ok (SleepResult.blocked s2) ∧
      MR_schedule_context s2 0 5 = some s3 ∧
      MR_do_sleep_from_wait 4 1 1 s3 = Outcome.ok (SleepResult.jump (MR_Code.label 9) s4) ∧
      (s4.engines 1).MR_eng_this_context = 5 ∧
      (s4.engine_sleep_sync_data 1).es_state = ENGINE_STATE_WOKEN ∧
      MR_do_join_and_continue 4 (spark_pushed s4 1 5) 1 7 (MR_Code.label 8)
        = (some (MR_ENTRY MR_Entry.MR_do_idle_dirty_context), s5) ∧
      idle_path 4 1 (dirty_path (MR_Code.label 8)) false s5
        = Outcome.ok (some (IdleProbe.local_spark (MR_Code.label 8)), MR_Code.label 4, s6) ∧
      MR_do_idle_dirty_context 4 s5 1 = Outcome.ok (MR_Code.label 4, s6) ∧
      s6.MR_num_idle_engines = s5.MR_num_idle_engines ∧
      (s6.engine_sleep_sync_data 1).es_state = ENGINE_STATE_WOKEN ∧
      (s6.engine_sleep_sync_data 1).es_state ≠ ENGINE_STATE_WORKING :=
  ⟨_, _, _, _, _, _, rfl, rfl, rfl, rfl, by decide, by decide, rfl, rfl, rfl, by decide,
    by decide, by decide⟩

/-! ## Shutdown -/

/-- Every one of the four states has a bit in `ENGINE_STATE_ALL`. -/
theorem valid_state_in_all (st : Nat) (h : valid_engine_state st) :
    st &&& ENGINE_STATE_ALL ≠ 0 := by
  rcases h with h | h | h | h <;> subst h <;> decide

/-- The first loop of `MR_shutdown_all_engines` from iteration
`MR_num_threads - k` on: every engine of the rest other than the caller is
signalled with the action SHUTDOWN, and nothing else changes. -/
theorem shutdown_wake_loop_eq (me : Nat) :
    ∀ (k : Nat) (s : Runtime), k ≤ s.MR_num_threads →
      (∀ j, s.MR_num_threads - k ≤ j → j < s.MR_num_threads → j ≠ me →
        0 < (s.engine_sleep_sync_data j).es_wake_semaphore ∧
        valid_engine_state (s.engine_sleep_sync_data j).es_state) →
      MR_shutdown_all_engines_wake_loop me k s = some
        { s with engine_sleep_sync_data := fun j =>
            if s.MR_num_threads - k ≤ j ∧ j < s.MR_num_threads ∧ j ≠ me then
              (signalled s j MR_EngineAction.MR_ENGINE_ACTION_SHUTDOWN
                none).engine_sleep_sync_data j
            else s.engine_sleep_sync_data j } := by
  intro k
  induction k with
  | zero =>
    intro s _ _
    simp only [MR_shutdown_all_engines_wake_loop]
    congr 1
    have : (fun j => if s.MR_num_threads - 0 ≤ j ∧ j < s.MR_num_threads ∧ j ≠ me then
        (signalled s j MR_EngineAction.MR_ENGINE_ACTION_SHUTDOWN none).engine_sleep_sync_data j
        else s.engine_sleep_sync_data j) = s.engine_sleep_sync_data := by
      funext j
      have : ¬ (s.MR_num_threads - 0 ≤ j ∧ j < s.MR_num_threads ∧ j ≠ me) := by omega
      rw [if_neg this]
    rw [this]
  | succ k ih =>
    intro s hk hyp
    simp only [MR_shutdown_all_engines_wake_loop, MR_shutdown_all_engines_wake]
    by_cases hme : s.MR_num_threads - (k + 1) = me
    · rw [if_pos hme]
      simp only
      rw [ih s (by omega) (fun j h1 h2 h3 => hyp j (by omega) h2 h3)]
      congr 2
      funext j
      by_cases hj : j = me
      · have c1 : ¬ (s.MR_num_threads - k ≤ j ∧ j < s.MR_num_threads ∧ j ≠ me) :=
          fun h => h.2.2 hj
        have c2 : ¬ (s.MR_num_threads - (k + 1) ≤ j ∧ j < s.MR_num_threads ∧ j ≠ me) :=
          fun h => h.2.2 hj
        rw [if_neg c1, if_neg c2]
      · have hiff : (s.MR_num_threads - k ≤ j ∧ j < s.MR_num_threads ∧ j ≠ me) ↔
            (s.MR_num_threads - (k + 1) ≤ j ∧ j < s.MR_num_threads ∧ j ≠ me) := by
          constructor
          · rintro ⟨a, b, c⟩
            exact ⟨by omega, b, c⟩
          · rintro ⟨a, b, c⟩
            refine ⟨?_, b, c⟩
            have : j ≠ s.MR_num_threads - (k + 1) := fun e => hj (e.trans hme)
            omega
        simp only [hiff]
    · rw [if_neg hme]
      obtain ⟨hw, hv⟩ := hyp (s.MR_num_threads - (k + 1)) (Nat.le_refl _) (by omega) hme
      rw [try_wake_engine_accepted s _ _ none ENGINE_STATE_ALL hw (valid_state_in_all _ hv)]
      simp only [Option.map_some']
      have hs1 : ∀ j, j ≠ s.MR_num_threads - (k + 1) →
          (signalled s (s.MR_num_threads - (k + 1)) MR_EngineAction.MR_ENGINE_ACTION_SHUTDOWN
            none).engine_sleep_sync_data j = s.engine_sleep_sync_data j :=
        fun j hj => setSync_other _ _ _ _ hj
      have hstep := ih (signalled s (s.MR_num_threads - (k + 1))
        MR_EngineAction.MR_ENGINE_ACTION_SHUTDOWN none) (by
          show k ≤ s.MR_num_threads
          omega) (by
          intro j h1 h2 h3
          have h1' : s.MR_num_threads - k ≤ j := h1
          have h2' : j < s.MR_num_threads := h2
          rw [hs1 j (by omega)]
          exact hyp j (by omega) h2' h3)
      refine hstep.trans ?_
      simp only [signalled, Runtime.setSync, Option.some.injEq]
      congr 1
      funext j
      by_cases hj : j = s.MR_num_threads - (k + 1)
      · subst hj
        have c1 : ¬ (s.MR_num_threads - k ≤ s.MR_num_threads - (k + 1) ∧
            s.MR_num_threads - (k + 1) < s.MR_num_threads ∧
            s.MR_num_threads - (k + 1) ≠ me) := by omega
        have c2 : (s.MR_num_threads - (k + 1) ≤ s.MR_num_threads - (k + 1) ∧
            s.MR_num_threads - (k + 1) < s.MR_num_threads ∧
            s.MR_num_threads - (k + 1) ≠ me) := ⟨Nat.le_refl _, by omega, hme⟩
        rw [if_neg c1, if_pos c2]
      · have hiff : (s.MR_num_threads - k ≤ j ∧ j < s.MR_num_threads ∧ j ≠ me) ↔
            (s.MR_num_threads - (k + 1) ≤ j ∧ j < s.MR_num_threads ∧ j ≠ me) := by
          constructor
          · rintro ⟨a, b, c⟩
            exact ⟨by omega, b, c⟩
          · rintro ⟨a, b, c⟩
            exact ⟨by omega, b, c⟩
        simp only [hiff, Function.update_noteq hj, Function.update_same]

/-- The second loop of `MR_shutdown_all_engines`: `k` waits return when the
shutdown semaphore has been posted at least `k` times, and take `k` from its
count; otherwise the caller takes the posts there are and blocks with the
rest of the waits to go. -/
theorem shutdown_wait_loop_eq :
    ∀ (k : Nat) (s : Runtime),
      MR_shutdown_all_engines_wait_loop k s =
        if k ≤ s.shutdown_semaphore then
          ShutdownResult.returned { s with shutdown_semaphore := s.shutdown_semaphore - k }
        else
          ShutdownResult.blocked (k - s.shutdown_semaphore)
            { s with shutdown_semaphore := 0 } := by
  intro k
  induction k with
  | zero =>
    intro s
    simp [MR_shutdown_all_engines_wait_loop]
  | succ k ih =>
    intro s
    simp only [MR_shutdown_all_engines_wait_loop, MR_SEM_WAIT]
    by_cases h0 : s.shutdown_semaphore = 0
    · have hs : { s with shutdown_semaphore := 0 } = s := by
        cases s
        simp only at h0
        subst h0
        rfl
      simp [h0, hs]
    · simp only [h0, if_false, ih]
      by_cases hk : k + 1 ≤ s.shutdown_semaphore
      · have : k ≤ s.shutdown_semaphore - 1 := by omega
        simp only [this, hk, if_true]
        congr 2
        omega
      · have : ¬ k ≤ s.shutdown_semaphore - 1 := by omega
        simp only [this, hk, if_false]
        congr 1
        omega

/-- The first loop of `MR_shutdown_all_engines` as a whole: it returns the
state in which the shutdown has been issued. -/
theorem shutdown_wake_loop_issued (s : Runtime) (me : Nat)
    (hw : ∀ j < s.MR_num_threads, j ≠ me →
      0 < (s.engine_sleep_sync_data j).es_wake_semaphore)
    (hst : ∀ j < s.MR_num_threads, j ≠ me →
      valid_engine_state (s.engine_sleep_sync_data j).es_state) :
    MR_shutdown_all_engines_wake_loop me s.MR_num_threads s = some (shutdown_issued s me) := by
  rw [shutdown_wake_loop_eq me s.MR_num_threads s (Nat.le_refl _)
    (fun j _ h2 h3 => ⟨hw j h2 h3, hst j h2 h3⟩)]
  unfold shutdown_issued
  congr 2
  funext j
  have hiff : (s.MR_num_threads - s.MR_num_threads ≤ j ∧ j < s.MR_num_threads ∧ j ≠ me) ↔
      (j < s.MR_num_threads ∧ j ≠ me) := by
    constructor
    · rintro ⟨_, b, c⟩
      exact ⟨b, c⟩
    · rintro ⟨b, c⟩
      exact ⟨by omega, b, c⟩
  simp only [hiff]

/-- The call of `MR_shutdown_all_engines`: the shutdown is issued, and then
the caller waits `MR_num_threads - 1` times. -/
theorem shutdown_all_engines_eq (s : Runtime) (me : Nat)
    (hw : ∀ j < s.MR_num_threads, j ≠ me →
      0 < (s.engine_sleep_sync_data j).es_wake_semaphore)
    (hst : ∀ j < s.MR_num_threads, j ≠ me →
      valid_engine_state (s.engine_sleep_sync_data j).es_state) :
    MR_shutdown_all_engines s me = some
      (if s.MR_num_threads - 1 ≤ s.shutdown_semaphore then
        ShutdownResult.returned
          { shutdown_issued s me with
            shutdown_semaphore := s.shutdown_semaphore - (s.MR_num_threads - 1) }
      else
        ShutdownResult.blocked (s.MR_num_threads - 1 - s.shutdown_semaphore)
          { shutdown_issued s me with shutdown_semaphore := 0 }) := by
  unfold MR_shutdown_all_engines
  rw [shutdown_wake_loop_issued s me hw hst]
  simp only
  rw [shutdown_wait_loop_eq]
  rfl

/-- Among the engine ids below `n` all but one differ from `me`. -/
theorem range_filter_ne_length (n me : Nat) (hme : me < n) :
    ((List.range n).filter (fun j => decide (j ≠ me))).length = n - 1 := by
  have hnd : (List.range n).Nodup := List.nodup_range n
  have hmem : me ∈ List.range n := List.mem_range.mpr hme
  have herase : (List.range n).erase me = (List.range n).filter (fun j => decide (j ≠ me)) := by
    rw [hnd.erase_eq_filter]
    congr 1
    funext j
    by_cases h : j = me <;> simp [h]
  rw [← herase, List.length_erase_of_mem hmem, List.length_range]

/-- C25: `MR_shutdown_all_engines` on `N` engines, called by engine `me`,
while every other engine is in one of the four states and its wake semaphore
is free.  The call issues the shutdown and then waits `N - 1` times: it ends
in the state where every engine except the caller has been signalled with
the action SHUTDOWN, returned when the shutdown semaphore held `N - 1` posts
(which it has taken), and otherwise blocked with the posts that were there
taken and the rest of the `N - 1` waits still to go.  Each of the wakes
succeeds whatever state the target is in (`try_wake_engine` with
`ENGINE_STATE_ALL` returns true).  In the state the call ends in every
engine except the caller is WOKEN with the action SHUTDOWN and its sleep
semaphore posted once, no other synchroniser has changed, and the
synchronisers that have changed are `N - 1`.  A caller blocked with `k` waits
to go returns, in whatever state it continues, exactly when the semaphore
holds `k` posts, and takes them.  An engine other than engine 0 that
dispatches SHUTDOWN lowers the idle count by one, posts the shutdown
semaphore once and exits.  With `N = 1` the call returns at once and the
state is unchanged. -/
theorem shutdown_all_engines_spec (s : Runtime) (me : Nat) (hme : me < s.MR_num_threads)
    (hw : ∀ j < s.MR_num_threads, j ≠ me →
      0 < (s.engine_sleep_sync_data j).es_wake_semaphore)
    (hst : ∀ j < s.MR_num_threads, j ≠ me →
      valid_engine_state (s.engine_sleep_sync_data j).es_state) :
    MR_shutdown_all_engines s me = some
      (if s.MR_num_threads - 1 ≤ s.shutdown_semaphore then
        ShutdownResult.returned
          { shutdown_issued s me with
            shutdown_semaphore := s.shutdown_semaphore - (s.MR_num_threads - 1) }
      else
        ShutdownResult.blocked (s.MR_num_threads - 1 - s.shutdown_semaphore)
          { shutdown_issued s me with shutdown_semaphore := 0 }) ∧
    (∀ j, j < s.MR_num_threads → j ≠ me →
      try_wake_engine s j MR_EngineAction.MR_ENGINE_ACTION_SHUTDOWN none ENGINE_STATE_ALL
        = some (true, signalled s j MR_EngineAction.MR_ENGINE_ACTION_SHUTDOWN none)) ∧
    (∀ r, MR_shutdown_all_engines s me = some r →
      (∀ j, j < s.MR_num_threads → j ≠ me →
        (r.state.engine_sleep_sync_data j).es_state = ENGINE_STATE_WOKEN ∧
        (r.state.engine_sleep_sync_data j).es_action
          = MR_EngineAction.MR_ENGINE_ACTION_SHUTDOWN ∧
        (r.state.engine_sleep_sync_data j).es_sleep_semaphore
          = (s.engine_sleep_sync_data j).es_sleep_semaphore + 1) ∧
      (∀ j, ¬ (j < s.MR_num_threads ∧ j ≠ me) →
        r.state.engine_sleep_sync_data j = s.engine_sleep_sync_data j) ∧
      ((List.range s.MR_num_threads).filter (fun j =>
        decide (r.state.engine_sleep_sync_data j ≠ s.engine_sleep_sync_data j))).length
          = s.MR_num_threads - 1 ∧
      (∀ t, r = ShutdownResult.returned t →
        t.shutdown_semaphore + (s.MR_num_threads - 1) = s.shutdown_semaphore) ∧
      (∀ k t, r = ShutdownResult.blocked k t →
        0 < k ∧ t.shutdown_semaphore = 0 ∧
        s.shutdown_semaphore + k = s.MR_num_threads - 1)) ∧
    (∀ (k : Nat) (t : Runtime), MR_shutdown_all_engines_wait_loop k t =
      (if k ≤ t.shutdown_semaphore then
        ShutdownResult.returned { t with shutdown_semaphore := t.shutdown_semaphore - k }
      else
        ShutdownResult.blocked (k - t.shutdown_semaphore)
          { t with shutdown_semaphore := 0 })) ∧
    (∀ (fuel : Nat) (t : Runtime) (j : Nat), j ≠ 0 →
      MR_do_sleep_action fuel t j MR_EngineAction.MR_ENGINE_ACTION_SHUTDOWN =
        Outcome.ok (SleepResult.thread_exit
          { t with
            MR_num_idle_engines := t.MR_num_idle_engines - 1
            shutdown_semaphore := t.shutdown_semaphore + 1 })) ∧
    (s.MR_num_threads = 1 → MR_shutdown_all_engines s me = some (ShutdownResult.returned s)) := by
  have heq := shutdown_all_engines_eq s me hw hst
  have hsync : ∀ r, MR_shutdown_all_engines s me = some r →
      r.state.engine_sleep_sync_data = (shutdown_issued s me).engine_sleep_sync_data := by
    intro r hr
    rw [heq] at hr
    have := Option.some.inj hr
    rw [← this]
    split <;> rfl
  refine ⟨heq, ?_, ?_, shutdown_wait_loop_eq, ?_, ?_⟩
  · intro j hj hjm
    exact try_wake_engine_accepted s j _ none ENGINE_STATE_ALL (hw j hj hjm)
      (valid_state_in_all _ (hst j hj hjm))
  · intro r hr
    have hs := hsync r hr
    refine ⟨?_, ?_, ?_, ?_, ?_⟩
    · intro j hj hjm
      have hc : j < s.MR_num_threads ∧ j ≠ me := ⟨hj, hjm⟩
      rw [hs]
      simp only [shutdown_issued, if_pos hc]
      simp [signalled]
    · intro j hj
      rw [hs]
      simp only [shutdown_issued, if_neg hj]
    · rw [← range_filter_ne_length s.MR_num_threads me hme, hs]
      congr 1
      apply List.filter_congr
      intro j hj
      have hj' : j < s.MR_num_threads := List.mem_range.mp hj
      simp only [shutdown_issued]
      by_cases hjm : j = me
      · have hc : ¬ (j < s.MR_num_threads ∧ j ≠ me) := fun h => h.2 hjm
        simp only [if_neg hc]
        simp [hjm]
      · have hc : j < s.MR_num_threads ∧ j ≠ me := ⟨hj', hjm⟩
        simp only [if_pos hc]
        have hne : (signalled s j MR_EngineAction.MR_ENGINE_ACTION_SHUTDOWN
            none).engine_sleep_sync_data j ≠ s.engine_sleep_sync_data j := by
          intro h
          have := congrArg engine_sleep_sync.es_sleep_semaphore h
          simp [signalled] at this
        simp [hne, hjm]
    · intro t ht
      rw [heq, ht] at hr
      have hr := Option.some.inj hr
      by_cases hc : s.MR_num_threads - 1 ≤ s.shutdown_semaphore
      · rw [if_pos hc] at hr
        have := ShutdownResult.returned.inj hr
        rw [← this]
        show s.shutdown_semaphore - (s.MR_num_threads - 1) + (s.MR_num_threads - 1)
          = s.shutdown_semaphore
        omega
      · rw [if_neg hc] at hr
        cases hr
    · intro k t ht
      rw [heq, ht] at hr
      have hr := Option.some.inj hr
      by_cases hc : s.MR_num_threads - 1 ≤ s.shutdown_semaphore
      · rw [if_pos hc] at hr
        cases hr
      · rw [if_neg hc] at hr
        obtain ⟨h1, h2⟩ := ShutdownResult.blocked.inj hr
        rw [← h1, ← h2]
        refine ⟨by omega, rfl, by omega⟩
  · intro fuel t j hj
    simp [MR_do_sleep_action, hj, MR_destroy_thread, MR_SEM_POST]
  · intro h1
    rw [heq]
    have hc : s.MR_num_threads - 1 ≤ s.shutdown_semaphore := by omega
    rw [if_pos hc]
    have hsame : shutdown_issued s me = s := by
      unfold shutdown_issued
      have : (fun j => if j < s.MR_num_threads ∧ j ≠ me then
          (signalled s j MR_EngineAction.MR_ENGINE_ACTION_SHUTDOWN none).engine_sleep_sync_data j
          else s.engine_sleep_sync_data j) = s.engine_sleep_sync_data := by
        funext j
        have : ¬ (j < s.MR_num_threads ∧ j ≠ me) := by omega
        rw [if_neg this]
      rw [this]
    rw [hsame]
    congr 2
    cases s
    simp only at h1 ⊢
    subst h1
    rfl


/-- Witness for C25: three engines, 1 and 2 asleep, engine 0 shuts down with
the shutdown semaphore at 0.  The call signals engines 1 and 2 and blocks
with two waits to go.  When only engine 1 has dispatched SHUTDOWN the caller
takes its post and blocks again with one wait to go; when engine 2 has done
so as well the caller returns, the idle count is 0 and the shutdown
semaphore is back at 0. -/
theorem shutdown_all_engines_spec_witness :
    0 < shutdown_start.MR_num_threads ∧
    (∀ j < shutdown_start.MR_num_threads, j ≠ 0 →
      0 < (shutdown_start.engine_sleep_sync_data j).es_wake_semaphore) ∧
    (∀ j < shutdown_start.MR_num_threads, j ≠ 0 →
      valid_engine_state (shutdown_start.engine_sleep_sync_data j).es_state) ∧
    MR_shutdown_all_engines shutdown_start 0 = some
      (ShutdownResult.blocked 2 (shutdown_issued shutdown_start 0)) ∧
    ((shutdown_issued shutdown_start 0).engine_sleep_sync_data 1).es_state
      = ENGINE_STATE_WOKEN ∧
    ((shutdown_issued shutdown_start 0).engine_sleep_sync_data 2).es_action
      = MR_EngineAction.MR_ENGINE_ACTION_SHUTDOWN ∧
    (∃ s2 s2w s3 s4,
      MR_do_sleep_from_wait 4 1 1 (shutdown_issued shutdown_start 0)
        = Outcome.ok (SleepResult.thread_exit s2) ∧
      MR_shutdown_all_engines_wait_loop 2 s2 = ShutdownResult.blocked 1 s2w ∧
      MR_do_sleep_from_wait 4 2 1 s2w = Outcome.ok (SleepResult.thread_exit s3) ∧
      MR_shutdown_all_engines_wait_loop 1 s3 = ShutdownResult.returned s4 ∧
      s4.shutdown_semaphore = 0 ∧ s4.MR_num_idle_engines = 0) :=
  ⟨by decide, by decide, by decide,
    (shutdown_all_engines_spec shutdown_start 0 (by decide) (by decide) (by decide)).1,
    by decide, by decide,
    ⟨_, _, _, _, rfl, rfl, rfl, rfl, by decide, by decide⟩⟩

/-! ## The dispatch of `MR_do_sleep` -/

/-- C22, the code does not keep the equality: engine 1 goes idle and to
sleep (idle count 1, one engine asleep); engine 0 schedules context 5, which
wakes engine 1 with the action CONTEXT; engine 1 resumes context 5 at
`label 9`.  In that state no transition is in flight and no engine is IDLE or
SLEEPING, but `MR_num_idle_engines` is still 1.  When engine 1 later goes
idle and to sleep again the counter is 2 with one engine asleep. -/
theorem idle_counter_not_lowered_on_wake :
    ∃ s1 s2 s3 s4 s5 s6,
      MR_do_idle 4 idle_count_start 1 = Outcome.ok (MR_ENTRY MR_Entry.MR_do_sleep, s1) ∧
      MR_do_sleep 1 4 s1 1 = Outcome.ok (SleepResult.blocked s2) ∧
      s2.MR_num_idle_engines = 1 ∧ idle_or_sleeping_engines s2 = 1 ∧
      MR_schedule_context s2 0 5 = some s3 ∧
      MR_do_sleep_from_wait 4 1 1 s3 = Outcome.ok (SleepResult.jump (MR_Code.label 9) s4) ∧
      (s4.engines 1).MR_eng_this_context = 5 ∧
      (s4.engine_sleep_sync_data 0).es_state = ENGINE_STATE_WORKING ∧
      (s4.engine_sleep_sync_data 1).es_state = ENGINE_STATE_WOKEN ∧
      s4.MR_num_idle_engines = 1 ∧ idle_or_sleeping_engines s4 = 0 ∧
      MR_do_idle 4 s4 1 = Outcome.ok (MR_ENTRY MR_Entry.MR_do_sleep, s5) ∧
      MR_do_sleep 1 4 s5 1 = Outcome.ok (SleepResult.blocked s6) ∧
      s6.MR_num_idle_engines = 2 ∧ idle_or_sleeping_engines s6 = 1 :=
  ⟨_, _, _, _, _, _, rfl, rfl, by decide, by decide, rfl, rfl, by decide, by decide,
    by decide, by decide, by decide, rfl, rfl, by decide, by decide⟩

/-! ## The states of an engine and the changes between them -/

end Mercury
